import Mathlib

/-!
# ShaderConfig: validation of the shader configuration document

A shallow embedding of `src/ShaderConfig.cpp`.  The C++ code walks a rapidjson
document and either fills in a `ShaderConfig` or throws `runtime_error`.  Here
the document is a value of the inductive type `Json`, every parsing function
returns `Except Error _`, and the name registries (`std::set<string>` passed by
reference) are threaded explicitly.  Strings handed out by `GetString()` are
read as C strings, and `float` values are finite numbers or infinities.
-/

set_option linter.dupNamespace false

namespace MusicVisualizer

/-! ## The rapidjson value tree -/

/-- The C string held in a character buffer with the contents `s`: the
characters in front of the first NUL. -/
def c_str (s : String) : String := ⟨s.data.takeWhile (fun c => c != Char.ofNat 0)⟩

/-- A parsed rapidjson value.  Objects keep their members in document order and
may hold several members with the same key, as rapidjson does.  `int` is a
number written as an integer literal, `dbl` a number held as a double (the
payload is its exact value; a parsed document holds no number beyond the range
of `double`).  String payloads and member names are the whole character data,
which may hold NUL characters (written `\u0000` in the document). -/
inductive Json where
  | null
  | bool (b : Bool)
  | int (n : Int)
  | dbl (q : Rat)
  | str (s : String)
  | arr (elems : List Json)
  | obj (members : List (String × Json))

namespace Json

def IsObject : Json → Bool
  | obj _ => true
  | _ => false

def IsArray : Json → Bool
  | arr _ => true
  | _ => false

def IsString : Json → Bool
  | str _ => true
  | _ => false

def IsBool : Json → Bool
  | bool _ => true
  | _ => false

def IsNumber : Json → Bool
  | int _ => true
  | dbl _ => true
  | _ => false

/-- `IsInt()` holds for integer literals that fit a signed 32-bit `int`. -/
def IsInt : Json → Bool
  | int n => decide (-2147483648 ≤ n ∧ n ≤ 2147483647)
  | _ => false

def GetInt : Json → Int
  | int n => n
  | _ => 0

def GetBool : Json → Bool
  | bool b => b
  | _ => false

/-- `GetString()` returns a `const char*`.  Every use in the source reads it as
a C string (it builds a `std::string` from it, or compares it with one), which
ends at the first NUL character. -/
def GetString : Json → String
  | str s => c_str s
  | _ => ""

/-- The members of an object, in document order (`MemberBegin()` to `MemberEnd()`). -/
def Members : Json → List (String × Json)
  | obj ms => ms
  | _ => []

def MemberCount (v : Json) : Nat := v.Members.length

/-- `FindMember`: the first member with the given key. -/
def FindMember (v : Json) (key : String) : Option Json :=
  (v.Members.find? (fun m => m.1 == key)).map Prod.snd

def HasMember (v : Json) (key : String) : Bool := (v.FindMember key).isSome

/-- `operator[](const char*)`: the value of the first member with the given key
(a static null value when there is none; every use in the source is guarded by
`HasMember`). -/
def member (v : Json) (key : String) : Json := (v.FindMember key).getD null

/-- The elements of an array. -/
def Elems : Json → List Json
  | arr es => es
  | _ => []

def Size (v : Json) : Nat := v.Elems.length

/-- `operator[](SizeType)`: every use in the source is guarded by a `Size()` check. -/
def elem (v : Json) (i : Nat) : Json := v.Elems.getD i null

end Json

/-! ## Conversion to `float` -/

/-- Round a rational to the nearest integer, ties to even. -/
def roundNearestEven (q : Rat) : Int :=
  let f := q.floor
  let r := q - f
  if r < 1 / 2 then f
  else if 1 / 2 < r then f + 1
  else if f % 2 = 0 then f else f + 1

/-- The number of binary digits of `n`, counted with `fuel` halvings at most. -/
def bitLengthAux : Nat → Nat → Nat
  | 0, _ => 0
  | fuel + 1, n => if n = 0 then 0 else bitLengthAux fuel (n / 2) + 1

/-- The number of binary digits of `n`: `2 ^ (bitLength n - 1) ≤ n < 2 ^ bitLength n`
for `n > 0`. -/
def bitLength (n : Nat) : Nat := bitLengthAux n n

/-- The exponent `e` with `2 ^ e ≤ |q| < 2 ^ (e + 1)`, for `q ≠ 0`: the digit
counts of numerator and denominator give it up to one. -/
def binaryExponent (q : Rat) : Int :=
  let e : Int := (bitLength q.num.natAbs : Int) - (bitLength q.den : Int)
  if (2 : Rat) ^ e ≤ |q| then e else e - 1

/-- Round to the nearest binary floating-point value with a `p`-bit significand
and least normal exponent `emin` (ties to even, gradual underflow), with the
exponent not bounded above: the result is the one IEEE 754 rounds to before it
looks at overflow. -/
def roundBinary (p : Nat) (emin : Int) (q : Rat) : Rat :=
  if q = 0 then 0
  else
    let e := max (binaryExponent q) emin
    let ulp : Rat := (2 : Rat) ^ (e - (p - 1 : Int))
    roundNearestEven (q / ulp) * ulp

/-- `GetDouble()`: integer literals are converted to `double`. -/
def Json.GetDouble : Json → Rat
  | .int n => roundBinary 53 (-1022) n
  | .dbl q => q
  | _ => 0

/-- A value of the C++ type `float`: a finite number or an infinity.  (No NaN
arises from the conversion of a JSON number.) -/
inductive Float32 where
  | fin (q : Rat)
  | inf (negative : Bool)
  deriving DecidableEq, Repr

/-- The comparison `a < b` of two `float` values. -/
def Float32.lt : Float32 → Float32 → Bool
  | .fin a, .fin b => decide (a < b)
  | .fin _, .inf negative => !negative
  | .inf negative, .fin _ => negative
  | .inf a, .inf b => a && !b

instance : LT Float32 := ⟨fun a b => Float32.lt a b = true⟩

instance : LE Float32 := ⟨fun a b => Float32.lt b a = false⟩

instance (a b : Float32) : Decidable (a < b) :=
  inferInstanceAs (Decidable (Float32.lt a b = true))

instance (a b : Float32) : Decidable (a ≤ b) :=
  inferInstanceAs (Decidable (Float32.lt b a = false))

/-- The conversion `static_cast<float>(d)` of a `double`: rounding to nearest,
and an infinity when the rounded value lies beyond the largest finite `float`,
`(2 ^ 24 - 1) * 2 ^ 104` (the next value of the format would be `2 ^ 128`). -/
def toFloat32 (d : Rat) : Float32 :=
  let r := roundBinary 24 (-126) d
  if (2 : Rat) ^ 128 ≤ |r| then .inf (decide (r < 0)) else .fin r

/-- `GetFloat()` is `static_cast<float>(GetDouble())`. -/
def Json.GetFloat (v : Json) : Float32 := toFloat32 v.GetDouble

/-! ## The configuration (`ShaderConfig.h`) -/

/-- What a failed build reports.  `runtime_error` carries the message of the
C++ exception; `undefined_behaviour` marks an out-of-range `vector::operator[]`,
which the C++ code performs unchecked. -/
inductive Error where
  | runtime_error (what : String)
  | undefined_behaviour
  deriving DecidableEq, Repr

open Error (runtime_error)

deriving instance DecidableEq for Except

/-- Modelled from the spec: `struct AudioOptions` of the missing header
`ShaderConfig.h`, with the four fields the source assigns. -/
structure AudioOptions where
  fft_smooth : Float32
  wave_smooth : Float32
  fft_sync : Bool
  diff_sync : Bool
  deriving DecidableEq, Repr

/-- Modelled from the spec: `struct Buffer` of the missing header
`ShaderConfig.h`, with the fields the source assigns (`clear_color` is a
`float[3]`). -/
structure Buffer where
  name : String
  width : Int
  height : Int
  is_window_size : Bool
  geom_iters : Int
  clear_color : Float32 × Float32 × Float32
  deriving DecidableEq, Repr

/-- Modelled from the spec: `struct Uniform` of the missing header
`ShaderConfig.h`. -/
structure Uniform where
  name : String
  values : List Float32
  deriving DecidableEq, Repr

/-- Modelled from the spec: the data members of `class ShaderConfig` of the
missing header `ShaderConfig.h`, as the constructor assigns them
(`mInitWinSize` is a width and height pair). -/
structure ShaderConfig where
  mInitWinSize_width : Int
  mInitWinSize_height : Int
  mAudio_enabled : Bool
  mAudio_ops : AudioOptions
  mBlend : Bool
  mImage : Buffer
  mBuffers : List Buffer
  mRender_order : List Nat
  mUniforms : List Uniform
  deriving DecidableEq, Repr

def WINDOW_SZ_KEY : String := "window_size"

/-! ## The parsers -/

def parse_audio_options (user_conf : Json) : Except Error AudioOptions :=
  let audio_options := user_conf.member "audio_options"
  if !audio_options.IsObject then
    throw (runtime_error "Audio options must be a json object")
  else if !audio_options.HasMember "fft_smooth" then
    throw (runtime_error "Audio options must contain the fft_smooth option")
  else if !audio_options.HasMember "wave_smooth" then
    throw (runtime_error "Audio options must contain the wave_smooth option")
  else if !audio_options.HasMember "fft_sync" then
    throw (runtime_error "Audio options must contain the fft_smooth option")
  else if !audio_options.HasMember "diff_sync" then
    throw (runtime_error "Audio options must contain the diff_sync option")
  else
    let fft_smooth := audio_options.member "fft_smooth"
    let wave_smooth := audio_options.member "wave_smooth"
    let fft_sync := audio_options.member "fft_sync"
    let diff_sync := audio_options.member "diff_sync"
    if !fft_smooth.IsNumber then
      throw (runtime_error "fft_smooth must be a number between in the interval [0, 1]")
    else if !wave_smooth.IsNumber then
      throw (runtime_error "wave_smooth must be a number between in the interval [0, 1]")
    else if !fft_sync.IsBool then
      throw (runtime_error "fft_sync must be true or false")
    else if !diff_sync.IsBool then
      throw (runtime_error "diff_sync must be true or false")
    else if fft_smooth.GetFloat < .fin 0 ∨ fft_smooth.GetFloat > .fin 1 then
      throw (runtime_error "fft_smooth must be in the interval [0, 1]")
    else if wave_smooth.GetFloat < .fin 0 ∨ wave_smooth.GetFloat > .fin 1 then
      throw (runtime_error "wave_smooth must be in the interval [0, 1]")
    else
      pure { fft_smooth := fft_smooth.GetFloat, wave_smooth := wave_smooth.GetFloat,
             fft_sync := fft_sync.GetBool, diff_sync := diff_sync.GetBool }

/-- The `clear_color` block shared by `parse_image_buffer` and `parse_buffer`:
three numbers when the key is present (`what` is the message thrown otherwise),
zeros when it is absent. -/
def parse_clear_color (v : Json) (what : String) :
    Except Error (Float32 × Float32 × Float32) :=
  if v.HasMember "clear_color" then
    let clear_color := v.member "clear_color"
    if !(clear_color.IsArray && clear_color.Size == 3) then
      throw (runtime_error what)
    else if !(clear_color.elem 0).IsNumber then throw (runtime_error what)
    else if !(clear_color.elem 1).IsNumber then throw (runtime_error what)
    else if !(clear_color.elem 2).IsNumber then throw (runtime_error what)
    else pure ((clear_color.elem 0).GetFloat, (clear_color.elem 1).GetFloat,
               (clear_color.elem 2).GetFloat)
  else
    pure (.fin 0, .fin 0, .fin 0)

def parse_image_buffer (user_conf : Json) : Except Error Buffer :=
  let image := user_conf.member "image"
  if !image.IsObject then
    throw (runtime_error "image is not a json object")
  else if !image.HasMember "geom_iters" then
    throw (runtime_error "image does not contain the geom_iters option")
  else
    let geom_iters := image.member "geom_iters"
    if !geom_iters.IsInt || geom_iters.GetInt ≤ 0 then
      throw (runtime_error "image.geom_iters must be a positive integer")
    else do
      let clear_color ← parse_clear_color image
        "image.clear_color must be an array of 3 real numbers each between 0 and 1"
      pure { name := "", width := 0, height := 0, is_window_size := true,
             geom_iters := geom_iters.GetInt, clear_color := clear_color }

/-- `std::isalpha` in the "C" locale: the ASCII letters. -/
def isalpha (c : Char) : Bool := c.isAlpha

/-- The `size` block of `parse_buffer`: width, height and `is_window_size`. -/
def parse_size (b_size : Json) (buffer_name : String) : Except Error (Int × Int × Bool) :=
  if b_size.IsArray && b_size.Size == 2 then
    if !(b_size.elem 0).IsInt || !(b_size.elem 1).IsInt then
      throw (runtime_error (buffer_name ++ ".size must be an array of two positive integers"))
    else
      pure ((b_size.elem 0).GetInt, (b_size.elem 1).GetInt, false)
  else if b_size.IsString && b_size.GetString == WINDOW_SZ_KEY then
    pure (0, 0, true)
  else
    throw (runtime_error (buffer_name ++ ".size must be an array of two positive integers"))

/-- Returns the buffer together with the name registry after the insertion of
`buffer_name` (the source updates `buffer_names` in place). -/
def parse_buffer (buffer : Json) (buffer_name : String) (buffer_names : List String) :
    Except Error (Buffer × List String) :=
  if buffer_name == "" then
    throw (runtime_error "Buffer must have a name")
  else if buffer_names.contains buffer_name then
    throw (runtime_error
      ("Buffer name " ++ buffer_name ++ " already used (buffers must have unique names)"))
  else
    let buffer_names := buffer_name :: buffer_names
    if !(isalpha (buffer_name.get 0) || buffer_name.get 0 == '_') then
      throw (runtime_error ("Invalid buffer name: " ++ buffer_name ++
        " buffer names must start with either a letter or an underscore"))
    else if buffer_name == "image" then
      throw (runtime_error "Cannot name buffer image")
    else if !buffer.IsObject then
      throw (runtime_error ("Buffer " ++ buffer_name ++ " is not a json object"))
    else if !buffer.HasMember "size" then
      throw (runtime_error (buffer_name ++ " does not contain the size option"))
    else if !buffer.HasMember "geom_iters" then
      throw (runtime_error (buffer_name ++ " does not contain the geom_iters option"))
    else do
      let clear_color ← parse_clear_color buffer
        (buffer_name ++ ".clear_color must be an array of 3 real numbers each between 0 and 1")
      let b_geom_iters := buffer.member "geom_iters"
      let size ← parse_size (buffer.member "size") buffer_name
      if !b_geom_iters.IsInt || b_geom_iters.GetInt == 0 then
        throw (runtime_error (buffer_name ++ ".geom_iters must be a positive integer"))
      else
        pure ({ name := buffer_name, width := size.1, height := size.2.1,
                is_window_size := size.2.2,
                geom_iters := b_geom_iters.GetInt, clear_color := clear_color },
              buffer_names)

/-- The member loop of `parse_buffers`: `buffer_names` is the registry so far,
`buffers_vec` the buffers pushed so far.  The name handed to `parse_buffer` is
the `std::string` built from `memb->name.GetString()`. -/
def parse_buffers_loop :
    List (String × Json) → List String → List Buffer → Except Error (List Buffer)
  | [], _, buffers_vec => pure buffers_vec
  | memb :: rest, buffer_names, buffers_vec =>
    parse_buffer memb.2 (c_str memb.1) buffer_names >>= fun r =>
      parse_buffers_loop rest r.2 (buffers_vec ++ [r.1])

def parse_buffers (user_conf : Json) : Except Error (List Buffer) :=
  let buffers := user_conf.member "buffers"
  if !buffers.IsObject then
    throw (runtime_error "buffers is not a json object")
  else if buffers.MemberCount == 0 then
    pure []
  else
    parse_buffers_loop buffers.Members [] []

/-- The inner loop of `parse_render_order`: the first `j` with
`buffers[j].name == b_name`, or `none` for the sentinel `-1`. -/
def find_buffer (buffers : List Buffer) (b_name : String) : Option Nat :=
  buffers.findIdx? (fun b => b.name == b_name)

/-- The element loop of `parse_render_order`; `ro` is the sequence pushed so far. -/
def parse_render_order_loop (buffers : List Buffer) :
    List Json → List Nat → Except Error (List Nat)
  | [], ro => pure ro
  | v :: rest, ro =>
    if !v.IsString then
      throw (runtime_error "render_order can only contain strings (buffer names)")
    else
      let b_name := v.GetString
      match find_buffer buffers b_name with
      | none => throw (runtime_error ("render_order member \"" ++ b_name ++
          "\" must be the name of a buffer in \"buffers\""))
      | some index => parse_render_order_loop buffers rest (ro ++ [index])

def parse_render_order (user_conf : Json) (buffers : List Buffer) : Except Error (List Nat) :=
  if !user_conf.HasMember "render_order" then
    pure (List.range buffers.length)
  else if buffers.length == 0 then
    pure []
  else
    let render_order := user_conf.member "render_order"
    if !render_order.IsArray || render_order.Size == 0 then
      throw (runtime_error
        "render_order must be an array of strings (buffer names) with length > 0")
    else
      parse_render_order_loop buffers render_order.Elems []

/-- The loop of `delete_unused_buffers`: `used_buff_indices` is the set of
indices seen so far, `used_buffs` the buffers kept so far.  `buffers[i]` is an
unchecked access in the source. -/
def delete_unused_buffers_loop (buffers : List Buffer) :
    List Nat → List Nat → List Buffer → Except Error (List Buffer)
  | [], _, used_buffs => pure used_buffs
  | i :: rest, used_buff_indices, used_buffs =>
    if !used_buff_indices.contains i then
      match buffers[i]? with
      | none => throw Error.undefined_behaviour
      | some b =>
        delete_unused_buffers_loop buffers rest (i :: used_buff_indices) (used_buffs ++ [b])
    else
      delete_unused_buffers_loop buffers rest used_buff_indices used_buffs

/-- Returns the new value of `buffers`; `render_order` is left as it is. -/
def delete_unused_buffers (buffers : List Buffer) (render_order : List Nat) :
    Except Error (List Buffer) :=
  delete_unused_buffers_loop buffers render_order [] []

/-- The element loop of `parse_uniform`; `values` is `u.values` so far. -/
def parse_uniform_loop (uniform_name : String) :
    List Json → List Float32 → Except Error (List Float32)
  | [], values => pure values
  | v :: rest, values =>
    if !v.IsNumber then
      throw (runtime_error ("Uniform " ++ uniform_name ++ " contains a non-numeric value."))
    else
      parse_uniform_loop uniform_name rest (values ++ [v.GetFloat])

/-- Returns the uniform together with the name registry after the insertion of
`uniform_name`. -/
def parse_uniform (uniform : Json) (uniform_name : String) (uniform_names : List String) :
    Except Error (Uniform × List String) :=
  if uniform_names.contains uniform_name then
    throw (runtime_error
      ("Uniform name " ++ uniform_name ++ " already used (uniforms must have unique names)"))
  else
    let uniform_names := uniform_name :: uniform_names
    if uniform.IsArray then
      if uniform.Size > 4 then
        throw (runtime_error
          ("Uniform " ++ uniform_name ++ " must have dimension less than or equal to 4"))
      else do
        let values ← parse_uniform_loop uniform_name uniform.Elems []
        pure ({ name := uniform_name, values := values }, uniform_names)
    else if uniform.IsNumber then
      pure ({ name := uniform_name, values := [uniform.GetFloat] }, uniform_names)
    else
      throw (runtime_error
        ("Uniform " ++ uniform_name ++ " must be either a number or an array of numbers."))

/-- The member loop of `parse_uniforms`.  The name handed to `parse_uniform` is
the `std::string` built from `memb->name.GetString()`. -/
def parse_uniforms_loop :
    List (String × Json) → List String → List Uniform → Except Error (List Uniform)
  | [], _, uniform_vec => pure uniform_vec
  | memb :: rest, uniform_names, uniform_vec =>
    parse_uniform memb.2 (c_str memb.1) uniform_names >>= fun r =>
      parse_uniforms_loop rest r.2 (uniform_vec ++ [r.1])

def parse_uniforms (user_conf : Json) : Except Error (List Uniform) :=
  let uniforms := user_conf.member "uniforms"
  if !uniforms.IsObject then
    throw (runtime_error "Uniforms must be a json object.")
  else if uniforms.MemberCount == 0 then
    pure []
  else
    parse_uniforms_loop uniforms.Members [] []

/-! ## The constructor `ShaderConfig::ShaderConfig(const string&)`

The document is taken after `Parse` has succeeded.  The constructor is split at
the `buffers` section: `ShaderConfig_head` is the object after the `image`
block, with `mBuffers`, `mRender_order` and `mUniforms` still empty vectors. -/

/-- The `initial_window_size` block. -/
def parse_initial_window_size (user_conf : Json) : Except Error (Int × Int) :=
  if user_conf.HasMember "initial_window_size" then
    let window_size := user_conf.member "initial_window_size"
    if !(window_size.IsArray && window_size.Size == 2 && (window_size.elem 0).IsInt
          && (window_size.elem 1).IsInt) then
      throw (runtime_error "initial_window_size must be an array of 2 positive integers")
    else
      pure ((window_size.elem 0).GetInt, (window_size.elem 1).GetInt)
  else
    pure (400, 400)

/-- The `audio_enabled` block. -/
def parse_audio_enabled (user_conf : Json) : Except Error Bool :=
  if user_conf.HasMember "audio_enabled" then
    let audio_enabled := user_conf.member "audio_enabled"
    if !audio_enabled.IsBool then
      throw (runtime_error "audio_enabled must be true or false")
    else
      pure audio_enabled.GetBool
  else
    pure true

/-- The `blend` block. -/
def parse_blend (user_conf : Json) : Except Error Bool :=
  if user_conf.HasMember "blend" then
    if !(user_conf.member "blend").IsBool then
      throw (runtime_error "Invalid type for blend option")
    else
      pure (user_conf.member "blend").GetBool
  else
    pure false

/-- The constructor up to and including the `image` block. -/
def ShaderConfig_head (user_conf : Json) : Except Error ShaderConfig :=
  if !user_conf.IsObject then
    throw (runtime_error "Invalid json file")
  else do
    let mInitWinSize ← parse_initial_window_size user_conf
    let mAudio_enabled ← parse_audio_enabled user_conf
    let mAudio_ops ←
      (if user_conf.HasMember "audio_options" then
        parse_audio_options user_conf
      else
        pure { diff_sync := true, fft_sync := true, fft_smooth := .fin 0.75,
               wave_smooth := .fin 0.75 })
    let mBlend ← parse_blend user_conf
    let mImage ←
      (if user_conf.HasMember "image" then
        parse_image_buffer user_conf
      else
        throw (runtime_error "shader.json needs the image setting"))
    pure { mInitWinSize_width := mInitWinSize.1, mInitWinSize_height := mInitWinSize.2,
           mAudio_enabled := mAudio_enabled, mAudio_ops := mAudio_ops, mBlend := mBlend,
           mImage := mImage, mBuffers := [], mRender_order := [], mUniforms := [] }

/-- The `buffers` block of the constructor, acting on the object so far. -/
def ShaderConfig_buffers (user_conf : Json) (self : ShaderConfig) : Except Error ShaderConfig :=
  if user_conf.HasMember "buffers" then do
    let mBuffers ← parse_buffers user_conf
    let mRender_order ← parse_render_order user_conf mBuffers
    let mBuffers ← delete_unused_buffers mBuffers mRender_order
    pure { self with mBuffers := mBuffers, mRender_order := mRender_order }
  else
    pure self

/-- The `uniforms` block of the constructor, acting on the object so far. -/
def ShaderConfig_uniforms (user_conf : Json) (self : ShaderConfig) : Except Error ShaderConfig :=
  if user_conf.HasMember "uniforms" then do
    let mUniforms ← parse_uniforms user_conf
    pure { self with mUniforms := mUniforms }
  else
    pure self

/-- The constructor `ShaderConfig::ShaderConfig(const string& json_str)`, on the
parsed document. -/
def ShaderConfig.ShaderConfig (user_conf : Json) : Except Error ShaderConfig := do
  let self ← ShaderConfig_head user_conf
  let self ← ShaderConfig_buffers user_conf self
  ShaderConfig_uniforms user_conf self

/-! ## Definitions used in the statements and proofs -/

/-- The error is a C++ exception (a `runtime_error`), not an unchecked access. -/
def Error.thrown : Error → Prop
  | .runtime_error _ => True
  | .undefined_behaviour => False

/-- Every failure of the computation is a thrown exception. -/
def Throws {α : Type} (r : Except Error α) : Prop := ∀ e, r = .error e → e.thrown

/-- The indices at which the loop of `delete_unused_buffers` pushes a buffer:
the elements of `render_order` that are not in `used` and have not occurred
before, in order. -/
def first_seen : List Nat → List Nat → List Nat
  | [], _ => []
  | i :: rest, used =>
    if used.contains i then first_seen rest used else i :: first_seen rest (i :: used)

/-- A value `parse_uniform` accepts: an array of at most four numbers, or a
number. -/
def uniform_value_ok (v : Json) : Prop :=
  (v.IsArray = true ∧ v.Size ≤ 4 ∧ ∀ e ∈ v.Elems, e.IsNumber = true)
    ∨ (v.IsArray = false ∧ v.IsNumber = true)

/-- The number written in the document lies in `[0, 1]`. -/
def in_unit_interval (v : Json) : Prop :=
  (∃ q : Rat, v = Json.dbl q ∧ 0 ≤ q ∧ q ≤ 1) ∨ (∃ n : Int, v = Json.int n ∧ 0 ≤ n ∧ n ≤ 1)

/-- The two values are read alike by a parser that looks at `IsObject()` and at
the members with the given keys only. -/
def agree (keys : List String) (a b : Json) : Prop :=
  a.IsObject = b.IsObject ∧ ∀ k ∈ keys, a.FindMember k = b.FindMember k

/-- The two documents are read alike by the constructor: the same values under
the keys it reads whole, and `audio_options`, `image` and the buffer
definitions alike under the keys their parsers look at. -/
def same_reading (d₁ d₂ : Json) : Prop :=
  d₁.IsObject = d₂.IsObject
    ∧ (∀ k ∈ ["initial_window_size", "audio_enabled", "blend", "render_order", "uniforms"],
        d₁.FindMember k = d₂.FindMember k)
    ∧ (d₁.HasMember "audio_options" = d₂.HasMember "audio_options"
        ∧ agree ["fft_smooth", "wave_smooth", "fft_sync", "diff_sync"]
            (d₁.member "audio_options") (d₂.member "audio_options"))
    ∧ (d₁.HasMember "image" = d₂.HasMember "image"
        ∧ agree ["geom_iters", "clear_color"] (d₁.member "image") (d₂.member "image"))
    ∧ (d₁.HasMember "buffers" = d₂.HasMember "buffers"
        ∧ (d₁.member "buffers").IsObject = (d₂.member "buffers").IsObject
        ∧ List.Forall₂
            (fun m₁ m₂ => m₁.1 = m₂.1 ∧ agree ["size", "geom_iters", "clear_color"] m₁.2 m₂.2)
            (d₁.member "buffers").Members (d₂.member "buffers").Members)

/-! ## Documents and configurations used as instances -/

open Json in
/-- The document
`{"image":{"geom_iters":1},"buffers":{"a":{"size":[1,1],"geom_iters":1},"b":{"size":[1,1],"geom_iters":1}},"render_order":["b"]}`. -/
def doc_render_second : Json :=
  obj [("image", obj [("geom_iters", int 1)]),
       ("buffers", obj [("a", obj [("size", arr [int 1, int 1]), ("geom_iters", int 1)]),
                        ("b", obj [("size", arr [int 1, int 1]), ("geom_iters", int 1)])]),
       ("render_order", arr [str "b"])]

open Json in
/-- The document with buffers `a`, `b`, `c` and `"render_order":["c","a","c"]`. -/
def doc_three_buffers : Json :=
  obj [("image", obj [("geom_iters", int 1)]),
       ("buffers", obj [("a", obj [("size", arr [int 1, int 1]), ("geom_iters", int 1)]),
                        ("b", obj [("size", arr [int 2, int 2]), ("geom_iters", int 1)]),
                        ("c", obj [("size", str "window_size"), ("geom_iters", int 3)])]),
       ("render_order", arr [str "c", str "a", str "c"])]

/-- What the build returns for `doc_three_buffers`. -/
def cfg_three_buffers : ShaderConfig :=
  { mInitWinSize_width := 400, mInitWinSize_height := 400, mAudio_enabled := true,
    mAudio_ops := { fft_smooth := .fin 0.75, wave_smooth := .fin 0.75, fft_sync := true,
                    diff_sync := true },
    mBlend := false,
    mImage := { name := "", width := 0, height := 0, is_window_size := true, geom_iters := 1,
                clear_color := (.fin 0, .fin 0, .fin 0) },
    mBuffers := [{ name := "c", width := 0, height := 0, is_window_size := true,
                   geom_iters := 3, clear_color := (.fin 0, .fin 0, .fin 0) },
                 { name := "a", width := 1, height := 1, is_window_size := false,
                   geom_iters := 1, clear_color := (.fin 0, .fin 0, .fin 0) }],
    mRender_order := [2, 0, 2],
    mUniforms := [] }

open Json in
/-- The document
`{"image":{"geom_iters":1},"buffers":{},"render_order":["x"]}`. -/
def doc_empty_buffers : Json :=
  obj [("image", obj [("geom_iters", int 1)]), ("buffers", obj []),
       ("render_order", arr [str "x"])]

open Json in
/-- The document
`{"image":{"geom_iters":1},"buffers":{"a":{"size":[1,1],"geom_iters":1}},"render_order":["a","x"]}`. -/
def doc_unknown_name : Json :=
  obj [("image", obj [("geom_iters", int 1)]),
       ("buffers", obj [("a", obj [("size", arr [int 1, int 1]), ("geom_iters", int 1)])]),
       ("render_order", arr [str "a", str "x"])]

open Json in
/-- The document
`{"image":{"geom_iters":1},"buffers":{"a":{"size":"window_size","geom_iters":2},"b":{"size":[10,20],"geom_iters":1}}}`. -/
def doc_no_render_order : Json :=
  obj [("image", obj [("geom_iters", int 1)]),
       ("buffers", obj [("a", obj [("size", str "window_size"), ("geom_iters", int 2)]),
                        ("b", obj [("size", arr [int 10, int 20]), ("geom_iters", int 1)])])]

/-- What the build returns for `doc_no_render_order`. -/
def cfg_no_render_order : ShaderConfig :=
  { mInitWinSize_width := 400, mInitWinSize_height := 400, mAudio_enabled := true,
    mAudio_ops := { fft_smooth := .fin 0.75, wave_smooth := .fin 0.75, fft_sync := true,
                    diff_sync := true },
    mBlend := false,
    mImage := { name := "", width := 0, height := 0, is_window_size := true, geom_iters := 1,
                clear_color := (.fin 0, .fin 0, .fin 0) },
    mBuffers := [{ name := "a", width := 0, height := 0, is_window_size := true,
                   geom_iters := 2, clear_color := (.fin 0, .fin 0, .fin 0) },
                 { name := "b", width := 10, height := 20, is_window_size := false,
                   geom_iters := 1, clear_color := (.fin 0, .fin 0, .fin 0) }],
    mRender_order := [0, 1],
    mUniforms := [] }

open Json in
/-- The document
`{"image":{"geom_iters":1},"buffers":{"a":{},"a":{}}}`. -/
def doc_duplicate_invalid : Json :=
  obj [("image", obj [("geom_iters", int 1)]), ("buffers", obj [("a", obj []), ("a", obj [])])]

open Json in
/-- The buffer definition `{"size":[1,1],"geom_iters":1}`. -/
def buffer_1x1 : Json := obj [("size", arr [int 1, int 1]), ("geom_iters", int 1)]

open Json in
/-- The document
`{"image":{"geom_iters":1},"buffers":{"a":{"size":[1,1],"geom_iters":1},"b":{"size":[1,1],"geom_iters":1},"a":{}}}`. -/
def doc_duplicate : Json :=
  obj [("image", obj [("geom_iters", int 1)]),
       ("buffers", obj [("a", buffer_1x1), ("b", buffer_1x1), ("a", obj [])])]

open Json in
/-- The document
`{"initial_window_size":[800,600],"buffers":{"a":{"size":[1,1],"geom_iters":1}},"uniforms":{"u":1}}`. -/
def doc_no_image : Json :=
  obj [("initial_window_size", arr [int 800, int 600]),
       ("buffers", obj [("a", obj [("size", arr [int 1, int 1]), ("geom_iters", int 1)])]),
       ("uniforms", obj [("u", int 1)])]

open Json in
/-- The document
`{"image":{"geom_iters":1},"buffers":{"a":{"size":[1,1],"geom_iters":-1}}}`. -/
def doc_negative_geom_iters : Json :=
  obj [("image", obj [("geom_iters", int 1)]),
       ("buffers", obj [("a", obj [("size", arr [int 1, int 1]), ("geom_iters", int (-1))])])]

open Json in
/-- The document `{"image":{"geom_iters":0}}`. -/
def doc_image_zero : Json := obj [("image", obj [("geom_iters", int 0)])]

open Json in
/-- The document
`{"image":{"geom_iters":1},"buffers":{"a":{"size":[1,1],"geom_iters":1},"b":{"size":[1,1],"geom_iters":0}},"render_order":["a"]}`. -/
def doc_buffer_zero : Json :=
  obj [("image", obj [("geom_iters", int 1)]),
       ("buffers", obj [("a", buffer_1x1),
                        ("b", obj [("size", arr [int 1, int 1]), ("geom_iters", int 0)])]),
       ("render_order", arr [str "a"])]

open Json in
/-- The buffer definition `{"size":[10,20],"geom_iters":2}`. -/
def buffer_10x20 : Json := obj [("size", arr [int 10, int 20]), ("geom_iters", int 2)]

open Json in
/-- The buffer definition `{"size":"window_size","geom_iters":2}`. -/
def buffer_window : Json := obj [("size", str "window_size"), ("geom_iters", int 2)]

open Json in
/-- The buffer definition `{"size":"big","geom_iters":2}`. -/
def buffer_big : Json := obj [("size", str "big"), ("geom_iters", int 2)]

open Json in
/-- The document `{"image":{"geom_iters":1},"initial_window_size":[0,-5]}`. -/
def doc_window_nonpositive : Json :=
  obj [("image", obj [("geom_iters", int 1)]), ("initial_window_size", arr [int 0, int (-5)])]

open Json in
/-- The document `{"image":{"geom_iters":1},"uniforms":{"u":[]}}`. -/
def doc_empty_uniform : Json :=
  obj [("image", obj [("geom_iters", int 1)]), ("uniforms", obj [("u", arr [])])]

open Json in
/-- The document
`{"image":{"geom_iters":1},"uniforms":{"u":[1,2,3,4],"v":2,"w":[]}}`. -/
def doc_uniforms : Json :=
  obj [("image", obj [("geom_iters", int 1)]),
       ("uniforms", obj [("u", arr [int 1, int 2, int 3, int 4]), ("v", int 2),
                         ("w", arr [])])]

/-- What the build returns for `doc_uniforms`. -/
def cfg_uniforms : ShaderConfig :=
  { mInitWinSize_width := 400, mInitWinSize_height := 400, mAudio_enabled := true,
    mAudio_ops := { fft_smooth := .fin 0.75, wave_smooth := .fin 0.75, fft_sync := true,
                    diff_sync := true },
    mBlend := false,
    mImage := { name := "", width := 0, height := 0, is_window_size := true, geom_iters := 1,
                clear_color := (.fin 0, .fin 0, .fin 0) },
    mBuffers := [], mRender_order := [],
    mUniforms := [{ name := "u", values := [.fin 1, .fin 2, .fin 3, .fin 4] },
                  { name := "v", values := [.fin 2] },
                  { name := "w", values := [] }] }

open Json in
/-- The document `{"image":{"geom_iters":1},"uniforms":{"u":"x","u":1}}`. -/
def doc_duplicate_uniform_invalid : Json :=
  obj [("image", obj [("geom_iters", int 1)]), ("uniforms", obj [("u", str "x"), ("u", int 1)])]

open Json in
/-- The document `{"image":{"geom_iters":1},"uniforms":{"u":1,"v":[2,3],"u":4}}`. -/
def doc_duplicate_uniform : Json :=
  obj [("image", obj [("geom_iters", int 1)]),
       ("uniforms", obj [("u", int 1), ("v", arr [int 2, int 3]), ("u", int 4)])]

open Json in
/-- The document `{"image":{"geom_iters":1},"uniforms":{"u\u0000x":1,"u\u0000y":2}}`. -/
def doc_uniform_nul : Json :=
  obj [("image", obj [("geom_iters", int 1)]),
       ("uniforms", obj [("u\x00x", int 1), ("u\x00y", int 2)])]

open Json in
/-- The document
`{"image":{"geom_iters":1},"buffers":{"a":{"size":[1,1],"geom_iters":1}},"render_order":["a\u0000zzz"]}`. -/
def doc_render_order_nul : Json :=
  obj [("image", obj [("geom_iters", int 1)]),
       ("buffers", obj [("a", obj [("size", arr [int 1, int 1]), ("geom_iters", int 1)])]),
       ("render_order", arr [str "a\x00zzz"])]

open Json in
/-- The document
`{"image":{"geom_iters":1},"buffers":{"a":{"size":[1,1],"geom_iters":1}},"uniforms":{"a":[]}}`,
in which a buffer and a uniform have the same name. -/
def doc_same_name : Json :=
  obj [("image", obj [("geom_iters", int 1)]), ("buffers", obj [("a", buffer_1x1)]),
       ("uniforms", obj [("a", arr [])])]

open Json in
/-- The document
`{"audio_options":{"fft_smooth":1.000000000931322574615478515625,"wave_smooth":0.5,"fft_sync":true,"diff_sync":false}}`;
the value of `fft_smooth` is `1 + 2^-30`. -/
def doc_audio_above : Json :=
  obj [("audio_options", obj [("fft_smooth", dbl (1 + 1 / 2 ^ 30)), ("wave_smooth", dbl 0.5),
                              ("fft_sync", bool true), ("diff_sync", bool false)])]

open Json in
/-- The document
`{"audio_options":{"fft_smooth":0,"wave_smooth":1,"fft_sync":true,"diff_sync":false}}`. -/
def doc_audio_bounds : Json :=
  obj [("audio_options", obj [("fft_smooth", int 0), ("wave_smooth", int 1),
                              ("fft_sync", bool true), ("diff_sync", bool false)])]

open Json in
/-- The document
`{"audio_options":{"fft_smooth":1.5,"wave_smooth":1,"fft_sync":true,"diff_sync":false}}`. -/
def doc_audio_out_of_range : Json :=
  obj [("audio_options", obj [("fft_smooth", dbl 1.5), ("wave_smooth", int 1),
                              ("fft_sync", bool true), ("diff_sync", bool false)])]

open Json in
/-- The document `{"audio_options":{"fft_smooth":0.5,"wave_smooth":0.5,"diff_sync":true}}`,
which lacks `fft_sync` only. -/
def doc_audio_no_fft_sync : Json :=
  obj [("audio_options", obj [("fft_smooth", dbl 0.5), ("wave_smooth", dbl 0.5),
                              ("diff_sync", bool true)])]

/-! ## C strings -/

theorem c_str_empty : c_str "" = "" := rfl

/-- A string without a NUL character is its own C string. -/
theorem c_str_eq_self {s : String} (h : Char.ofNat 0 ∉ s.data) : c_str s = s := by
  unfold c_str
  have : s.data.takeWhile (fun c => c != Char.ofNat 0) = s.data := by
    rw [List.takeWhile_eq_self_iff]
    intro c hc
    simp only [bne_iff_ne, ne_eq]
    rintro rfl
    exact h hc
  rw [this]

/-- A non-empty C string starts with the first character of the buffer. -/
theorem c_str_ne_empty {s : String} (h : c_str s ≠ "") :
    s ≠ "" ∧ (c_str s).get 0 = s.get 0 := by
  obtain ⟨l⟩ := s
  cases l with
  | nil => exact absurd rfl h
  | cons c cs =>
    refine ⟨by simp [String.ext_iff], ?_⟩
    unfold c_str at h ⊢
    simp only [List.takeWhile_cons] at h ⊢
    by_cases hc : (c != Char.ofNat 0) = true
    · simp only [hc, if_true]
      rfl
    · simp only [hc] at h
      exact absurd rfl h

theorem ne_of_c_str_ne {s t : String} (h : c_str s ≠ t) (ht : c_str t = t) : s ≠ t := by
  rintro rfl
  exact h ht

/-! ## The exponent of the `float` conversion -/

theorem bitLengthAux_zero (fuel : Nat) : bitLengthAux fuel 0 = 0 := by
  cases fuel <;> simp [bitLengthAux]

/-- The digit count brackets `n` between two powers of two. -/
theorem bitLengthAux_spec (fuel n : Nat) (hn : 0 < n) (hf : n ≤ fuel) :
    2 ^ (bitLengthAux fuel n) ≤ 2 * n ∧ n < 2 ^ (bitLengthAux fuel n) := by
  induction fuel generalizing n with
  | zero => omega
  | succ fuel ih =>
    have hne : n ≠ 0 := by omega
    simp only [bitLengthAux, if_neg hne]
    by_cases h2 : n / 2 = 0
    · have h1 : n = 1 := by omega
      subst h1
      simp [bitLengthAux_zero]
    · obtain ⟨ih1, ih2⟩ := ih (n / 2) (by omega) (by omega)
      rw [pow_succ]
      constructor <;> omega

theorem bitLength_spec (n : Nat) (hn : 0 < n) :
    2 ^ (bitLength n) ≤ 2 * n ∧ n < 2 ^ (bitLength n) :=
  bitLengthAux_spec n n hn (le_refl n)

/-- The exponent of the conversion brackets `|q|` between two powers of two. -/
theorem binaryExponent_bounds (q : Rat) (hq : q ≠ 0) :
    (2 : Rat) ^ binaryExponent q ≤ |q| ∧ |q| < (2 : Rat) ^ (binaryExponent q + 1) := by
  have hN : 0 < q.num.natAbs := Int.natAbs_pos.mpr (Rat.num_ne_zero.mpr hq)
  have hD : 0 < q.den := q.den_pos
  obtain ⟨a1, a2⟩ := bitLength_spec _ hN
  obtain ⟨b1, b2⟩ := bitLength_spec _ hD
  have hqabs : |q| = (q.num.natAbs : Rat) / (q.den : Rat) := by
    rw [Rat.abs_def, Rat.divInt_eq_div, Int.cast_natCast, Int.cast_natCast]
  have hDq : (0 : Rat) < (q.den : Rat) := by exact_mod_cast hD
  have h2a : (0 : Rat) < 2 ^ bitLength q.num.natAbs := by positivity
  have h2b : (0 : Rat) < 2 ^ bitLength q.den := by positivity
  have a1q : (2 : Rat) ^ bitLength q.num.natAbs ≤ 2 * (q.num.natAbs : Rat) := by exact_mod_cast a1
  have a2q : (q.num.natAbs : Rat) < 2 ^ bitLength q.num.natAbs := by exact_mod_cast a2
  have b1q : (2 : Rat) ^ bitLength q.den ≤ 2 * (q.den : Rat) := by exact_mod_cast b1
  have b2q : (q.den : Rat) < 2 ^ bitLength q.den := by exact_mod_cast b2
  have hNq : (0 : Rat) < (q.num.natAbs : Rat) := by exact_mod_cast hN
  have hpow : (2 : Rat) ^ ((bitLength q.num.natAbs : Int) - (bitLength q.den : Int))
      = 2 ^ bitLength q.num.natAbs / 2 ^ bitLength q.den := by
    rw [zpow_sub₀ (by norm_num : (2 : Rat) ≠ 0), zpow_natCast, zpow_natCast]
  unfold binaryExponent
  simp only
  by_cases h : (2 : Rat) ^ ((bitLength q.num.natAbs : Int) - (bitLength q.den : Int)) ≤ |q|
  · rw [if_pos h]
    refine ⟨h, ?_⟩
    rw [zpow_add_one₀ (by norm_num : (2 : Rat) ≠ 0), hpow, hqabs, div_mul_eq_mul_div,
      div_lt_div_iff₀ hDq h2b]
    nlinarith
  · rw [if_neg h]
    constructor
    · rw [zpow_sub_one₀ (by norm_num : (2 : Rat) ≠ 0), hpow, hqabs, div_mul_eq_mul_div,
        div_le_div_iff₀ h2b hDq]
      have : (2 : Rat)⁻¹ = 1 / 2 := by norm_num
      rw [this]
      nlinarith
    · rw [sub_add_cancel]
      exact lt_of_not_le h

/-- The exponent of the conversion is the integer binary logarithm. -/
theorem binaryExponent_eq_log (q : Rat) (hq : q ≠ 0) : binaryExponent q = Int.log 2 |q| := by
  have habs : 0 < |q| := abs_pos.mpr hq
  obtain ⟨h1, h2⟩ := binaryExponent_bounds q hq
  apply le_antisymm
  · exact (Int.zpow_le_iff_le_log (by norm_num) habs).mp (by exact_mod_cast h1)
  · have := (Int.lt_zpow_iff_log_lt (b := 2) (by norm_num) habs).mp (by exact_mod_cast h2)
    omega

/-! ## Failures of the parsers are thrown exceptions -/

theorem Error.thrown_iff (e : Error) : e.thrown ↔ ∃ what, e = runtime_error what := by
  cases e <;> simp [Error.thrown]

theorem Throws.ok {α : Type} (a : α) : Throws (Except.ok a) := by
  intro e h; cases h

theorem Throws.pure {α : Type} (a : α) : Throws (pure a : Except Error α) := Throws.ok a

theorem Throws.throw {α : Type} (what : String) :
    Throws (throw (runtime_error what) : Except Error α) := by
  intro e h; cases h; trivial

theorem Throws.ite {α : Type} {c : Prop} [Decidable c] {a b : Except Error α}
    (ha : Throws a) (hb : Throws b) : Throws (if c then a else b) := by
  by_cases hc : c
  · rw [if_pos hc]; exact ha
  · rw [if_neg hc]; exact hb

theorem Throws.bind {α β : Type} {x : Except Error α} {f : α → Except Error β}
    (hx : Throws x) (hf : ∀ a, Throws (f a)) : Throws (x >>= f) := by
  cases x with
  | error e => intro e' h; cases h; exact hx e rfl
  | ok a => exact hf a

theorem parse_audio_options_throws (d : Json) : Throws (parse_audio_options d) := by
  unfold parse_audio_options
  repeat (first | apply Throws.ite | apply Throws.throw | apply Throws.pure)

theorem parse_clear_color_throws (v : Json) (what : String) :
    Throws (parse_clear_color v what) := by
  unfold parse_clear_color
  repeat (first | apply Throws.ite | apply Throws.throw | apply Throws.pure)

theorem parse_image_buffer_throws (d : Json) : Throws (parse_image_buffer d) := by
  unfold parse_image_buffer
  repeat (first | apply parse_clear_color_throws
                | apply Throws.ite | apply Throws.throw | apply Throws.pure | apply Throws.bind
                | intro _)

theorem parse_size_throws (v : Json) (n : String) : Throws (parse_size v n) := by
  unfold parse_size
  repeat (first | apply Throws.ite | apply Throws.throw | apply Throws.pure)

theorem parse_buffer_throws (v : Json) (n : String) (names : List String) :
    Throws (parse_buffer v n names) := by
  unfold parse_buffer
  repeat (first | apply parse_clear_color_throws | apply parse_size_throws
                | apply Throws.ite | apply Throws.throw | apply Throws.pure | apply Throws.bind
                | intro _)

theorem parse_buffers_loop_throws (ms : List (String × Json)) (names : List String)
    (acc : List Buffer) : Throws (parse_buffers_loop ms names acc) := by
  induction ms generalizing names acc with
  | nil => exact Throws.pure _
  | cons m rest ih =>
    unfold parse_buffers_loop
    exact Throws.bind (parse_buffer_throws _ _ _) (fun r => ih _ _)

theorem parse_buffers_throws (d : Json) : Throws (parse_buffers d) := by
  unfold parse_buffers
  repeat (first | apply Throws.ite | apply Throws.throw | apply Throws.pure
                | apply parse_buffers_loop_throws)

theorem parse_render_order_loop_throws (bs : List Buffer) (vs : List Json) (ro : List Nat) :
    Throws (parse_render_order_loop bs vs ro) := by
  induction vs generalizing ro with
  | nil => exact Throws.pure _
  | cons v rest ih =>
    unfold parse_render_order_loop
    apply Throws.ite (Throws.throw _)
    dsimp only
    cases find_buffer bs v.GetString with
    | none => exact Throws.throw _
    | some j => exact ih _

theorem parse_render_order_throws (d : Json) (bs : List Buffer) :
    Throws (parse_render_order d bs) := by
  unfold parse_render_order
  repeat (first | apply Throws.ite | apply Throws.throw | apply Throws.pure
                | apply parse_render_order_loop_throws)

theorem parse_uniform_loop_throws (n : String) (vs : List Json) (acc : List Float32) :
    Throws (parse_uniform_loop n vs acc) := by
  induction vs generalizing acc with
  | nil => exact Throws.pure _
  | cons v rest ih =>
    unfold parse_uniform_loop
    exact Throws.ite (Throws.throw _) (ih _)

theorem parse_uniform_throws (v : Json) (n : String) (names : List String) :
    Throws (parse_uniform v n names) := by
  unfold parse_uniform
  repeat (first | apply parse_uniform_loop_throws | apply Throws.ite | apply Throws.throw
                | apply Throws.pure | apply Throws.bind | intro _)

theorem parse_uniforms_loop_throws (ms : List (String × Json)) (names : List String)
    (acc : List Uniform) : Throws (parse_uniforms_loop ms names acc) := by
  induction ms generalizing names acc with
  | nil => exact Throws.pure _
  | cons m rest ih =>
    unfold parse_uniforms_loop
    exact Throws.bind (parse_uniform_throws _ _ _) (fun r => ih _ _)

theorem parse_uniforms_throws (d : Json) : Throws (parse_uniforms d) := by
  unfold parse_uniforms
  repeat (first | apply Throws.ite | apply Throws.throw | apply Throws.pure
                | apply parse_uniforms_loop_throws)

theorem parse_initial_window_size_throws (d : Json) :
    Throws (parse_initial_window_size d) := by
  unfold parse_initial_window_size
  repeat (first | apply Throws.ite | apply Throws.throw | apply Throws.pure)

theorem parse_audio_enabled_throws (d : Json) : Throws (parse_audio_enabled d) := by
  unfold parse_audio_enabled
  repeat (first | apply Throws.ite | apply Throws.throw | apply Throws.pure)

theorem parse_blend_throws (d : Json) : Throws (parse_blend d) := by
  unfold parse_blend
  repeat (first | apply Throws.ite | apply Throws.throw | apply Throws.pure)

theorem ShaderConfig_head_throws (d : Json) : Throws (ShaderConfig_head d) := by
  unfold ShaderConfig_head
  repeat (first | apply parse_initial_window_size_throws | apply parse_audio_enabled_throws
                | apply parse_audio_options_throws | apply parse_blend_throws
                | apply parse_image_buffer_throws
                | apply Throws.ite | apply Throws.throw | apply Throws.pure | apply Throws.bind
                | intro _)

theorem ShaderConfig_uniforms_throws (d : Json) (self : ShaderConfig) :
    Throws (ShaderConfig_uniforms d self) := by
  unfold ShaderConfig_uniforms
  repeat (first | apply parse_uniforms_throws | apply Throws.ite | apply Throws.throw
                | apply Throws.pure | apply Throws.bind | intro _)

/-! ## Inversion of successful runs -/

theorem ite_throw_eq_ok {α : Type} {c : Prop} [Decidable c] {e : Error}
    {r : Except Error α} {a : α} :
    (if c then throw e else r) = Except.ok a ↔ ¬c ∧ r = Except.ok a := by
  by_cases hc : c
  · simp only [if_pos hc, hc, not_true_eq_false, false_and, iff_false]
    intro h; cases h
  · rw [if_neg hc]; simp only [hc, not_false_eq_true, true_and]

theorem throw_ne_ok {α : Type} {e : Error} {a : α} :
    (throw e : Except Error α) = Except.ok a ↔ False := by
  constructor
  · intro h; cases h
  · exact False.elim

theorem pure_eq_ok {α : Type} {a b : α} :
    (pure a : Except Error α) = Except.ok b ↔ a = b := by
  constructor
  · intro h; cases h; rfl
  · intro h; rw [h]; rfl

theorem bind_eq_ok {α β : Type} {x : Except Error α} {f : α → Except Error β} {b : β} :
    (x >>= f) = Except.ok b ↔ ∃ a, x = Except.ok a ∧ f a = Except.ok b := by
  cases x with
  | error e =>
    constructor
    · intro h; cases h
    · rintro ⟨a, h, _⟩; cases h
  | ok a =>
    constructor
    · intro h; exact ⟨a, rfl, h⟩
    · rintro ⟨a', h, h'⟩; cases h; exact h'

/-- What a successful `parse_buffer` guarantees about the name and the registry. -/
theorem parse_buffer_ok {v : Json} {n : String} {names names' : List String} {b : Buffer}
    (h : parse_buffer v n names = Except.ok (b, names')) :
    n ≠ "" ∧ n ∉ names ∧ names' = n :: names ∧ (isalpha (n.get 0) = true ∨ n.get 0 = '_')
      ∧ n ≠ "image" ∧ b.name = n ∧ b.geom_iters ≠ 0 := by
  unfold parse_buffer at h
  simp only [ite_throw_eq_ok, bind_eq_ok, pure_eq_ok] at h
  obtain ⟨h1, h2, h3, h4, -, -, -, c, -, sz, -, h5, h6⟩ := h
  injection h6 with hb hn
  subst hb
  refine ⟨by simpa using h1, by simpa using h2, hn.symm, ?_, by simpa using h4, rfl, ?_⟩
  · cases ha : isalpha (n.get 0)
    · right; simpa [ha] using h3
    · left; rfl
  · intro h0
    simp only at h0
    simp [h0] at h5

/-- The invariant of the member loop of `parse_buffers`: on success one buffer
per member is appended, named by the member name read as a C string, and the
names are valid, pairwise distinct and not in the registry the loop started
from. -/
theorem parse_buffers_loop_ok {ms : List (String × Json)} {names : List String}
    {acc r : List Buffer} (h : parse_buffers_loop ms names acc = Except.ok r) :
    ∃ bs, r = acc ++ bs ∧ bs.map Buffer.name = ms.map (fun m => c_str m.1)
      ∧ (ms.map (fun m => c_str m.1)).Nodup ∧ (∀ n ∈ ms.map (fun m => c_str m.1), n ∉ names)
      ∧ (∀ n ∈ ms.map (fun m => c_str m.1),
          n ≠ "" ∧ (isalpha (n.get 0) = true ∨ n.get 0 = '_') ∧ n ≠ "image")
      ∧ ∀ b ∈ bs, b.geom_iters ≠ 0 := by
  induction ms generalizing names acc with
  | nil =>
    unfold parse_buffers_loop at h
    rw [pure_eq_ok] at h
    exact ⟨[], by simp [h], rfl, List.nodup_nil, by simp, by simp, by simp⟩
  | cons m rest ih =>
    unfold parse_buffers_loop at h
    rw [bind_eq_ok] at h
    obtain ⟨⟨b, names'⟩, hb, hrest⟩ := h
    obtain ⟨h1, h2, h3, h4, h5, h6, h7⟩ := parse_buffer_ok hb
    obtain ⟨bs, hr, hnames, hnodup, hfresh, hvalid, hgeom⟩ := ih hrest
    subst h3
    refine ⟨b :: bs, by simp [hr], by simp [hnames, h6], ?_, ?_, ?_, ?_⟩
    · rw [List.map_cons, List.nodup_cons]
      exact ⟨fun hm => (hfresh _ hm) (List.mem_cons_self _ _), hnodup⟩
    · intro n hn
      rw [List.map_cons, List.mem_cons] at hn
      rcases hn with rfl | hn
      · exact h2
      · exact fun hm => (hfresh n hn) (List.mem_cons_of_mem _ hm)
    · intro n hn
      rw [List.map_cons, List.mem_cons] at hn
      rcases hn with rfl | hn
      · exact ⟨h1, h4, h5⟩
      · exact hvalid n hn
    · intro b' hb'
      rw [List.mem_cons] at hb'
      rcases hb' with rfl | hb'
      · exact h7
      · exact hgeom b' hb'

/-- The buffers `parse_buffers` returns: one per member of the `buffers` object,
in member order and named by the member name read as a C string, the names
valid and pairwise distinct. -/
theorem parse_buffers_ok {d : Json} {bs : List Buffer} (h : parse_buffers d = Except.ok bs) :
    (d.member "buffers").IsObject = true
      ∧ bs.map Buffer.name = (d.member "buffers").Members.map (fun m => c_str m.1)
      ∧ (bs.map Buffer.name).Nodup
      ∧ (∀ n ∈ (d.member "buffers").Members.map (fun m => c_str m.1),
          n ≠ "" ∧ (isalpha (n.get 0) = true ∨ n.get 0 = '_') ∧ n ≠ "image")
      ∧ ∀ b ∈ bs, b.geom_iters ≠ 0 := by
  unfold parse_buffers at h
  simp only [ite_throw_eq_ok] at h
  obtain ⟨hobj, h⟩ := h
  have hobj' : (d.member "buffers").IsObject = true := by simpa using hobj
  by_cases hc : ((d.member "buffers").MemberCount == 0) = true
  · rw [if_pos hc, pure_eq_ok] at h
    have hm : (d.member "buffers").Members = [] := by
      simpa [Json.MemberCount] using hc
    subst h
    simp [hm, hobj']
  · rw [if_neg hc] at h
    obtain ⟨bs', hr, hnames, hnodup, -, hvalid, hgeom⟩ := parse_buffers_loop_ok h
    simp only [List.nil_append] at hr
    subst hr
    exact ⟨hobj', hnames, hnames ▸ hnodup, hvalid, hgeom⟩

/-! ## Render order resolution -/

theorem forall₂_right {α β : Type} {R : α → β → Prop} {l₁ : List α} {l₂ : List β}
    (h : List.Forall₂ R l₁ l₂) : ∀ b ∈ l₂, ∃ a, a ∈ l₁ ∧ R a b := by
  induction h with
  | nil => intro b hb; simp at hb
  | cons hh _ ih =>
    intro b hb
    rw [List.mem_cons] at hb
    rcases hb with rfl | hb
    · exact ⟨_, List.mem_cons_self _ _, hh⟩
    · obtain ⟨a, ha, hr⟩ := ih b hb
      exact ⟨a, List.mem_cons_of_mem _ ha, hr⟩

theorem forall₂_left {α β : Type} {R : α → β → Prop} {l₁ : List α} {l₂ : List β}
    (h : List.Forall₂ R l₁ l₂) : ∀ a ∈ l₁, ∃ b, b ∈ l₂ ∧ R a b := by
  induction h with
  | nil => intro a ha; simp at ha
  | cons hh _ ih =>
    intro a ha
    rw [List.mem_cons] at ha
    rcases ha with rfl | ha
    · exact ⟨_, List.mem_cons_self _ _, hh⟩
    · obtain ⟨b, hb, hr⟩ := ih a ha
      exact ⟨b, List.mem_cons_of_mem _ hb, hr⟩

theorem find_buffer_some {bs : List Buffer} {s : String} {j : Nat}
    (h : find_buffer bs s = some j) : ∃ b, bs[j]? = some b ∧ b.name = s := by
  unfold find_buffer at h
  rw [List.findIdx?_eq_some_iff_getElem] at h
  obtain ⟨hj, hp, -⟩ := h
  exact ⟨bs[j], List.getElem?_eq_getElem hj, by simpa using hp⟩

/-- The element loop of `parse_render_order` succeeds exactly when every element
is a string that `find_buffer` resolves; it appends the resolved indices. -/
theorem parse_render_order_loop_ok {bs : List Buffer} {vs : List Json} {acc r : List Nat} :
    parse_render_order_loop bs vs acc = Except.ok r ↔
      ∃ js, r = acc ++ js ∧
        List.Forall₂ (fun v j => v.IsString = true ∧ find_buffer bs v.GetString = some j) vs js := by
  induction vs generalizing acc r with
  | nil =>
    unfold parse_render_order_loop
    rw [pure_eq_ok]
    constructor
    · rintro rfl; exact ⟨[], by simp, List.Forall₂.nil⟩
    · rintro ⟨js, rfl, hjs⟩; cases hjs; simp
  | cons v rest ih =>
    unfold parse_render_order_loop
    rw [ite_throw_eq_ok]
    dsimp only
    cases hf : find_buffer bs v.GetString with
    | none =>
      simp only [throw_ne_ok, and_false, false_iff]
      rintro ⟨js, -, hjs⟩
      cases hjs with
      | cons h _ => rw [hf] at h; exact absurd h.2 (by simp)
    | some j =>
      simp only [ih]
      constructor
      · rintro ⟨hs, js, rfl, hjs⟩
        exact ⟨j :: js, by simp, List.Forall₂.cons ⟨by simpa using hs, hf⟩ hjs⟩
      · rintro ⟨js, rfl, hjs⟩
        cases hjs with
        | cons h hrest =>
          rw [hf] at h
          obtain ⟨hs, hj⟩ := h
          cases hj
          exact ⟨by simp [hs], _, by simp, hrest⟩

/-- The indices `parse_render_order` returns are positions of the buffer list. -/
theorem parse_render_order_lt {d : Json} {bs : List Buffer} {ro : List Nat}
    (h : parse_render_order d bs = Except.ok ro) : ∀ i ∈ ro, i < bs.length := by
  unfold parse_render_order at h
  by_cases h1 : (!d.HasMember "render_order") = true
  · rw [if_pos h1, pure_eq_ok] at h
    subst h
    intro i hi
    exact List.mem_range.mp hi
  · rw [if_neg h1] at h
    by_cases h2 : (bs.length == 0) = true
    · rw [if_pos h2, pure_eq_ok] at h
      subst h
      simp
    · rw [if_neg h2] at h
      simp only [ite_throw_eq_ok, parse_render_order_loop_ok, List.nil_append] at h
      obtain ⟨-, js, rfl, hjs⟩ := h
      intro i hi
      obtain ⟨v, -, -, hv⟩ := forall₂_right hjs i hi
      obtain ⟨b, hb, -⟩ := find_buffer_some hv
      exact (List.getElem?_eq_some_iff.mp hb).1

/-! ## Pruning -/

theorem mem_first_seen {ro used : List Nat} {i : Nat} :
    i ∈ first_seen ro used ↔ i ∈ ro ∧ i ∉ used := by
  induction ro generalizing used with
  | nil => simp [first_seen]
  | cons x rest ih =>
    unfold first_seen
    by_cases hx : used.contains x = true
    · rw [if_pos hx, ih]
      have hx' : x ∈ used := by simpa using hx
      constructor
      · rintro ⟨h1, h2⟩; exact ⟨List.mem_cons_of_mem _ h1, h2⟩
      · rintro ⟨h1, h2⟩
        rw [List.mem_cons] at h1
        rcases h1 with rfl | h1
        · exact absurd hx' h2
        · exact ⟨h1, h2⟩
    · rw [if_neg hx, List.mem_cons, ih]
      have hx' : x ∉ used := by simpa using hx
      constructor
      · rintro (rfl | ⟨h1, h2⟩)
        · exact ⟨List.mem_cons_self _ _, hx'⟩
        · exact ⟨List.mem_cons_of_mem _ h1, fun h => h2 (List.mem_cons_of_mem _ h)⟩
      · rintro ⟨h1, h2⟩
        by_cases hix : i = x
        · exact Or.inl hix
        · right
          rw [List.mem_cons] at h1
          refine ⟨h1.resolve_left hix, ?_⟩
          intro h
          rw [List.mem_cons] at h
          exact h.elim hix h2

theorem nodup_first_seen (ro used : List Nat) : (first_seen ro used).Nodup := by
  induction ro generalizing used with
  | nil => simp [first_seen]
  | cons x rest ih =>
    unfold first_seen
    by_cases hx : used.contains x = true
    · rw [if_pos hx]; exact ih _
    · rw [if_neg hx, List.nodup_cons]
      refine ⟨?_, ih _⟩
      rw [mem_first_seen]
      exact fun h => h.2 (List.mem_cons_self _ _)

/-- Positions in `first_seen` follow the positions of the first occurrences. -/
theorem indexOf_first_seen {ro used : List Nat} {i j : Nat}
    (hi : i ∈ first_seen ro used) (hj : j ∈ first_seen ro used) :
    (first_seen ro used).indexOf i < (first_seen ro used).indexOf j ↔
      ro.indexOf i < ro.indexOf j := by
  induction ro generalizing used with
  | nil => simp [first_seen] at hi
  | cons x rest ih =>
    unfold first_seen at hi hj ⊢
    by_cases hx : used.contains x = true
    · rw [if_pos hx] at hi hj ⊢
      have hx' : x ∈ used := by simpa using hx
      have hix : x ≠ i := fun h => (mem_first_seen.mp hi).2 (h ▸ hx')
      have hjx : x ≠ j := fun h => (mem_first_seen.mp hj).2 (h ▸ hx')
      rw [List.indexOf_cons_ne _ hix, List.indexOf_cons_ne _ hjx, Nat.succ_lt_succ_iff]
      exact ih hi hj
    · rw [if_neg hx] at hi hj ⊢
      by_cases hix : x = i
      · subst hix
        rw [List.indexOf_cons_self, List.indexOf_cons_self]
        by_cases hjx : x = j
        · subst hjx
          rw [List.indexOf_cons_self, List.indexOf_cons_self]
        · rw [List.indexOf_cons_ne _ hjx, List.indexOf_cons_ne _ hjx]
          simp
      · rw [List.indexOf_cons_ne _ hix, List.indexOf_cons_ne (a := i) _ hix]
        by_cases hjx : x = j
        · subst hjx
          rw [List.indexOf_cons_self, List.indexOf_cons_self]
          simp
        · rw [List.indexOf_cons_ne _ hjx, List.indexOf_cons_ne _ hjx]
          rw [List.mem_cons] at hi hj
          rw [Nat.succ_lt_succ_iff, Nat.succ_lt_succ_iff]
          exact ih (hi.resolve_left (Ne.symm hix)) (hj.resolve_left (Ne.symm hjx))

theorem first_seen_of_nodup {ro used : List Nat} (hro : ro.Nodup)
    (hused : ∀ i ∈ ro, i ∉ used) : first_seen ro used = ro := by
  induction ro generalizing used with
  | nil => rfl
  | cons x rest ih =>
    unfold first_seen
    rw [List.nodup_cons] at hro
    have hx : ¬ used.contains x = true := by
      simpa using hused x (List.mem_cons_self _ _)
    rw [if_neg hx, ih hro.2]
    intro i hi h
    rw [List.mem_cons] at h
    rcases h with rfl | h
    · exact hro.1 hi
    · exact hused i (List.mem_cons_of_mem _ hi) h

/-- The loop of `delete_unused_buffers` appends the buffers at the indices of
`first_seen`. -/
theorem delete_unused_buffers_loop_ok {bs : List Buffer} {ro used : List Nat}
    {acc r : List Buffer} (h : delete_unused_buffers_loop bs ro used acc = Except.ok r) :
    ∃ kept, r = acc ++ kept ∧ (first_seen ro used).map (fun i => bs[i]?) = kept.map some := by
  induction ro generalizing used acc with
  | nil =>
    unfold delete_unused_buffers_loop at h
    rw [pure_eq_ok] at h
    exact ⟨[], by simp [h], by simp [first_seen]⟩
  | cons x rest ih =>
    unfold delete_unused_buffers_loop at h
    unfold first_seen
    by_cases hx : used.contains x = true
    · simp only [hx, Bool.not_true, Bool.false_eq_true, if_false, if_true] at h ⊢
      exact ih h
    · simp only [hx, Bool.not_false, if_true, Bool.false_eq_true, if_false] at h ⊢
      cases hb : bs[x]? with
      | none => rw [hb] at h; cases h
      | some b =>
        rw [hb] at h
        obtain ⟨kept, hr, hk⟩ := ih h
        exact ⟨b :: kept, by simp [hr], by simp [hb, hk]⟩

/-- Within bounds the loop of `delete_unused_buffers` returns. -/
theorem delete_unused_buffers_loop_total {bs : List Buffer} {ro : List Nat}
    (hro : ∀ i ∈ ro, i < bs.length) (used : List Nat) (acc : List Buffer) :
    ∃ r, delete_unused_buffers_loop bs ro used acc = Except.ok r := by
  induction ro generalizing used acc with
  | nil => exact ⟨acc, rfl⟩
  | cons x rest ih =>
    unfold delete_unused_buffers_loop
    have hrest : ∀ i ∈ rest, i < bs.length := fun i hi => hro i (List.mem_cons_of_mem _ hi)
    by_cases hx : used.contains x = true
    · simp only [hx, Bool.not_true, Bool.false_eq_true, if_false]
      exact ih hrest _ _
    · simp only [hx, Bool.not_false, if_true]
      rw [List.getElem?_eq_getElem (hro x (List.mem_cons_self _ _))]
      exact ih hrest _ _

/-! ## The constructor, step by step -/

theorem getElem?_inj_of_nodup {α : Type} {l : List α} (hl : l.Nodup) {i j : Nat} {a : α}
    (hi : l[i]? = some a) (hj : l[j]? = some a) : i = j := by
  obtain ⟨hi', hia⟩ := List.getElem?_eq_some_iff.mp hi
  obtain ⟨hj', hja⟩ := List.getElem?_eq_some_iff.mp hj
  exact hl.getElem_inj_iff.mp (hia.trans hja.symm)

theorem buffers_nodup_of_names {bs : List Buffer} (h : (bs.map Buffer.name).Nodup) :
    bs.Nodup := List.Nodup.of_map _ h

theorem map_getElem?_range {α : Type} (l : List α) :
    (List.range l.length).map (fun i => l[i]?) = l.map some := by
  apply List.ext_getElem?
  intro n
  simp only [List.getElem?_map]
  by_cases hn : n < l.length
  · rw [List.getElem?_range hn, List.getElem?_eq_getElem hn]
    simp [List.getElem?_eq_getElem hn]
  · have h1 : (List.range l.length)[n]? = none := by
      apply List.getElem?_eq_none; simpa using hn
    have h2 : l[n]? = none := List.getElem?_eq_none (by omega)
    rw [h1, h2]; rfl

theorem ShaderConfig_ok {d : Json} {cfg : ShaderConfig} :
    ShaderConfig.ShaderConfig d = Except.ok cfg ↔
      ∃ s₁ s₂, ShaderConfig_head d = Except.ok s₁ ∧ ShaderConfig_buffers d s₁ = Except.ok s₂
        ∧ ShaderConfig_uniforms d s₂ = Except.ok cfg := by
  unfold ShaderConfig.ShaderConfig
  simp only [bind_eq_ok]
  constructor
  · rintro ⟨s₁, h1, s₂, h2, h3⟩; exact ⟨s₁, s₂, h1, h2, h3⟩
  · rintro ⟨s₁, s₂, h1, h2, h3⟩; exact ⟨s₁, h1, s₂, h2, h3⟩

/-- The object after the `image` block: the three vectors are still empty. -/
theorem ShaderConfig_head_ok {d : Json} {s : ShaderConfig}
    (h : ShaderConfig_head d = Except.ok s) :
    d.IsObject = true ∧ d.HasMember "image" = true ∧ parse_image_buffer d = Except.ok s.mImage
      ∧ s.mBuffers = [] ∧ s.mRender_order = [] ∧ s.mUniforms = [] := by
  unfold ShaderConfig_head at h
  simp only [ite_throw_eq_ok, bind_eq_ok, pure_eq_ok] at h
  obtain ⟨hobj, ws, -, ae, -, ao, -, bl, -, img, himg, rfl⟩ := h
  by_cases hi : d.HasMember "image" = true
  · rw [if_pos hi] at himg
    exact ⟨by simpa using hobj, hi, himg, rfl, rfl, rfl⟩
  · rw [if_neg hi] at himg
    cases himg

/-- The `buffers` block: parse, resolve the render order, prune. -/
theorem ShaderConfig_buffers_ok {d : Json} {s s' : ShaderConfig}
    (h : ShaderConfig_buffers d s = Except.ok s') (hb : d.HasMember "buffers" = true) :
    ∃ declared ro kept, parse_buffers d = Except.ok declared
      ∧ parse_render_order d declared = Except.ok ro
      ∧ delete_unused_buffers declared ro = Except.ok kept
      ∧ s' = { s with mBuffers := kept, mRender_order := ro } := by
  unfold ShaderConfig_buffers at h
  rw [if_pos hb] at h
  simp only [bind_eq_ok, pure_eq_ok] at h
  obtain ⟨declared, h1, ro, h2, kept, h3, rfl⟩ := h
  exact ⟨declared, ro, kept, h1, h2, h3, rfl⟩

/-- The `uniforms` block leaves the other members alone. -/
theorem ShaderConfig_uniforms_ok {d : Json} {s s' : ShaderConfig}
    (h : ShaderConfig_uniforms d s = Except.ok s') :
    ∃ us, s' = { s with mUniforms := us } := by
  unfold ShaderConfig_uniforms at h
  by_cases hu : d.HasMember "uniforms" = true
  · rw [if_pos hu] at h
    simp only [bind_eq_ok, pure_eq_ok] at h
    obtain ⟨us, -, rfl⟩ := h
    exact ⟨us, rfl⟩
  · rw [if_neg hu, pure_eq_ok] at h
    exact ⟨s.mUniforms, by rw [← h]⟩

/-- A successful build of a document with a `buffers` section went through
`parse_buffers`, `parse_render_order` and `delete_unused_buffers`. -/
theorem ShaderConfig_ok_buffers {d : Json} {cfg : ShaderConfig}
    (h : ShaderConfig.ShaderConfig d = Except.ok cfg) (hb : d.HasMember "buffers" = true) :
    ∃ declared ro, parse_buffers d = Except.ok declared
      ∧ parse_render_order d declared = Except.ok ro
      ∧ delete_unused_buffers declared ro = Except.ok cfg.mBuffers
      ∧ cfg.mRender_order = ro := by
  obtain ⟨s₁, s₂, -, h2, h3⟩ := ShaderConfig_ok.mp h
  obtain ⟨declared, ro, kept, hd, hro, hk, rfl⟩ := ShaderConfig_buffers_ok h2 hb
  obtain ⟨us, rfl⟩ := ShaderConfig_uniforms_ok h3
  exact ⟨declared, ro, hd, hro, hk, rfl⟩

/-- Every failure of the constructor is a thrown exception: the unchecked
indexing of `delete_unused_buffers` stays within bounds. -/
theorem ShaderConfig_buffers_throws (d : Json) (self : ShaderConfig) :
    Throws (ShaderConfig_buffers d self) := by
  unfold ShaderConfig_buffers
  apply Throws.ite _ (Throws.pure _)
  intro e he
  cases hd : parse_buffers d with
  | error e₁ =>
    rw [hd] at he
    cases he
    exact parse_buffers_throws d e hd
  | ok declared =>
    rw [hd] at he
    cases hro : parse_render_order d declared with
    | error e₂ =>
      have he' : Except.error e₂ = (Except.error e : Except Error ShaderConfig) := by
        simpa [hro, bind, Except.bind] using he
      cases he'
      exact parse_render_order_throws d declared e hro
    | ok ro =>
      obtain ⟨kept, hk⟩ :=
        delete_unused_buffers_loop_total (parse_render_order_lt hro) [] []
      have hk' : delete_unused_buffers declared ro = Except.ok kept := hk
      simp [hro, hk', bind, Except.bind, pure, Except.pure] at he

theorem ShaderConfig_throws (d : Json) : Throws (ShaderConfig.ShaderConfig d) := by
  unfold ShaderConfig.ShaderConfig
  exact Throws.bind (ShaderConfig_head_throws d) fun s₁ =>
    Throws.bind (ShaderConfig_buffers_throws d s₁) fun s₂ => ShaderConfig_uniforms_throws d s₂

/-- A build either returns a configuration or throws. -/
theorem ShaderConfig_ok_or_throws (d : Json) :
    (∃ cfg, ShaderConfig.ShaderConfig d = Except.ok cfg)
      ∨ ∃ what, ShaderConfig.ShaderConfig d = Except.error (runtime_error what) := by
  cases h : ShaderConfig.ShaderConfig d with
  | ok cfg => exact Or.inl ⟨cfg, rfl⟩
  | error e =>
    obtain ⟨what, rfl⟩ := (Error.thrown_iff e).mp (ShaderConfig_throws d e h)
    exact Or.inr ⟨what, rfl⟩

theorem HasMember_of_Members_ne_nil {d : Json} {key : String}
    (h : (d.member key).Members ≠ []) : d.HasMember key = true := by
  unfold Json.HasMember
  unfold Json.member at h
  cases hf : d.FindMember key with
  | none => rw [hf] at h; exact absurd rfl h
  | some v => rfl

theorem HasMember_of_Elems_ne_nil {d : Json} {key : String}
    (h : (d.member key).Elems ≠ []) : d.HasMember key = true := by
  unfold Json.HasMember
  unfold Json.member at h
  cases hf : d.FindMember key with
  | none => rw [hf] at h; exact absurd rfl h
  | some v => rfl

theorem IsArray_of_Elems_ne_nil {v : Json} (h : v.Elems ≠ []) : v.IsArray = true := by
  cases v <;> first | rfl | exact absurd rfl h

theorem IsObject_of_Members_ne_nil {v : Json} (h : v.Members ≠ []) : v.IsObject = true := by
  cases v <;> first | rfl | exact absurd rfl h

/-- Running the member loop over `l₁ ++ l₂`: once `l₁` is through, the loop goes
on with `l₂` and a registry that holds the names of `l₁`. -/
theorem parse_buffers_loop_append {l₁ l₂ : List (String × Json)} {names : List String}
    {acc r : List Buffer} (h : parse_buffers_loop l₁ names acc = Except.ok r) :
    parse_buffers_loop (l₁ ++ l₂) names acc
      = parse_buffers_loop l₂ ((l₁.map (fun m => c_str m.1)).reverse ++ names) r := by
  induction l₁ generalizing names acc with
  | nil =>
    unfold parse_buffers_loop at h
    rw [pure_eq_ok] at h
    subst h
    rfl
  | cons m rest ih =>
    unfold parse_buffers_loop at h
    rw [bind_eq_ok] at h
    obtain ⟨⟨b, names'⟩, hb, hrest⟩ := h
    obtain ⟨-, -, h3, -⟩ := parse_buffer_ok hb
    subst h3
    rw [List.cons_append, parse_buffers_loop, hb]
    simp only [bind, Except.bind]
    rw [ih hrest]
    simp

/-- A member whose name is already registered stops the loop with the
duplicate-name error. -/
theorem parse_buffers_loop_duplicate {n : String} {w : Json} {post : List (String × Json)}
    {names : List String} {acc : List Buffer} (hn : c_str n ≠ "") (hmem : c_str n ∈ names) :
    parse_buffers_loop ((n, w) :: post) names acc = Except.error (runtime_error
      ("Buffer name " ++ c_str n ++ " already used (buffers must have unique names)")) := by
  unfold parse_buffers_loop parse_buffer
  have h1 : ¬ ((c_str n == "") = true) := by simpa using hn
  have h2 : names.contains (c_str n) = true := by simpa using hmem
  simp only [if_neg h1, if_pos h2]
  rfl

/-- What a successful `parse_buffer` went through, block by block. -/
theorem parse_buffer_ok_iff {v : Json} {n : String} {names names' : List String} {b : Buffer} :
    parse_buffer v n names = Except.ok (b, names') ↔
      n ≠ "" ∧ n ∉ names ∧ (isalpha (n.get 0) = true ∨ n.get 0 = '_') ∧ n ≠ "image"
        ∧ v.IsObject = true ∧ v.HasMember "size" = true ∧ v.HasMember "geom_iters" = true
        ∧ (v.member "geom_iters").IsInt = true ∧ (v.member "geom_iters").GetInt ≠ 0
        ∧ ∃ cc sz, parse_clear_color v
              (n ++ ".clear_color must be an array of 3 real numbers each between 0 and 1")
              = Except.ok cc
            ∧ parse_size (v.member "size") n = Except.ok sz
            ∧ b = { name := n, width := sz.1, height := sz.2.1, is_window_size := sz.2.2,
                    geom_iters := (v.member "geom_iters").GetInt, clear_color := cc }
            ∧ names' = n :: names := by
  unfold parse_buffer
  simp only [ite_throw_eq_ok, bind_eq_ok, pure_eq_ok]
  constructor
  · rintro ⟨h1, h2, h3, h4, h5, h6, h7, cc, hcc, sz, hsz, h8, h9⟩
    injection h9 with hb hn
    refine ⟨by simpa using h1, by simpa using h2, ?_, by simpa using h4, by simpa using h5,
      by simpa using h6, by simpa using h7, ?_, ?_, cc, sz, hcc, hsz, hb.symm, hn.symm⟩
    · cases ha : isalpha (n.get 0)
      · right; simpa [ha] using h3
      · left; rfl
    · cases hi : (v.member "geom_iters").IsInt
      · simp [hi] at h8
      · rfl
    · intro h0
      simp [h0] at h8
  · rintro ⟨h1, h2, h3, h4, h5, h6, h7, h8, h9, cc, sz, hcc, hsz, hb, hn⟩
    refine ⟨by simpa using h1, by simpa using h2, ?_, by simpa using h4, by simp [h5],
      by simp [h6], by simp [h7], cc, hcc, sz, hsz, by simp [h8, h9], by rw [hb, hn]⟩
    rcases h3 with h3 | h3 <;> simp [h3]

/-- Every member the loop of `parse_buffers` went through was accepted by
`parse_buffer`, under the registry of the moment. -/
theorem parse_buffers_loop_members {ms : List (String × Json)} {names : List String}
    {acc r : List Buffer} (h : parse_buffers_loop ms names acc = Except.ok r) :
    ∀ m ∈ ms, ∃ reg b,
      parse_buffer m.2 (c_str m.1) reg = Except.ok (b, c_str m.1 :: reg) ∧ b ∈ r := by
  induction ms generalizing names acc with
  | nil => intro m hm; simp at hm
  | cons m₀ rest ih =>
    unfold parse_buffers_loop at h
    rw [bind_eq_ok] at h
    obtain ⟨⟨b, names'⟩, hb, hrest⟩ := h
    have hn : names' = c_str m₀.1 :: names := (parse_buffer_ok hb).2.2.1
    intro m hm
    rw [List.mem_cons] at hm
    rcases hm with rfl | hm
    · obtain ⟨bs, hr, -⟩ := parse_buffers_loop_ok hrest
      exact ⟨names, b, hn ▸ hb, by rw [hr]; simp⟩
    · exact ih hrest m hm

theorem parse_buffers_members {d : Json} {bs : List Buffer}
    (h : parse_buffers d = Except.ok bs) :
    ∀ m ∈ (d.member "buffers").Members,
      ∃ reg b, parse_buffer m.2 (c_str m.1) reg = Except.ok (b, c_str m.1 :: reg) ∧ b ∈ bs := by
  intro m hm
  unfold parse_buffers at h
  simp only [ite_throw_eq_ok] at h
  obtain ⟨-, h⟩ := h
  have hc : ¬ (((d.member "buffers").MemberCount == 0) = true) := by
    have : (d.member "buffers").Members ≠ [] := List.ne_nil_of_mem hm
    simpa [Json.MemberCount] using this
  rw [if_neg hc] at h
  exact parse_buffers_loop_members h m hm

theorem IsInt_iff {v : Json} :
    v.IsInt = true ↔ ∃ n : Int, v = Json.int n ∧ -2147483648 ≤ n ∧ n ≤ 2147483647 := by
  cases v <;> simp [Json.IsInt]

theorem member_of_FindMember {v w : Json} {key : String} (h : v.FindMember key = some w) :
    v.HasMember key = true ∧ v.member key = w := by
  unfold Json.HasMember Json.member
  rw [h]
  exact ⟨rfl, rfl⟩

/-- The two shapes of `size` that `parse_size` accepts. -/
theorem parse_size_ok_iff {s : Json} {n : String} {sz : Int × Int × Bool} :
    parse_size s n = Except.ok sz ↔
      (∃ w h : Int, s = Json.arr [Json.int w, Json.int h]
          ∧ (-2147483648 ≤ w ∧ w ≤ 2147483647) ∧ (-2147483648 ≤ h ∧ h ≤ 2147483647)
          ∧ sz = (w, h, false))
        ∨ (∃ t, s = Json.str t ∧ c_str t = "window_size" ∧ sz = (0, 0, true)) := by
  unfold parse_size
  cases s with
  | arr elems =>
    by_cases hlen : elems.length = 2
    · obtain ⟨a, b, rfl⟩ := List.length_eq_two.mp hlen
      simp only [Json.IsArray, Json.Size, Json.Elems, List.length_cons, List.length_nil,
        Bool.true_and, beq_self_eq_true, if_true, ite_throw_eq_ok, pure_eq_ok, Json.elem,
        List.getD_cons_zero, List.getD_cons_succ]
      constructor
      · rintro ⟨hints, rfl⟩
        have ha : a.IsInt = true := by
          cases h : a.IsInt <;> simp [h] at hints ⊢
        have hb : b.IsInt = true := by
          cases h : b.IsInt <;> simp [h, ha] at hints ⊢
        obtain ⟨w, rfl, hw⟩ := IsInt_iff.mp ha
        obtain ⟨h, rfl, hh⟩ := IsInt_iff.mp hb
        exact Or.inl ⟨w, h, rfl, hw, hh, rfl⟩
      · rintro (⟨w, h, heq, hw, hh, rfl⟩ | ⟨t, heq, -⟩)
        · injection heq with heq
          injection heq with ha heq
          injection heq with hb _
          subst ha hb
          have hw' : (Json.int w).IsInt = true := IsInt_iff.mpr ⟨w, rfl, hw⟩
          have hh' : (Json.int h).IsInt = true := IsInt_iff.mpr ⟨h, rfl, hh⟩
          simp [hw', hh', Json.GetInt]
        · cases heq
    · have hsz : ¬ ((elems.length == 2) = true) := by simpa using hlen
      simp only [Json.IsArray, Json.Size, Json.Elems, Bool.true_and, if_neg hsz, Json.IsString,
        Bool.false_and, Bool.false_eq_true, if_false, throw_ne_ok, false_iff]
      rintro (⟨w, h, heq, -⟩ | ⟨t, heq, -⟩)
      · injection heq with heq
        rw [heq] at hlen
        exact hlen rfl
      · cases heq
  | str t =>
    simp only [Json.IsArray, Bool.false_and, Bool.false_eq_true, if_false, Json.IsString,
      Json.GetString, Bool.true_and, WINDOW_SZ_KEY]
    by_cases ht : c_str t = "window_size"
    · have ht' : (c_str t == "window_size") = true := by simpa using ht
      rw [if_pos ht', pure_eq_ok]
      constructor
      · rintro rfl; exact Or.inr ⟨t, rfl, ht, rfl⟩
      · rintro (⟨w, h, heq, -⟩ | ⟨-, -, -, rfl⟩)
        · cases heq
        · rfl
    · have ht' : ¬ ((c_str t == "window_size") = true) := by simpa using ht
      rw [if_neg ht']
      simp only [throw_ne_ok, false_iff]
      rintro (⟨w, h, heq, -⟩ | ⟨t', heq, ht'', -⟩)
      · cases heq
      · injection heq with heq
        subst heq
        exact ht ht''
  | null => simp [Json.IsArray, Json.IsString, throw_ne_ok]
  | bool b => simp [Json.IsArray, Json.IsString, throw_ne_ok]
  | int i => simp [Json.IsArray, Json.IsString, throw_ne_ok]
  | dbl q => simp [Json.IsArray, Json.IsString, throw_ne_ok]
  | obj ms => simp [Json.IsArray, Json.IsString, throw_ne_ok]

/-- The two ways `parse_clear_color` succeeds: no `clear_color` key, or an array
of three numbers. -/
theorem parse_clear_color_ok_iff {v : Json} {what : String}
    {cc : Float32 × Float32 × Float32} :
    parse_clear_color v what = Except.ok cc ↔
      (v.HasMember "clear_color" = false ∧ cc = (.fin 0, .fin 0, .fin 0))
        ∨ (v.HasMember "clear_color" = true ∧ ∃ a b c : Json,
            v.member "clear_color" = Json.arr [a, b, c]
            ∧ a.IsNumber = true ∧ b.IsNumber = true ∧ c.IsNumber = true
            ∧ cc = (a.GetFloat, b.GetFloat, c.GetFloat)) := by
  unfold parse_clear_color
  by_cases hh : v.HasMember "clear_color" = true
  · rw [if_pos hh]
    simp only [hh, Bool.true_eq_false, false_and, false_or, true_and, ite_throw_eq_ok,
      pure_eq_ok]
    constructor
    · rintro ⟨h1, h2, h3, h4, rfl⟩
      have harr : (v.member "clear_color").IsArray = true := by
        cases h : (v.member "clear_color").IsArray <;> simp [h] at h1 ⊢
      have hsz : (v.member "clear_color").Size = 3 := by
        simpa [harr] using h1
      cases hv : v.member "clear_color" with
      | arr elems =>
        rw [hv] at hsz h2 h3 h4
        simp only [Json.Size, Json.Elems] at hsz
        obtain ⟨a, b, c, rfl⟩ := List.length_eq_three.mp hsz
        refine ⟨a, b, c, rfl, ?_, ?_, ?_, rfl⟩
        · simpa [Json.elem, Json.Elems] using h2
        · simpa [Json.elem, Json.Elems] using h3
        · simpa [Json.elem, Json.Elems] using h4
      | null => rw [hv] at harr; cases harr
      | bool _ => rw [hv] at harr; cases harr
      | int _ => rw [hv] at harr; cases harr
      | dbl _ => rw [hv] at harr; cases harr
      | str _ => rw [hv] at harr; cases harr
      | obj _ => rw [hv] at harr; cases harr
    · rintro ⟨a, b, c, hv, ha, hb, hc, rfl⟩
      rw [hv]
      have e0 : (Json.arr [a, b, c]).elem 0 = a := rfl
      have e1 : (Json.arr [a, b, c]).elem 1 = b := rfl
      have e2 : (Json.arr [a, b, c]).elem 2 = c := rfl
      have e3 : (!((Json.arr [a, b, c]).IsArray && (Json.arr [a, b, c]).Size == 3)) = false :=
        rfl
      rw [e0, e1, e2, e3, ha, hb, hc]
      exact ⟨by decide, by decide, by decide, by decide, rfl⟩
  · rw [if_neg hh, pure_eq_ok]
    have hh' : v.HasMember "clear_color" = false := by simpa using hh
    constructor
    · intro h; exact Or.inl ⟨hh', h.symm⟩
    · rintro (⟨-, rfl⟩ | ⟨h, -⟩)
      · rfl
      · rw [hh'] at h; cases h

theorem FindMember_of_HasMember {v : Json} {key : String} (h : v.HasMember key = true) :
    v.FindMember key = some (v.member key) := by
  unfold Json.HasMember at h
  unfold Json.member
  cases hf : v.FindMember key with
  | none => rw [hf] at h; cases h
  | some w => rfl

/-! ## Uniforms -/

/-- The element loop of `parse_uniform` succeeds exactly when every element is
a number; it appends their `float` values. -/
theorem parse_uniform_loop_ok_iff {n : String} {vs : List Json} {acc r : List Float32} :
    parse_uniform_loop n vs acc = Except.ok r ↔
      (∀ v ∈ vs, v.IsNumber = true) ∧ r = acc ++ vs.map Json.GetFloat := by
  induction vs generalizing acc with
  | nil =>
    unfold parse_uniform_loop
    rw [pure_eq_ok]
    constructor
    · rintro rfl; exact ⟨fun v hv => absurd hv (List.not_mem_nil v), by simp⟩
    · rintro ⟨-, h⟩; simpa using h.symm
  | cons v rest ih =>
    unfold parse_uniform_loop
    rw [ite_throw_eq_ok, ih]
    simp only [List.mem_cons, forall_eq_or_imp, List.map_cons, List.append_assoc,
      List.singleton_append, Bool.not_eq_true', Bool.not_eq_false, and_assoc]

/-- What a successful `parse_uniform` went through. -/
theorem parse_uniform_ok_iff {v : Json} {n : String} {names names' : List String}
    {u : Uniform} :
    parse_uniform v n names = Except.ok (u, names') ↔
      n ∉ names ∧ names' = n :: names ∧ u.name = n
        ∧ ((v.IsArray = true ∧ v.Size ≤ 4 ∧ (∀ e ∈ v.Elems, e.IsNumber = true)
              ∧ u.values = v.Elems.map Json.GetFloat)
          ∨ (v.IsArray = false ∧ v.IsNumber = true ∧ u.values = [v.GetFloat])) := by
  unfold parse_uniform
  rw [ite_throw_eq_ok]
  have hmem : (¬ names.contains n = true) ↔ n ∉ names := by simp
  rw [hmem]
  apply and_congr_right
  intro _
  by_cases harr : v.IsArray = true
  · simp only [harr, if_true, ite_throw_eq_ok, bind_eq_ok, parse_uniform_loop_ok_iff,
      pure_eq_ok, List.nil_append, Bool.true_eq_false, false_and, or_false, true_and,
      not_lt]
    constructor
    · rintro ⟨hsz, vals, ⟨hnum, rfl⟩, heq⟩
      injection heq with hu hn
      subst hu
      exact ⟨hn.symm, rfl, hsz, hnum, rfl⟩
    · rintro ⟨rfl, rfl, hsz, hnum, hvals⟩
      refine ⟨hsz, _, ⟨hnum, rfl⟩, ?_⟩
      rw [← hvals]
  · have harr' : v.IsArray = false := by simpa using harr
    simp only [harr', Bool.false_eq_true, if_false, false_and, false_or, true_and]
    by_cases hnum : v.IsNumber = true
    · simp only [hnum, if_true, pure_eq_ok, true_and]
      constructor
      · intro heq
        injection heq with hu hn
        subst hu
        exact ⟨hn.symm, rfl, rfl⟩
      · rintro ⟨rfl, rfl, hvals⟩
        rw [← hvals]
    · have hnum' : v.IsNumber = false := by simpa using hnum
      simp only [hnum', Bool.false_eq_true, if_false, throw_ne_ok, false_and, and_false]

/-- The invariant of the member loop of `parse_uniforms`: on success one uniform
per member is appended, each accepted by `parse_uniform` under the registry of
the moment, and the names are pairwise distinct and not in the registry the
loop started from. -/
theorem parse_uniforms_loop_ok {ms : List (String × Json)} {names : List String}
    {acc r : List Uniform} (h : parse_uniforms_loop ms names acc = Except.ok r) :
    ∃ us, r = acc ++ us
      ∧ List.Forall₂
          (fun m u => ∃ reg, parse_uniform m.2 (c_str m.1) reg = Except.ok (u, c_str m.1 :: reg))
          ms us
      ∧ (ms.map (fun m => c_str m.1)).Nodup
      ∧ (∀ n ∈ ms.map (fun m => c_str m.1), n ∉ names) := by
  induction ms generalizing names acc with
  | nil =>
    unfold parse_uniforms_loop at h
    rw [pure_eq_ok] at h
    exact ⟨[], by simp [h], List.Forall₂.nil, List.nodup_nil, by simp⟩
  | cons m rest ih =>
    unfold parse_uniforms_loop at h
    rw [bind_eq_ok] at h
    obtain ⟨⟨u, names'⟩, hu, hrest⟩ := h
    obtain ⟨h1, h2, -, -⟩ := parse_uniform_ok_iff.mp hu
    obtain ⟨us, hr, hall, hnodup, hfresh⟩ := ih hrest
    subst h2
    refine ⟨u :: us, by simp [hr], List.Forall₂.cons ⟨names, hu⟩ hall, ?_, ?_⟩
    · rw [List.map_cons, List.nodup_cons]
      exact ⟨fun hm => (hfresh _ hm) (List.mem_cons_self _ _), hnodup⟩
    · intro n hn
      rw [List.map_cons, List.mem_cons] at hn
      rcases hn with rfl | hn
      · exact h1
      · exact fun hm => (hfresh n hn) (List.mem_cons_of_mem _ hm)

/-- With pairwise distinct fresh names and acceptable values the member loop of
`parse_uniforms` returns. -/
theorem parse_uniforms_loop_total {ms : List (String × Json)} {names : List String}
    (acc : List Uniform) (hnodup : (ms.map (fun m => c_str m.1)).Nodup)
    (hfresh : ∀ n ∈ ms.map (fun m => c_str m.1), n ∉ names)
    (hval : ∀ m ∈ ms, uniform_value_ok m.2) :
    ∃ r, parse_uniforms_loop ms names acc = Except.ok r := by
  induction ms generalizing names acc with
  | nil => exact ⟨acc, rfl⟩
  | cons m rest ih =>
    unfold parse_uniforms_loop
    rw [List.map_cons, List.nodup_cons] at hnodup
    have hm : c_str m.1 ∉ names := hfresh (c_str m.1) (by simp)
    have hu : ∃ u, parse_uniform m.2 (c_str m.1) names
        = Except.ok (u, c_str m.1 :: names) := by
      rcases hval m (List.mem_cons_self _ _) with ⟨h1, h2, h3⟩ | ⟨h1, h2⟩
      · exact ⟨{ name := c_str m.1, values := m.2.Elems.map Json.GetFloat },
          parse_uniform_ok_iff.mpr ⟨hm, rfl, rfl, Or.inl ⟨h1, h2, h3, rfl⟩⟩⟩
      · exact ⟨{ name := c_str m.1, values := [m.2.GetFloat] },
          parse_uniform_ok_iff.mpr ⟨hm, rfl, rfl, Or.inr ⟨h1, h2, rfl⟩⟩⟩
    obtain ⟨u, hu⟩ := hu
    rw [hu]
    apply ih _ hnodup.2
    · intro n hn hmem
      rw [List.mem_cons] at hmem
      rcases hmem with rfl | hmem
      · exact hnodup.1 hn
      · exact hfresh n (List.mem_cons_of_mem _ hn) hmem
    · exact fun m' hm' => hval m' (List.mem_cons_of_mem _ hm')

/-- Running the member loop of `parse_uniforms` over `l₁ ++ l₂`: once `l₁` is
through, the loop goes on with `l₂` and a registry that holds the names of
`l₁`. -/
theorem parse_uniforms_loop_append {l₁ l₂ : List (String × Json)} {names : List String}
    {acc r : List Uniform} (h : parse_uniforms_loop l₁ names acc = Except.ok r) :
    parse_uniforms_loop (l₁ ++ l₂) names acc
      = parse_uniforms_loop l₂ ((l₁.map (fun m => c_str m.1)).reverse ++ names) r := by
  induction l₁ generalizing names acc with
  | nil =>
    unfold parse_uniforms_loop at h
    rw [pure_eq_ok] at h
    subst h
    rfl
  | cons m rest ih =>
    unfold parse_uniforms_loop at h
    rw [bind_eq_ok] at h
    obtain ⟨⟨u, names'⟩, hu, hrest⟩ := h
    obtain ⟨-, h2, -⟩ := parse_uniform_ok_iff.mp hu
    subst h2
    rw [List.cons_append, parse_uniforms_loop, hu]
    simp only [bind, Except.bind]
    rw [ih hrest]
    simp

/-- A member whose name is already registered stops the loop of `parse_uniforms`
with the duplicate-name error. -/
theorem parse_uniforms_loop_duplicate {n : String} {w : Json} {post : List (String × Json)}
    {names : List String} {acc : List Uniform} (hmem : c_str n ∈ names) :
    parse_uniforms_loop ((n, w) :: post) names acc = Except.error (runtime_error
      ("Uniform name " ++ c_str n ++ " already used (uniforms must have unique names)")) := by
  unfold parse_uniforms_loop parse_uniform
  have h2 : names.contains (c_str n) = true := by simpa using hmem
  simp only [if_pos h2]
  rfl

/-- The `buffers` block leaves `mUniforms` alone. -/
theorem ShaderConfig_buffers_mUniforms {d : Json} {s s' : ShaderConfig}
    (h : ShaderConfig_buffers d s = Except.ok s') : s'.mUniforms = s.mUniforms := by
  by_cases hb : d.HasMember "buffers" = true
  · obtain ⟨declared, ro, kept, -, -, -, rfl⟩ := ShaderConfig_buffers_ok h hb
    rfl
  · unfold ShaderConfig_buffers at h
    rw [if_neg hb, pure_eq_ok] at h
    rw [h]

/-- The uniforms of a successful build: the output of `parse_uniforms` when the
document has a `uniforms` section, none otherwise. -/
theorem ShaderConfig_ok_uniforms {d : Json} {cfg : ShaderConfig}
    (h : ShaderConfig.ShaderConfig d = Except.ok cfg) :
    (d.HasMember "uniforms" = true ∧ parse_uniforms d = Except.ok cfg.mUniforms)
      ∨ (d.HasMember "uniforms" = false ∧ cfg.mUniforms = []) := by
  obtain ⟨s₁, s₂, h1, h2, h3⟩ := ShaderConfig_ok.mp h
  obtain ⟨-, -, -, -, -, hu⟩ := ShaderConfig_head_ok h1
  have hu2 : s₂.mUniforms = [] := by rw [ShaderConfig_buffers_mUniforms h2, hu]
  unfold ShaderConfig_uniforms at h3
  by_cases hh : d.HasMember "uniforms" = true
  · rw [if_pos hh] at h3
    simp only [bind_eq_ok, pure_eq_ok] at h3
    obtain ⟨us, hus, rfl⟩ := h3
    exact Or.inl ⟨hh, hus⟩
  · rw [if_neg hh, pure_eq_ok] at h3
    exact Or.inr ⟨by simpa using hh, by rw [← h3, hu2]⟩

/-- The uniforms `parse_uniforms` returns: one per member of the `uniforms`
object, in member order, each accepted by `parse_uniform`. -/
theorem parse_uniforms_ok {d : Json} {us : List Uniform}
    (h : parse_uniforms d = Except.ok us) :
    List.Forall₂
        (fun m u => ∃ reg, parse_uniform m.2 (c_str m.1) reg = Except.ok (u, c_str m.1 :: reg))
        (d.member "uniforms").Members us
      ∧ ((d.member "uniforms").Members.map (fun m => c_str m.1)).Nodup := by
  unfold parse_uniforms at h
  simp only [ite_throw_eq_ok] at h
  obtain ⟨-, h⟩ := h
  by_cases hc : ((d.member "uniforms").MemberCount == 0) = true
  · rw [if_pos hc, pure_eq_ok] at h
    have hm : (d.member "uniforms").Members = [] := by
      simpa [Json.MemberCount] using hc
    subst h
    rw [hm]
    exact ⟨List.Forall₂.nil, List.nodup_nil⟩
  · rw [if_neg hc] at h
    obtain ⟨us', hr, hall, hnodup, -⟩ := parse_uniforms_loop_ok h
    rw [List.nil_append] at hr
    subst hr
    exact ⟨hall, hnodup⟩

/-! ## The `float` conversion on the unit interval -/

theorem Float32.not_lt {a b : Float32} : ¬ a < b ↔ b ≤ a := by
  show ¬ (Float32.lt a b = true) ↔ Float32.lt a b = false
  simp

theorem Float32.fin_lt_fin {a b : Rat} : Float32.fin a < Float32.fin b ↔ a < b := by
  show Float32.lt (Float32.fin a) (Float32.fin b) = true ↔ a < b
  simp [Float32.lt]

theorem Float32.fin_le_fin {a b : Rat} : Float32.fin a ≤ Float32.fin b ↔ a ≤ b := by
  show Float32.lt (Float32.fin b) (Float32.fin a) = false ↔ a ≤ b
  simp [Float32.lt]

/-- A `float` value lies in `[0, 1]` exactly when it is a finite number there. -/
theorem Float32.unit_interval_iff {x : Float32} :
    (Float32.fin 0 ≤ x ∧ x ≤ Float32.fin 1) ↔ ∃ r : Rat, x = Float32.fin r ∧ 0 ≤ r ∧ r ≤ 1 := by
  cases x with
  | fin q =>
    rw [Float32.fin_le_fin, Float32.fin_le_fin]
    constructor
    · rintro ⟨h0, h1⟩; exact ⟨q, rfl, h0, h1⟩
    · rintro ⟨r, hr, h0, h1⟩
      injection hr with hr
      subst hr
      exact ⟨h0, h1⟩
  | inf negative =>
    constructor
    · rintro ⟨h0, h1⟩
      have h0' : Float32.lt (Float32.inf negative) (Float32.fin 0) = false := h0
      have h1' : Float32.lt (Float32.fin 1) (Float32.inf negative) = false := h1
      simp [Float32.lt] at h0' h1'
      rw [h0'] at h1'
      cases h1'
    · rintro ⟨r, hr, -⟩
      cases hr

/-- Below `2 ^ 128` the conversion to `float` is the rounded value. -/
theorem toFloat32_of_lt {q : Rat} (h : |roundBinary 24 (-126) q| < 2 ^ 128) :
    toFloat32 q = Float32.fin (roundBinary 24 (-126) q) := by
  unfold toFloat32
  simp only
  rw [if_neg (not_le.mpr h)]

theorem floor_eq_floor (q : Rat) : q.floor = ⌊q⌋ := rfl

theorem roundNearestEven_nonneg {q : Rat} (hq : 0 ≤ q) : 0 ≤ roundNearestEven q := by
  have hf : 0 ≤ ⌊q⌋ := Int.floor_nonneg.mpr hq
  unfold roundNearestEven
  simp only [floor_eq_floor]
  split_ifs <;> omega

theorem roundNearestEven_le {q : Rat} {N : Int} (hq : q ≤ N) : roundNearestEven q ≤ N := by
  have hf : ⌊q⌋ ≤ N := by
    have := Int.floor_le q
    exact_mod_cast this.trans hq
  have hlt : (1 : Rat) / 2 ≤ q - ⌊q⌋ → ⌊q⌋ + 1 ≤ N := by
    intro hr
    have hne : q ≠ N := by
      rintro rfl
      simp at hr
      linarith
    have hqlt : q < N := lt_of_le_of_ne hq hne
    have := Int.floor_lt.mpr hqlt
    omega
  unfold roundNearestEven
  simp only [floor_eq_floor]
  split_ifs with h1 h2 h3
  · exact hf
  · exact hlt (le_of_lt h2)
  · exact hf
  · exact hlt (not_lt.mp h1)

/-- Rounding keeps the unit interval: 0 and 1 are values of the format. -/
theorem roundBinary_unit_interval (p : Nat) (emin : Int) (hp : 1 ≤ p) (hemin : emin ≤ 0)
    {q : Rat} (h0 : 0 ≤ q) (h1 : q ≤ 1) :
    0 ≤ roundBinary p emin q ∧ roundBinary p emin q ≤ 1 := by
  unfold roundBinary
  by_cases hq : q = 0
  · rw [if_pos hq]; exact ⟨le_refl 0, zero_le_one⟩
  · rw [if_neg hq]
    simp only
    have hexp : binaryExponent q ≤ 0 := by
      have hb := (binaryExponent_bounds q hq).1
      rw [abs_of_nonneg h0] at hb
      by_contra hcon
      have hpos : 1 ≤ binaryExponent q := by omega
      have : (2 : Rat) ^ (1 : Int) ≤ 2 ^ binaryExponent q :=
        zpow_le_zpow_right₀ (by norm_num) hpos
      have h2 : (2 : Rat) ^ (1 : Int) = 2 := by norm_num
      linarith
    have he : max (binaryExponent q) emin ≤ 0 := max_le hexp hemin
    set e := max (binaryExponent q) emin with he_def
    have hulp : (0 : Rat) < 2 ^ (e - ((p : Int) - 1)) := by positivity
    obtain ⟨k, hk⟩ : ∃ k : Nat, (k : Int) = ((p : Int) - 1) - e := ⟨(((p : Int) - 1) - e).toNat, by
      rw [Int.toNat_of_nonneg]; omega⟩
    have hinv : ((2 ^ k : Nat) : Rat) * 2 ^ (e - ((p : Int) - 1)) = 1 := by
      have : e - ((p : Int) - 1) = -(k : Int) := by omega
      rw [this, zpow_neg, zpow_natCast]
      push_cast
      field_simp
    constructor
    · exact mul_nonneg (by exact_mod_cast roundNearestEven_nonneg (div_nonneg h0 hulp.le)) hulp.le
    · have hdiv : q / 2 ^ (e - ((p : Int) - 1)) ≤ ((2 ^ k : Nat) : Int) := by
        rw [div_le_iff₀ hulp]
        push_cast
        push_cast at hinv
        rw [hinv]
        exact h1
      have hr := roundNearestEven_le hdiv
      have hr' : (roundNearestEven (q / 2 ^ (e - ((p : Int) - 1))) : Rat) ≤ ((2 ^ k : Nat) : Rat) := by
        exact_mod_cast hr
      calc (roundNearestEven (q / 2 ^ (e - ((p : Int) - 1))) : Rat) * 2 ^ (e - ((p : Int) - 1))
          ≤ ((2 ^ k : Nat) : Rat) * 2 ^ (e - ((p : Int) - 1)) :=
            mul_le_mul_of_nonneg_right hr' hulp.le
        _ = 1 := hinv

/-- A number written in the document within `[0, 1]` is read by `GetFloat` as a
`float` within `[0, 1]`. -/
theorem GetFloat_unit_interval {v : Json} (h : in_unit_interval v) :
    Float32.fin 0 ≤ v.GetFloat ∧ v.GetFloat ≤ Float32.fin 1 := by
  have key : ∀ q : Rat, 0 ≤ q → q ≤ 1 →
      Float32.fin 0 ≤ toFloat32 q ∧ toFloat32 q ≤ Float32.fin 1 := by
    intro q h0 h1
    have hr := roundBinary_unit_interval 24 (-126) (by decide) (by decide) h0 h1
    rw [toFloat32_of_lt (by rw [abs_of_nonneg hr.1]; exact lt_of_le_of_lt hr.2 (by norm_num))]
    exact ⟨Float32.fin_le_fin.mpr hr.1, Float32.fin_le_fin.mpr hr.2⟩
  unfold Json.GetFloat
  rcases h with ⟨q, rfl, h0, h1⟩ | ⟨n, rfl, h0, h1⟩
  · exact key q h0 h1
  · have hd := roundBinary_unit_interval 53 (-1022) (by decide) (by decide)
      (show (0 : Rat) ≤ (n : Rat) by exact_mod_cast h0)
      (show ((n : Int) : Rat) ≤ 1 by exact_mod_cast h1)
    exact key _ hd.1 hd.2

theorem IsNumber_of_in_unit_interval {v : Json} (h : in_unit_interval v) :
    v.IsNumber = true := by
  rcases h with ⟨q, rfl, -⟩ | ⟨n, rfl, -⟩ <;> rfl

theorem IsBool_iff {v : Json} : v.IsBool = true ↔ ∃ b : Bool, v = Json.bool b := by
  cases v <;> simp [Json.IsBool]

/-- What a successful `parse_audio_options` went through, in terms of the first
members with the four keys. -/
theorem parse_audio_options_ok_iff {d : Json} {ao : AudioOptions} :
    parse_audio_options d = Except.ok ao ↔
      (d.member "audio_options").IsObject = true
        ∧ ∃ (fs ws : Json) (fy dy : Bool),
            (d.member "audio_options").FindMember "fft_smooth" = some fs
            ∧ (d.member "audio_options").FindMember "wave_smooth" = some ws
            ∧ (d.member "audio_options").FindMember "fft_sync" = some (Json.bool fy)
            ∧ (d.member "audio_options").FindMember "diff_sync" = some (Json.bool dy)
            ∧ fs.IsNumber = true ∧ ws.IsNumber = true
            ∧ (Float32.fin 0 ≤ fs.GetFloat ∧ fs.GetFloat ≤ Float32.fin 1)
            ∧ (Float32.fin 0 ≤ ws.GetFloat ∧ ws.GetFloat ≤ Float32.fin 1)
            ∧ ao = { fft_smooth := fs.GetFloat, wave_smooth := ws.GetFloat,
                     fft_sync := fy, diff_sync := dy } := by
  unfold parse_audio_options
  simp only [ite_throw_eq_ok, pure_eq_ok, Bool.not_eq_true', Bool.not_eq_false, not_or,
    Float32.not_lt, gt_iff_lt]
  constructor
  · rintro ⟨hobj, h1, h2, h3, h4, n1, n2, b1, b2, ⟨r1, r2⟩, ⟨r3, r4⟩, rfl⟩
    obtain ⟨fy, hfy⟩ := IsBool_iff.mp b1
    obtain ⟨dy, hdy⟩ := IsBool_iff.mp b2
    refine ⟨hobj, _, _, fy, dy, FindMember_of_HasMember h1, FindMember_of_HasMember h2,
      hfy ▸ FindMember_of_HasMember h3, hdy ▸ FindMember_of_HasMember h4, n1, n2,
      ⟨r1, r2⟩, ⟨r3, r4⟩, ?_⟩
    rw [hfy, hdy]
    rfl
  · rintro ⟨hobj, fs, ws, fy, dy, f1, f2, f3, f4, n1, n2, ⟨r1, r2⟩, ⟨r3, r4⟩, rfl⟩
    obtain ⟨h1, m1⟩ := member_of_FindMember f1
    obtain ⟨h2, m2⟩ := member_of_FindMember f2
    obtain ⟨h3, m3⟩ := member_of_FindMember f3
    obtain ⟨h4, m4⟩ := member_of_FindMember f4
    rw [m1, m2, m3, m4]
    exact ⟨hobj, h1, h2, h3, h4, n1, n2, rfl, rfl, ⟨r1, r2⟩, ⟨r3, r4⟩, rfl⟩

/-! ## Keys the parsers do not read -/

theorem agree_refl (keys : List String) (a : Json) : agree keys a a :=
  ⟨rfl, fun _ _ => rfl⟩

theorem FindMember_insert {pre post : List (String × Json)} {key k : String} {v : Json}
    (h : key ≠ k) :
    (Json.obj (pre ++ (key, v) :: post)).FindMember k = (Json.obj (pre ++ post)).FindMember k := by
  have hk : (key == k) = false := by simpa using h
  simp only [Json.FindMember, Json.Members, List.find?_append, List.find?_cons, hk]

theorem agree_insert {keys : List String} {pre post : List (String × Json)} {key : String}
    {v : Json} (h : key ∉ keys) :
    agree keys (Json.obj (pre ++ (key, v) :: post)) (Json.obj (pre ++ post)) :=
  ⟨rfl, fun _ hk => FindMember_insert (fun hkk => h (hkk ▸ hk))⟩

/-- Replacing the value of one member changes the lookup of its key at most. -/
theorem FindMember_replace (pre post : List (String × Json)) (name k : String) (a b : Json) :
    (Json.obj (pre ++ (name, a) :: post)).FindMember k
        = (Json.obj (pre ++ (name, b) :: post)).FindMember k
      ∨ ((Json.obj (pre ++ (name, a) :: post)).FindMember k = some a
          ∧ (Json.obj (pre ++ (name, b) :: post)).FindMember k = some b ∧ name = k) := by
  simp only [Json.FindMember, Json.Members, List.find?_append, List.find?_cons]
  cases hpre : pre.find? (fun m => m.1 == k) with
  | some m => left; rfl
  | none =>
    by_cases hk : name = k
    · right
      have : (name == k) = true := by simpa using hk
      simp [this, hk]
    · left
      have : (name == k) = false := by simpa using hk
      simp [this]

theorem HasMember_replace (pre post : List (String × Json)) (name k : String) (a b : Json) :
    (Json.obj (pre ++ (name, a) :: post)).HasMember k
      = (Json.obj (pre ++ (name, b) :: post)).HasMember k := by
  unfold Json.HasMember
  rcases FindMember_replace pre post name k a b with h | ⟨h1, h2, -⟩
  · rw [h]
  · rw [h1, h2]; rfl

/-- Replacing the value of one member by a value that is read alike leaves the
reading of every member alike. -/
theorem member_replace_agree (keys : List String) (pre post : List (String × Json))
    (name k : String) {a b : Json} (hab : name = k → agree keys a b) :
    agree keys ((Json.obj (pre ++ (name, a) :: post)).member k)
      ((Json.obj (pre ++ (name, b) :: post)).member k) := by
  unfold Json.member
  rcases FindMember_replace pre post name k a b with h | ⟨h1, h2, hk⟩
  · rw [h]; exact agree_refl _ _
  · rw [h1, h2]; exact hab hk

theorem FindMember_replace_ne (pre post : List (String × Json)) {name k : String} (a b : Json)
    (h : name ≠ k) :
    (Json.obj (pre ++ (name, a) :: post)).FindMember k
      = (Json.obj (pre ++ (name, b) :: post)).FindMember k := by
  rcases FindMember_replace pre post name k a b with h' | ⟨-, -, h'⟩
  · exact h'
  · exact absurd h' h

theorem parse_initial_window_size_congr {d₁ d₂ : Json}
    (h : d₁.FindMember "initial_window_size" = d₂.FindMember "initial_window_size") :
    parse_initial_window_size d₁ = parse_initial_window_size d₂ := by
  simp only [parse_initial_window_size, Json.HasMember, Json.member, h]

theorem parse_audio_enabled_congr {d₁ d₂ : Json}
    (h : d₁.FindMember "audio_enabled" = d₂.FindMember "audio_enabled") :
    parse_audio_enabled d₁ = parse_audio_enabled d₂ := by
  simp only [parse_audio_enabled, Json.HasMember, Json.member, h]

theorem parse_blend_congr {d₁ d₂ : Json}
    (h : d₁.FindMember "blend" = d₂.FindMember "blend") :
    parse_blend d₁ = parse_blend d₂ := by
  simp only [parse_blend, Json.HasMember, Json.member, h]

theorem parse_uniforms_congr {d₁ d₂ : Json}
    (h : d₁.FindMember "uniforms" = d₂.FindMember "uniforms") :
    parse_uniforms d₁ = parse_uniforms d₂ := by
  simp only [parse_uniforms, Json.member, h]

theorem parse_render_order_congr {d₁ d₂ : Json} (bs : List Buffer)
    (h : d₁.FindMember "render_order" = d₂.FindMember "render_order") :
    parse_render_order d₁ bs = parse_render_order d₂ bs := by
  simp only [parse_render_order, Json.HasMember, Json.member, h]

theorem parse_audio_options_congr {d₁ d₂ : Json}
    (h : agree ["fft_smooth", "wave_smooth", "fft_sync", "diff_sync"]
      (d₁.member "audio_options") (d₂.member "audio_options")) :
    parse_audio_options d₁ = parse_audio_options d₂ := by
  obtain ⟨hobj, hk⟩ := h
  have h1 := hk "fft_smooth" (by simp)
  have h2 := hk "wave_smooth" (by simp)
  have h3 := hk "fft_sync" (by simp)
  have h4 := hk "diff_sync" (by simp)
  unfold parse_audio_options
  generalize d₁.member "audio_options" = a₁ at hobj h1 h2 h3 h4 ⊢
  generalize d₂.member "audio_options" = a₂ at hobj h1 h2 h3 h4 ⊢
  simp only [Json.HasMember, Json.member, hobj, h1, h2, h3, h4]

theorem parse_clear_color_congr {a b : Json} (what : String)
    (h : a.FindMember "clear_color" = b.FindMember "clear_color") :
    parse_clear_color a what = parse_clear_color b what := by
  simp only [parse_clear_color, Json.HasMember, Json.member, h]

theorem parse_image_buffer_congr {d₁ d₂ : Json}
    (h : agree ["geom_iters", "clear_color"] (d₁.member "image") (d₂.member "image")) :
    parse_image_buffer d₁ = parse_image_buffer d₂ := by
  obtain ⟨hobj, hk⟩ := h
  have h1 := hk "geom_iters" (by simp)
  have h2 := hk "clear_color" (by simp)
  unfold parse_image_buffer
  dsimp only
  rw [parse_clear_color_congr _ h2]
  generalize d₁.member "image" = a₁ at hobj h1 h2 ⊢
  generalize d₂.member "image" = a₂ at hobj h1 h2 ⊢
  simp only [Json.HasMember, Json.member, hobj, h1]

theorem parse_buffer_congr {a b : Json} (n : String) (names : List String)
    (h : agree ["size", "geom_iters", "clear_color"] a b) :
    parse_buffer a n names = parse_buffer b n names := by
  obtain ⟨hobj, hk⟩ := h
  have h1 := hk "size" (by simp)
  have h2 := hk "geom_iters" (by simp)
  have h3 := hk "clear_color" (by simp)
  unfold parse_buffer
  rw [parse_clear_color_congr _ h3]
  simp only [Json.HasMember, Json.member, hobj, h1, h2]

theorem parse_buffers_loop_congr {ms₁ ms₂ : List (String × Json)}
    (h : List.Forall₂
      (fun m₁ m₂ => m₁.1 = m₂.1 ∧ agree ["size", "geom_iters", "clear_color"] m₁.2 m₂.2)
      ms₁ ms₂) (names : List String) (acc : List Buffer) :
    parse_buffers_loop ms₁ names acc = parse_buffers_loop ms₂ names acc := by
  induction h generalizing names acc with
  | nil => rfl
  | cons hm _ ih =>
    unfold parse_buffers_loop
    rw [parse_buffer_congr _ _ hm.2, hm.1]
    congr 1
    funext r
    exact ih _ _

theorem parse_buffers_congr {d₁ d₂ : Json}
    (hobj : (d₁.member "buffers").IsObject = (d₂.member "buffers").IsObject)
    (hall : List.Forall₂
      (fun m₁ m₂ => m₁.1 = m₂.1 ∧ agree ["size", "geom_iters", "clear_color"] m₁.2 m₂.2)
      (d₁.member "buffers").Members (d₂.member "buffers").Members) :
    parse_buffers d₁ = parse_buffers d₂ := by
  unfold parse_buffers
  dsimp only
  rw [parse_buffers_loop_congr hall, hobj, Json.MemberCount, Json.MemberCount, hall.length_eq]

/-- Documents that are read alike build alike. -/
theorem ShaderConfig_congr {d₁ d₂ : Json} (h : same_reading d₁ d₂) :
    ShaderConfig.ShaderConfig d₁ = ShaderConfig.ShaderConfig d₂ := by
  obtain ⟨hobj, hk, ⟨hao, haoa⟩, ⟨himg, himga⟩, ⟨hbuf, hbobj, hball⟩⟩ := h
  have h1 := hk "initial_window_size" (by simp)
  have h2 := hk "audio_enabled" (by simp)
  have h3 := hk "blend" (by simp)
  have h4 := hk "render_order" (by simp)
  have h5 := hk "uniforms" (by simp)
  have hhead : ShaderConfig_head d₁ = ShaderConfig_head d₂ := by
    unfold ShaderConfig_head
    rw [hobj, parse_initial_window_size_congr h1, parse_audio_enabled_congr h2,
      parse_blend_congr h3, hao, himg, parse_audio_options_congr haoa,
      parse_image_buffer_congr himga]
  have hbuffers : ∀ s, ShaderConfig_buffers d₁ s = ShaderConfig_buffers d₂ s := by
    intro s
    unfold ShaderConfig_buffers
    rw [hbuf, parse_buffers_congr hbobj hball]
    congr 1
    congr 1
    funext bs
    rw [parse_render_order_congr bs h4]
  have huniforms : ∀ s, ShaderConfig_uniforms d₁ s = ShaderConfig_uniforms d₂ s := by
    intro s
    unfold ShaderConfig_uniforms
    have hh : d₁.HasMember "uniforms" = d₂.HasMember "uniforms" := by
      unfold Json.HasMember; rw [h5]
    rw [hh, parse_uniforms_congr h5]
  unfold ShaderConfig.ShaderConfig
  rw [hhead]
  congr 1
  funext s₁
  rw [hbuffers]
  congr 1
  funext s₂
  exact huniforms s₂

theorem forall₂_agree_refl (keys : List String) (ms : List (String × Json)) :
    List.Forall₂ (fun m₁ m₂ : String × Json => m₁.1 = m₂.1 ∧ agree keys m₁.2 m₂.2) ms ms := by
  induction ms with
  | nil => exact List.Forall₂.nil
  | cons m rest ih => exact List.Forall₂.cons ⟨rfl, agree_refl _ _⟩ ih

/-- Documents with the same values under the eight keys of the constructor are
read alike. -/
theorem same_reading_of_FindMember {d₁ d₂ : Json} (hobj : d₁.IsObject = d₂.IsObject)
    (h : ∀ k ∈ ["initial_window_size", "audio_enabled", "audio_options", "blend", "image",
      "buffers", "render_order", "uniforms"], d₁.FindMember k = d₂.FindMember k) :
    same_reading d₁ d₂ := by
  have hm : ∀ k ∈ ["initial_window_size", "audio_enabled", "audio_options", "blend", "image",
      "buffers", "render_order", "uniforms"], d₁.member k = d₂.member k := by
    intro k hk; unfold Json.member; rw [h k hk]
  have hh : ∀ k ∈ ["initial_window_size", "audio_enabled", "audio_options", "blend", "image",
      "buffers", "render_order", "uniforms"], d₁.HasMember k = d₂.HasMember k := by
    intro k hk; unfold Json.HasMember; rw [h k hk]
  refine ⟨hobj, fun k hk => h k ?_, ⟨hh _ (by simp), ?_⟩, ⟨hh _ (by simp), ?_⟩,
    ⟨hh _ (by simp), ?_, ?_⟩⟩
  · simp only [List.mem_cons, List.mem_singleton, List.not_mem_nil, or_false] at hk ⊢
    rcases hk with rfl | rfl | rfl | rfl | rfl <;> simp
  · rw [hm _ (by simp)]; exact agree_refl _ _
  · rw [hm _ (by simp)]; exact agree_refl _ _
  · rw [hm _ (by simp)]
  · rw [hm _ (by simp)]; exact forall₂_agree_refl _ _

/-- Replacing the value of one top-level member by a value that its parser reads
alike gives a document that is read alike. -/
theorem same_reading_replace (pre post : List (String × Json)) (name : String) {a b : Json}
    (h4 : name = "audio_options" →
      agree ["fft_smooth", "wave_smooth", "fft_sync", "diff_sync"] a b)
    (h2 : name = "image" → agree ["geom_iters", "clear_color"] a b)
    (hb : name = "buffers" → a.IsObject = b.IsObject ∧ List.Forall₂
      (fun m₁ m₂ : String × Json =>
        m₁.1 = m₂.1 ∧ agree ["size", "geom_iters", "clear_color"] m₁.2 m₂.2)
      a.Members b.Members)
    (hname : name ∉ ["initial_window_size", "audio_enabled", "blend", "render_order",
      "uniforms"]) :
    same_reading (Json.obj (pre ++ (name, a) :: post)) (Json.obj (pre ++ (name, b) :: post)) := by
  refine ⟨rfl, fun k hk => FindMember_replace_ne pre post a b (fun hkk => hname (hkk ▸ hk)),
    ⟨HasMember_replace pre post name _ a b, member_replace_agree _ pre post name _ h4⟩,
    ⟨HasMember_replace pre post name _ a b, member_replace_agree _ pre post name _ h2⟩,
    ⟨HasMember_replace pre post name _ a b, ?_, ?_⟩⟩
  · unfold Json.member
    rcases FindMember_replace pre post name "buffers" a b with h | ⟨h1, h2', hk⟩
    · rw [h]
    · rw [h1, h2']; exact (hb hk).1
  · unfold Json.member
    rcases FindMember_replace pre post name "buffers" a b with h | ⟨h1, h2', hk⟩
    · rw [h]; exact forall₂_agree_refl _ _
    · rw [h1, h2']; exact (hb hk).2

theorem forall₂_agree_replace (keys : List String) (bpre bpost : List (String × Json))
    (name : String) {a b : Json} (h : agree keys a b) :
    List.Forall₂ (fun m₁ m₂ : String × Json => m₁.1 = m₂.1 ∧ agree keys m₁.2 m₂.2)
      (bpre ++ (name, a) :: bpost) (bpre ++ (name, b) :: bpost) := by
  induction bpre with
  | nil => exact List.Forall₂.cons ⟨rfl, h⟩ (forall₂_agree_refl _ _)
  | cons m rest ih => exact List.Forall₂.cons ⟨rfl, agree_refl _ _⟩ ih

theorem roundNearestEven_intCast (z : Int) : roundNearestEven (z : Rat) = z := by
  unfold roundNearestEven
  have hf : (z : Rat).floor = z := by rw [floor_eq_floor]; exact Int.floor_intCast z
  simp only [hf, sub_self]
  rw [if_pos (by norm_num)]

/-- A value that is a whole number of units in the last place is not changed by
the rounding. -/
theorem roundBinary_exact {p : Nat} {emin : Int} {q : Rat} (z : Int)
    (h : q / 2 ^ (max (binaryExponent q) emin - ((p : Int) - 1)) = z) :
    roundBinary p emin q = q := by
  unfold roundBinary
  by_cases hq : q = 0
  · rw [if_pos hq, hq]
  · rw [if_neg hq]
    simp only
    rw [h, roundNearestEven_intCast, ← h]
    have hulp : (2 : Rat) ^ (max (binaryExponent q) emin - ((p : Int) - 1)) ≠ 0 := by positivity
    field_simp

/-- Integers of less than `p` binary digits are values of the format. -/
theorem roundBinary_int {p : Nat} {emin : Int} (n : Int) (hemin : emin ≤ (p : Int) - 1)
    (hn : |(n : Rat)| < 2 ^ p) : roundBinary p emin (n : Rat) = n := by
  by_cases h0 : (n : Rat) = 0
  · rw [h0]; unfold roundBinary; rw [if_pos rfl]
  · have hb := (binaryExponent_bounds (n : Rat) h0).1
    have hexp : binaryExponent (n : Rat) ≤ (p : Int) - 1 := by
      by_contra hcon
      have hge : (p : Int) ≤ binaryExponent (n : Rat) := by omega
      have : (2 : Rat) ^ (p : Int) ≤ 2 ^ binaryExponent (n : Rat) :=
        zpow_le_zpow_right₀ (by norm_num) hge
      rw [zpow_natCast] at this
      linarith
    have he : max (binaryExponent (n : Rat)) emin ≤ (p : Int) - 1 := max_le hexp hemin
    obtain ⟨k, hk⟩ : ∃ k : Nat,
        (k : Int) = ((p : Int) - 1) - max (binaryExponent (n : Rat)) emin :=
      ⟨(((p : Int) - 1) - max (binaryExponent (n : Rat)) emin).toNat, by
        rw [Int.toNat_of_nonneg]; omega⟩
    apply roundBinary_exact (n * 2 ^ k)
    have : max (binaryExponent (n : Rat)) emin - ((p : Int) - 1) = -(k : Int) := by omega
    rw [this, zpow_neg, zpow_natCast]
    push_cast
    field_simp

/-- An integer literal of magnitude below `2^24` is read by `GetFloat` as itself. -/
theorem GetFloat_int (n : Int) (hn : |n| < 2 ^ 24) :
    (Json.int n).GetFloat = Float32.fin n := by
  have hq : |(n : Rat)| < 2 ^ 24 := by
    have : ((|n| : Int) : Rat) < ((2 ^ 24 : Int) : Rat) := by exact_mod_cast hn
    simpa using this
  show toFloat32 (roundBinary 53 (-1022) (n : Rat)) = Float32.fin n
  rw [roundBinary_int n (by decide) (lt_trans hq (by norm_num))]
  have hr : roundBinary 24 (-126) (n : Rat) = n := roundBinary_int n (by decide) hq
  rw [toFloat32_of_lt (by rw [hr]; exact lt_trans hq (by norm_num)), hr]

/-! ## Claims -/

/-- C1: `delete_unused_buffers` rewrites the buffer list and leaves the render
order alone, so the final indices still refer to the declaration order: with
buffers `a`, `b` and render order `["b"]` the build returns the one buffer `b`
and the render order `[1]`, which is not a position of the final buffer list. -/
theorem C1_render_order_not_remapped :
    ∃ cfg, ShaderConfig.ShaderConfig doc_render_second = Except.ok cfg
      ∧ cfg.mBuffers.map Buffer.name = ["b"] ∧ cfg.mRender_order = [1]
      ∧ cfg.mBuffers[1]? = none :=
  ⟨_, rfl, rfl, rfl, rfl⟩

/-- C2: on a successful build of a document with a `buffers` section, the final
buffers are the declared buffers (the output of `parse_buffers`, one per member,
named by the member names as the code reads them, as C strings)
at the positions `kept`, where `kept` lists exactly the indices of the resolved
render order, each once, in the order of their first occurrence there; so a
buffer is in the final sequence exactly when the render order refers to it, no
buffer appears twice, and a declared buffer that is never referenced is absent. -/
theorem C2_final_buffers_are_the_referenced_ones (d : Json) (cfg : ShaderConfig)
    (h : ShaderConfig.ShaderConfig d = Except.ok cfg) (hb : d.HasMember "buffers" = true) :
    ∃ (declared : List Buffer) (ro kept : List Nat), parse_buffers d = Except.ok declared
      ∧ declared.map Buffer.name = (d.member "buffers").Members.map (fun m => c_str m.1)
      ∧ parse_render_order d declared = Except.ok ro ∧ cfg.mRender_order = ro
      ∧ kept.map (fun i => declared[i]?) = cfg.mBuffers.map some
      ∧ kept.Nodup ∧ (∀ i, i ∈ kept ↔ i ∈ ro)
      ∧ (∀ i ∈ kept, ∀ j ∈ kept, kept.indexOf i < kept.indexOf j ↔ ro.indexOf i < ro.indexOf j)
      ∧ cfg.mBuffers.Nodup
      ∧ (∀ b, b ∈ cfg.mBuffers ↔ ∃ i ∈ ro, declared[i]? = some b)
      ∧ (∀ i b, declared[i]? = some b → i ∉ ro → b ∉ cfg.mBuffers) := by
  obtain ⟨declared, ro, hd, hro, hk, hcfg⟩ := ShaderConfig_ok_buffers h hb
  obtain ⟨-, hnames, hnodup, -, -⟩ := parse_buffers_ok hd
  have hdn : declared.Nodup := buffers_nodup_of_names hnodup
  unfold delete_unused_buffers at hk
  obtain ⟨kept_bs, hkb, hmap⟩ := delete_unused_buffers_loop_ok hk
  rw [List.nil_append] at hkb
  rw [← hkb] at hmap
  have hmem : ∀ i, i ∈ first_seen ro [] ↔ i ∈ ro := fun i => by
    rw [mem_first_seen]; simp
  have hmemb : ∀ b, b ∈ cfg.mBuffers ↔ ∃ i ∈ ro, declared[i]? = some b := by
    intro b
    have : b ∈ cfg.mBuffers ↔ some b ∈ cfg.mBuffers.map some := by simp
    rw [this, ← hmap, List.mem_map]
    constructor
    · rintro ⟨i, hi, hib⟩; exact ⟨i, (hmem i).mp hi, hib⟩
    · rintro ⟨i, hi, hib⟩; exact ⟨i, (hmem i).mpr hi, hib⟩
  refine ⟨declared, ro, first_seen ro [], hd, hnames, hro, hcfg, hmap, nodup_first_seen _ _, hmem,
    fun i hi j hj => indexOf_first_seen hi hj, ?_, hmemb, ?_⟩
  · apply List.Nodup.of_map some
    rw [← hmap]
    apply List.Nodup.map_on _ (nodup_first_seen _ _)
    intro x hx y _ hxy
    have hxlt : x < declared.length := parse_render_order_lt hro x ((hmem x).mp hx)
    have hx' : declared[x]? = some declared[x] := List.getElem?_eq_getElem hxlt
    exact getElem?_inj_of_nodup hdn hx' (by rw [← hxy]; exact hx')
  · intro i b hib hi hmemb'
    obtain ⟨j, hj, hjb⟩ := (hmemb b).mp hmemb'
    exact hi (getElem?_inj_of_nodup hdn hjb hib ▸ hj)

/-- C2 at `doc_three_buffers`: buffers `a`, `b`, `c` with render order `c`, `a`, `c` give
the final buffers `c`, `a`. -/
theorem C2_witness :
    ShaderConfig.ShaderConfig doc_three_buffers = Except.ok cfg_three_buffers
      ∧ doc_three_buffers.HasMember "buffers" = true
      ∧ ∃ (declared : List Buffer) (ro kept : List Nat),
          parse_buffers doc_three_buffers = Except.ok declared
          ∧ declared.map Buffer.name
              = (doc_three_buffers.member "buffers").Members.map (fun m => c_str m.1)
          ∧ parse_render_order doc_three_buffers declared = Except.ok ro
          ∧ cfg_three_buffers.mRender_order = ro
          ∧ kept.map (fun i => declared[i]?) = cfg_three_buffers.mBuffers.map some
          ∧ kept.Nodup ∧ (∀ i, i ∈ kept ↔ i ∈ ro)
          ∧ (∀ i ∈ kept, ∀ j ∈ kept,
              kept.indexOf i < kept.indexOf j ↔ ro.indexOf i < ro.indexOf j)
          ∧ cfg_three_buffers.mBuffers.Nodup
          ∧ (∀ b, b ∈ cfg_three_buffers.mBuffers ↔ ∃ i ∈ ro, declared[i]? = some b)
          ∧ (∀ i b, declared[i]? = some b → i ∉ ro → b ∉ cfg_three_buffers.mBuffers) :=
  ⟨rfl, rfl, C2_final_buffers_are_the_referenced_ones doc_three_buffers cfg_three_buffers rfl rfl⟩

/-- C3, as stated, fails when `buffers` is an empty object: `parse_render_order`
returns the empty sequence before it looks at `render_order`, and the build
succeeds although `"x"` names no declared buffer.  It also fails for a string
with a NUL character: the entry `"a\u0000zzz"` is not the name of the one
declared buffer `a`, but it is read as the C string `a` and the build succeeds. -/
theorem C3_counterexample :
    (Json.str "x" ∈ (doc_empty_buffers.member "render_order").Elems
      ∧ (∀ m ∈ (doc_empty_buffers.member "buffers").Members, m.1 ≠ "x")
      ∧ ∃ cfg, ShaderConfig.ShaderConfig doc_empty_buffers = Except.ok cfg
          ∧ cfg.mBuffers = [] ∧ cfg.mRender_order = [])
    ∧ (Json.str "a\x00zzz" ∈ (doc_render_order_nul.member "render_order").Elems
      ∧ (doc_render_order_nul.member "buffers").Members.map Prod.fst = ["a"]
      ∧ "a" ≠ "a\x00zzz"
      ∧ ∃ cfg, ShaderConfig.ShaderConfig doc_render_order_nul = Except.ok cfg
          ∧ cfg.mBuffers.map Buffer.name = ["a"] ∧ cfg.mRender_order = [0]) :=
  ⟨⟨List.mem_cons_self _ _, fun _ hm => absurd hm (List.not_mem_nil _), _, rfl, rfl, rfl⟩,
    List.mem_cons_self _ _, rfl, by decide, _, rfl, rfl, rfl⟩

/-- C3, amended: when the `buffers` section declares at least one buffer and the
`render_order` array contains a string that, read as a C string (up to its
first NUL character, if it has one), is not the name of any member of `buffers`
read likewise, the build throws.  For strings without NUL characters this is:
the string is not the name of any member of `buffers`. -/
theorem C3_unknown_render_order_name_fails (d : Json) (s : String)
    (hb : 0 < (d.member "buffers").MemberCount)
    (hs : Json.str s ∈ (d.member "render_order").Elems)
    (hn : ∀ m ∈ (d.member "buffers").Members, c_str m.1 ≠ c_str s) :
    ∃ what, ShaderConfig.ShaderConfig d = Except.error (runtime_error what) := by
  rcases ShaderConfig_ok_or_throws d with ⟨cfg, h⟩ | h
  · exfalso
    have hmem : (d.member "buffers").Members ≠ [] := by
      intro h0; rw [Json.MemberCount, h0] at hb; exact Nat.lt_irrefl _ hb
    obtain ⟨declared, ro, hd, hro, -, -⟩ :=
      ShaderConfig_ok_buffers h (HasMember_of_Members_ne_nil hmem)
    obtain ⟨-, hnames, -, -, -⟩ := parse_buffers_ok hd
    have helems : (d.member "render_order").Elems ≠ [] := List.ne_nil_of_mem hs
    have hlen : ¬ (declared.length == 0) = true := by
      have : declared.length = (d.member "buffers").Members.length := by
        rw [← List.length_map declared Buffer.name, hnames, List.length_map]
      simpa [this] using hmem
    unfold parse_render_order at hro
    rw [if_neg (by simp [HasMember_of_Elems_ne_nil helems]), if_neg hlen] at hro
    simp only [ite_throw_eq_ok, parse_render_order_loop_ok] at hro
    obtain ⟨-, js, -, hjs⟩ := hro
    obtain ⟨j, -, -, hj⟩ := forall₂_left hjs _ hs
    obtain ⟨b, hb', hbn⟩ := find_buffer_some hj
    have : c_str s ∈ declared.map Buffer.name :=
      List.mem_map.mpr ⟨b, List.getElem?_mem hb', hbn⟩
    rw [hnames, List.mem_map] at this
    obtain ⟨m, hm, hms⟩ := this
    exact hn m hm hms
  · exact h

theorem doc_unknown_name_fresh :
    ∀ m ∈ (doc_unknown_name.member "buffers").Members, c_str m.1 ≠ c_str "x" := by
  intro m hm
  have : m = ("a", Json.obj [("size", Json.arr [Json.int 1, Json.int 1]),
      ("geom_iters", Json.int 1)]) := List.mem_singleton.mp hm
  rw [this]
  decide

/-- C3 (amended) at `doc_unknown_name`: one buffer `a`, render order `a`, `x`. -/
theorem C3_witness :
    0 < (doc_unknown_name.member "buffers").MemberCount
      ∧ Json.str "x" ∈ (doc_unknown_name.member "render_order").Elems
      ∧ (∀ m ∈ (doc_unknown_name.member "buffers").Members, c_str m.1 ≠ c_str "x")
      ∧ ∃ what, ShaderConfig.ShaderConfig doc_unknown_name = Except.error (runtime_error what) :=
  ⟨by decide, List.mem_cons_of_mem _ (List.mem_cons_self _ _), doc_unknown_name_fresh,
    C3_unknown_render_order_name_fails doc_unknown_name "x" (by decide)
      (List.mem_cons_of_mem _ (List.mem_cons_self _ _)) doc_unknown_name_fresh⟩

/-- C4: on a successful build of a document whose `buffers` section declares
`n ≥ 1` buffers and which has no `render_order` key, the final render order is
`[0, 1, ..., n-1]` and the final buffers are the declared buffers (the output of
`parse_buffers`), one per member of `buffers` and in member order, named by the
member names as the code reads them, as C strings. -/
theorem C4_render_order_defaults_to_declaration_order (d : Json) (cfg : ShaderConfig)
    (h : ShaderConfig.ShaderConfig d = Except.ok cfg)
    (hn : 1 ≤ (d.member "buffers").MemberCount)
    (hro : d.HasMember "render_order" = false) :
    cfg.mRender_order = List.range (d.member "buffers").MemberCount
      ∧ parse_buffers d = Except.ok cfg.mBuffers
      ∧ cfg.mBuffers.length = (d.member "buffers").MemberCount
      ∧ cfg.mBuffers.map Buffer.name = (d.member "buffers").Members.map (fun m => c_str m.1) := by
  have hmem : (d.member "buffers").Members ≠ [] := by
    intro h0; rw [Json.MemberCount, h0] at hn; exact Nat.lt_irrefl _ hn
  obtain ⟨declared, ro, hd, hr, hk, hcfg⟩ :=
    ShaderConfig_ok_buffers h (HasMember_of_Members_ne_nil hmem)
  obtain ⟨-, hnames, -, -, -⟩ := parse_buffers_ok hd
  have hlen : declared.length = (d.member "buffers").MemberCount := by
    rw [Json.MemberCount, ← List.length_map declared Buffer.name, hnames, List.length_map]
  unfold parse_render_order at hr
  rw [if_pos (by simp [hro]), pure_eq_ok] at hr
  subst hr
  unfold delete_unused_buffers at hk
  obtain ⟨kept, hkept, hmap⟩ := delete_unused_buffers_loop_ok hk
  rw [List.nil_append] at hkept
  rw [first_seen_of_nodup (List.nodup_range _) (by simp), map_getElem?_range] at hmap
  have hfinal : cfg.mBuffers = declared := by
    rw [hkept]
    exact (List.map_injective_iff.mpr (Option.some_injective _) hmap).symm
  rw [hfinal]
  exact ⟨by rw [hcfg, hlen], hd, hlen, hnames⟩

/-- C4 at `doc_no_render_order`: two buffers and no `render_order`. -/
theorem C4_witness :
    ShaderConfig.ShaderConfig doc_no_render_order = Except.ok cfg_no_render_order
      ∧ 1 ≤ (doc_no_render_order.member "buffers").MemberCount
      ∧ doc_no_render_order.HasMember "render_order" = false
      ∧ cfg_no_render_order.mRender_order
          = List.range (doc_no_render_order.member "buffers").MemberCount
      ∧ parse_buffers doc_no_render_order = Except.ok cfg_no_render_order.mBuffers
      ∧ cfg_no_render_order.mBuffers.length = (doc_no_render_order.member "buffers").MemberCount
      ∧ cfg_no_render_order.mBuffers.map Buffer.name
          = (doc_no_render_order.member "buffers").Members.map (fun m => c_str m.1) :=
  ⟨rfl, by decide, rfl,
    C4_render_order_defaults_to_declaration_order doc_no_render_order cfg_no_render_order
      rfl (by decide) rfl⟩

/-- C6, as stated, fails: two members named `a` of which the first lacks `size`
make the build throw the error of the first member, not the duplicate-name
error. -/
theorem C6_counterexample :
    (doc_duplicate_invalid.member "buffers").Members = [("a", Json.obj []), ("a", Json.obj [])]
      ∧ ShaderConfig.ShaderConfig doc_duplicate_invalid
          = Except.error (runtime_error "a does not contain the size option") :=
  ⟨rfl, rfl⟩

/-- C6, amended: when the `buffers` object has two members with the same name
`n`, at any two positions, the build throws; and when the constructor reaches
the `buffers` block and the members in front of the second of the two parse,
the exception is the duplicate-name error for `n` (the message shows the name as
the C string the code reads, which is `n` itself when `n` has no NUL character). -/
theorem C6_duplicate_buffer_name_fails (d : Json) (pre mid post : List (String × Json))
    (n : String) (v w : Json)
    (hm : (d.member "buffers").Members = pre ++ (n, v) :: (mid ++ (n, w) :: post)) :
    (∃ what, ShaderConfig.ShaderConfig d = Except.error (runtime_error what))
      ∧ ((∃ s, ShaderConfig_head d = Except.ok s) →
          (∃ bs, parse_buffers_loop (pre ++ (n, v) :: mid) [] [] = Except.ok bs) →
          ShaderConfig.ShaderConfig d = Except.error (runtime_error
            ("Buffer name " ++ c_str n ++ " already used (buffers must have unique names)"))) := by
  have hne : (d.member "buffers").Members ≠ [] := by
    rw [hm]; simp
  have hhas : d.HasMember "buffers" = true := HasMember_of_Members_ne_nil hne
  constructor
  · rcases ShaderConfig_ok_or_throws d with ⟨cfg, h⟩ | h
    · exfalso
      obtain ⟨declared, ro, hd, -, -, -⟩ := ShaderConfig_ok_buffers h hhas
      obtain ⟨-, hnames, hnodup, -, -⟩ := parse_buffers_ok hd
      rw [hnames, hm] at hnodup
      simp only [List.map_append, List.map_cons, List.nodup_append, List.nodup_cons,
        List.mem_append, List.mem_cons, true_or, or_true, not_true_eq_false, false_and,
        and_false] at hnodup
    · exact h
  · rintro ⟨s, hs⟩ ⟨bs, hbs⟩
    obtain ⟨-, -, -, -, -, hvalid, -⟩ := parse_buffers_loop_ok hbs
    have hn : c_str n ≠ "" := (hvalid (c_str n) (by simp)).1
    have hloop : parse_buffers_loop (d.member "buffers").Members [] []
        = Except.error (runtime_error
            ("Buffer name " ++ c_str n ++ " already used (buffers must have unique names)")) := by
      have hsplit : pre ++ (n, v) :: (mid ++ (n, w) :: post)
          = (pre ++ (n, v) :: mid) ++ (n, w) :: post := by simp
      rw [hm, hsplit, parse_buffers_loop_append hbs]
      exact parse_buffers_loop_duplicate hn (by simp)
    have hpb : parse_buffers d = Except.error (runtime_error
        ("Buffer name " ++ c_str n ++ " already used (buffers must have unique names)")) := by
      unfold parse_buffers
      have h1 : ¬ ((!(d.member "buffers").IsObject) = true) := by
        simp [IsObject_of_Members_ne_nil hne]
      have h2 : ¬ (((d.member "buffers").MemberCount == 0) = true) := by
        simpa [Json.MemberCount] using hne
      simp only [if_neg h1, if_neg h2]
      exact hloop
    have hblock : ShaderConfig_buffers d s = Except.error (runtime_error
        ("Buffer name " ++ c_str n ++ " already used (buffers must have unique names)")) := by
      unfold ShaderConfig_buffers
      rw [if_pos hhas, hpb]
      rfl
    unfold ShaderConfig.ShaderConfig
    rw [hs]
    show (ShaderConfig_buffers d s >>= fun self => ShaderConfig_uniforms d self) = _
    rw [hblock]
    rfl

/-- C6 (amended) at `doc_duplicate`: members `a`, `b`, `a`, the first two valid. -/
theorem C6_witness :
    (doc_duplicate.member "buffers").Members
        = [] ++ ("a", buffer_1x1) :: ([("b", buffer_1x1)] ++ ("a", Json.obj []) :: [])
      ∧ (∃ what, ShaderConfig.ShaderConfig doc_duplicate = Except.error (runtime_error what))
      ∧ ShaderConfig.ShaderConfig doc_duplicate = Except.error (runtime_error
          ("Buffer name " ++ c_str "a" ++ " already used (buffers must have unique names)")) :=
  ⟨rfl,
    (C6_duplicate_buffer_name_fails doc_duplicate [] [("b", buffer_1x1)] [] "a"
      buffer_1x1 (Json.obj []) rfl).1,
    (C6_duplicate_buffer_name_fails doc_duplicate [] [("b", buffer_1x1)] [] "a"
      buffer_1x1 (Json.obj []) rfl).2 ⟨_, rfl⟩ ⟨_, rfl⟩⟩

/-- C7, as stated, fails for a positive integer that does not fit a 32-bit
`int`: `IsInt()` is false for `2147483648` and the build throws. -/
theorem C7_counterexample :
    ShaderConfig.ShaderConfig
        (Json.obj [("image", Json.obj [("geom_iters", Json.int 2147483648)])])
      = Except.error (runtime_error "image.geom_iters must be a positive integer") :=
  rfl

/-- C7, amended: for a document whose only member is `image`, an object whose
`geom_iters` is a positive integer that fits a 32-bit `int` and which has no
`clear_color`, the build succeeds with the documented defaults. -/
theorem C7_minimal_document_defaults (image : List (String × Json)) (g : Int)
    (hg : (Json.obj image).FindMember "geom_iters" = some (Json.int g))
    (hpos : 0 < g) (hint : g ≤ 2147483647)
    (hcc : (Json.obj image).HasMember "clear_color" = false) :
    ShaderConfig.ShaderConfig (Json.obj [("image", Json.obj image)]) = Except.ok
      { mInitWinSize_width := 400, mInitWinSize_height := 400, mAudio_enabled := true,
        mAudio_ops :=
          { fft_smooth := .fin 0.75, wave_smooth := .fin 0.75,
            fft_sync := true, diff_sync := true },
        mBlend := false,
        mImage := { name := "", width := 0, height := 0, is_window_size := true,
                    geom_iters := g, clear_color := (.fin 0, .fin 0, .fin 0) },
        mBuffers := [], mRender_order := [], mUniforms := [] } := by
  have himg : parse_image_buffer (Json.obj [("image", Json.obj image)]) = Except.ok
      { name := "", width := 0, height := 0, is_window_size := true,
        geom_iters := g, clear_color := (.fin 0, .fin 0, .fin 0) } := by
    have hm : (Json.obj [("image", Json.obj image)]).member "image" = Json.obj image := rfl
    have hgm : (Json.obj image).member "geom_iters" = Json.int g := by
      unfold Json.member; rw [hg]; rfl
    have hgh : (Json.obj image).HasMember "geom_iters" = true := by
      unfold Json.HasMember; rw [hg]; rfl
    have hisint : (Json.int g).IsInt = true := by
      simp only [Json.IsInt, decide_eq_true_eq]; omega
    unfold parse_image_buffer parse_clear_color
    simp only [hm, hgm, hgh, hcc, hisint, Json.IsObject, Json.GetInt]
    have hle : ¬ g ≤ 0 := by omega
    simp [hle]
    rfl
  unfold ShaderConfig.ShaderConfig ShaderConfig_head
  have h1 : parse_initial_window_size (Json.obj [("image", Json.obj image)])
      = Except.ok (400, 400) := rfl
  have h2 : parse_audio_enabled (Json.obj [("image", Json.obj image)]) = Except.ok true := rfl
  have h3 : parse_blend (Json.obj [("image", Json.obj image)]) = Except.ok false := rfl
  have h4 : (Json.obj [("image", Json.obj image)]).HasMember "audio_options" = false := rfl
  have h5 : (Json.obj [("image", Json.obj image)]).HasMember "image" = true := rfl
  have h6 : ShaderConfig_buffers (Json.obj [("image", Json.obj image)])
      = fun self => Except.ok self := rfl
  have h7 : ShaderConfig_uniforms (Json.obj [("image", Json.obj image)])
      = fun self => Except.ok self := rfl
  simp only [h1, h2, h3, h4, h5, h6, h7, himg, Json.IsObject]
  rfl

/-- C7 (amended) at the document `{"image":{"geom_iters":1}}`. -/
theorem C7_witness :
    (Json.obj [("geom_iters", Json.int 1)]).FindMember "geom_iters" = some (Json.int 1)
      ∧ (0 : Int) < 1 ∧ (1 : Int) ≤ 2147483647
      ∧ (Json.obj [("geom_iters", Json.int 1)]).HasMember "clear_color" = false
      ∧ ShaderConfig.ShaderConfig (Json.obj [("image", Json.obj [("geom_iters", Json.int 1)])])
          = Except.ok
            { mInitWinSize_width := 400, mInitWinSize_height := 400, mAudio_enabled := true,
              mAudio_ops :=
                { fft_smooth := .fin 0.75, wave_smooth := .fin 0.75,
                  fft_sync := true, diff_sync := true },
              mBlend := false,
              mImage := { name := "", width := 0, height := 0, is_window_size := true,
                          geom_iters := 1, clear_color := (.fin 0, .fin 0, .fin 0) },
              mBuffers := [], mRender_order := [], mUniforms := [] } :=
  ⟨rfl, by decide, by decide, rfl,
    C7_minimal_document_defaults [("geom_iters", Json.int 1)] 1 rfl (by decide) (by decide) rfl⟩

/-- C8: a document without an `image` key makes the build throw, whatever else
it contains. -/
theorem C8_missing_image_fails (d : Json) (h : d.HasMember "image" = false) :
    ∃ what, ShaderConfig.ShaderConfig d = Except.error (runtime_error what) := by
  rcases ShaderConfig_ok_or_throws d with ⟨cfg, hok⟩ | hthrow
  · obtain ⟨s₁, s₂, h1, -, -⟩ := ShaderConfig_ok.mp hok
    obtain ⟨-, himg, -⟩ := ShaderConfig_head_ok h1
    rw [h] at himg
    cases himg
  · exact hthrow

/-- C8 at `doc_no_image`. -/
theorem C8_witness :
    doc_no_image.HasMember "image" = false
      ∧ ∃ what, ShaderConfig.ShaderConfig doc_no_image = Except.error (runtime_error what) :=
  ⟨rfl, C8_missing_image_fails doc_no_image rfl⟩

/-- C9: when the build succeeds, every member name of the `buffers` object is
non-empty, starts with a letter or an underscore and is not `"image"`, whether
the render order refers to the member or not. -/
theorem C9_buffer_names_are_valid (d : Json) (cfg : ShaderConfig)
    (h : ShaderConfig.ShaderConfig d = Except.ok cfg) :
    ∀ m ∈ (d.member "buffers").Members,
      m.1 ≠ "" ∧ (isalpha (m.1.get 0) = true ∨ m.1.get 0 = '_') ∧ m.1 ≠ "image" := by
  intro m hm
  have hne : (d.member "buffers").Members ≠ [] := List.ne_nil_of_mem hm
  obtain ⟨declared, ro, hd, -, -, -⟩ :=
    ShaderConfig_ok_buffers h (HasMember_of_Members_ne_nil hne)
  obtain ⟨-, -, -, hvalid, -⟩ := parse_buffers_ok hd
  obtain ⟨h1, h2, h3⟩ := hvalid (c_str m.1) (List.mem_map.mpr ⟨m, hm, rfl⟩)
  obtain ⟨hne', hget⟩ := c_str_ne_empty h1
  rw [hget] at h2
  exact ⟨hne', h2, ne_of_c_str_ne h3 (by decide)⟩

/-- C9 at `doc_three_buffers`. -/
theorem C9_witness :
    ShaderConfig.ShaderConfig doc_three_buffers = Except.ok cfg_three_buffers
      ∧ ∀ m ∈ (doc_three_buffers.member "buffers").Members,
          m.1 ≠ "" ∧ (isalpha (m.1.get 0) = true ∨ m.1.get 0 = '_') ∧ m.1 ≠ "image" :=
  ⟨rfl, C9_buffer_names_are_valid doc_three_buffers cfg_three_buffers rfl⟩

/-- C10: `parse_buffer` rejects `geom_iters == 0` only, so a buffer declared with
`geom_iters = -1` is accepted and the returned configuration holds a buffer
whose `geom_iters` is negative. -/
theorem C10_negative_geom_iters_accepted :
    ∃ cfg, ShaderConfig.ShaderConfig doc_negative_geom_iters = Except.ok cfg
      ∧ cfg.mBuffers.map Buffer.name = ["a"]
      ∧ cfg.mBuffers.map Buffer.geom_iters = [-1] :=
  ⟨_, rfl, rfl, rfl⟩

/-- C11: a document whose `image.geom_iters` is 0, or in which some member of
`buffers` has `geom_iters` equal to 0 (referenced by the render order or not),
makes the build throw. -/
theorem C11_zero_geom_iters_fails (d : Json)
    (h : (d.member "image").member "geom_iters" = Json.int 0
      ∨ ∃ m ∈ (d.member "buffers").Members, m.2.member "geom_iters" = Json.int 0) :
    ∃ what, ShaderConfig.ShaderConfig d = Except.error (runtime_error what) := by
  rcases ShaderConfig_ok_or_throws d with ⟨cfg, hok⟩ | hthrow
  · exfalso
    rcases h with himg | ⟨m, hm, hmz⟩
    · obtain ⟨s₁, s₂, h1, -, -⟩ := ShaderConfig_ok.mp hok
      obtain ⟨-, -, hparse, -⟩ := ShaderConfig_head_ok h1
      unfold parse_image_buffer at hparse
      simp only [ite_throw_eq_ok, himg] at hparse
      obtain ⟨-, -, hg, -⟩ := hparse
      simp [Json.IsInt, Json.GetInt] at hg
    · have hne : (d.member "buffers").Members ≠ [] := List.ne_nil_of_mem hm
      obtain ⟨declared, ro, hd, -, -, -⟩ :=
        ShaderConfig_ok_buffers hok (HasMember_of_Members_ne_nil hne)
      obtain ⟨reg, b, hb, -⟩ := parse_buffers_members hd m hm
      obtain ⟨-, -, -, -, -, -, -, -, hg, -⟩ := parse_buffer_ok_iff.mp hb
      rw [hmz] at hg
      exact hg rfl
  · exact hthrow

/-- C11 at `doc_image_zero` and at `doc_buffer_zero`, where the buffer with
`geom_iters` 0 is not in the render order. -/
theorem C11_witness :
    ((doc_image_zero.member "image").member "geom_iters" = Json.int 0
      ∧ ∃ what, ShaderConfig.ShaderConfig doc_image_zero = Except.error (runtime_error what))
    ∧ ((∃ m ∈ (doc_buffer_zero.member "buffers").Members,
          m.2.member "geom_iters" = Json.int 0)
      ∧ ∃ what, ShaderConfig.ShaderConfig doc_buffer_zero
          = Except.error (runtime_error what)) :=
  ⟨⟨rfl, C11_zero_geom_iters_fails doc_image_zero (Or.inl rfl)⟩,
    ⟨⟨_, List.mem_cons_of_mem _ (List.mem_cons_self _ _), rfl⟩,
      C11_zero_geom_iters_fails doc_buffer_zero
        (Or.inr ⟨_, List.mem_cons_of_mem _ (List.mem_cons_self _ _), rfl⟩)⟩⟩

/-- C12, as stated, fails for a positive integer that does not fit a 32-bit
`int`: with `"size":[2147483648,1]` the otherwise valid buffer is rejected.  It
also fails for a string other than `"window_size"` that reads as that C string:
`"size":"window_size\u0000junk"` is accepted. -/
theorem C12_counterexample :
    parse_buffer
        (Json.obj [("size", Json.arr [Json.int 2147483648, Json.int 1]),
                   ("geom_iters", Json.int 1)]) "a" []
      = Except.error (runtime_error "a.size must be an array of two positive integers")
    ∧ "window_size\x00junk" ≠ "window_size"
    ∧ parse_buffer
        (Json.obj [("size", Json.str "window_size\x00junk"), ("geom_iters", Json.int 1)]) "a" []
      = Except.ok ({ name := "a", width := 0, height := 0, is_window_size := true,
                     geom_iters := 1, clear_color := (.fin 0, .fin 0, .fin 0) }, ["a"]) := by
  decide

/-- C12, amended: for an otherwise valid buffer definition (fresh valid name,
object, positive 32-bit `geom_iters`, `clear_color` absent or three numbers),
`parse_buffer` succeeds with `width = w`, `height = h`, `is_window_size = false`
when `size` is `[w, h]` with `w`, `h` positive and fitting a 32-bit `int`; it
succeeds with `is_window_size = true`, `width = height = 0` when `size` is a
string that reads as the C string `"window_size"` (the string `"window_size"`,
or that string followed by a NUL character and anything); and it throws when
`size` is neither a two-element array of 32-bit integers nor such a string. -/
theorem C12_parse_buffer_size (v : Json) (n : String) (names : List String) (g : Int)
    (hn1 : n ≠ "") (hn2 : n ∉ names) (hn3 : isalpha (n.get 0) = true ∨ n.get 0 = '_')
    (hn4 : n ≠ "image") (hobj : v.IsObject = true)
    (hg : v.FindMember "geom_iters" = some (Json.int g)) (hgpos : 0 < g)
    (hgmax : g ≤ 2147483647)
    (hcc : v.HasMember "clear_color" = false
      ∨ ∃ a b c : Json, v.FindMember "clear_color" = some (Json.arr [a, b, c])
          ∧ a.IsNumber = true ∧ b.IsNumber = true ∧ c.IsNumber = true) :
    (∀ w h : Int, v.FindMember "size" = some (Json.arr [Json.int w, Json.int h]) →
        0 < w → w ≤ 2147483647 → 0 < h → h ≤ 2147483647 →
        ∃ b, parse_buffer v n names = Except.ok (b, n :: names) ∧ b.name = n
          ∧ b.width = w ∧ b.height = h ∧ b.is_window_size = false ∧ b.geom_iters = g)
      ∧ (∀ t : String, v.FindMember "size" = some (Json.str t) → c_str t = "window_size" →
        ∃ b, parse_buffer v n names = Except.ok (b, n :: names) ∧ b.name = n
          ∧ b.is_window_size = true ∧ b.width = 0 ∧ b.height = 0 ∧ b.geom_iters = g)
      ∧ ((∀ w h : Int, v.FindMember "size" = some (Json.arr [Json.int w, Json.int h]) →
            ¬ ((-2147483648 ≤ w ∧ w ≤ 2147483647) ∧ (-2147483648 ≤ h ∧ h ≤ 2147483647))) →
        (∀ t : String, v.FindMember "size" = some (Json.str t) → c_str t ≠ "window_size") →
        ∃ what, parse_buffer v n names = Except.error (runtime_error what)) := by
  obtain ⟨hgh, hgm⟩ := member_of_FindMember hg
  have hgint : (v.member "geom_iters").IsInt = true := by
    rw [hgm]; exact IsInt_iff.mpr ⟨g, rfl, by omega, hgmax⟩
  have hgne : (v.member "geom_iters").GetInt ≠ 0 := by
    rw [hgm]; simp only [Json.GetInt]; omega
  have hgval : (v.member "geom_iters").GetInt = g := by rw [hgm]; rfl
  have hccok : ∃ cc, parse_clear_color v
      (n ++ ".clear_color must be an array of 3 real numbers each between 0 and 1")
        = Except.ok cc := by
    rcases hcc with hcc | ⟨a, b, c, hf, ha, hb, hc⟩
    · exact ⟨_, parse_clear_color_ok_iff.mpr (Or.inl ⟨hcc, rfl⟩)⟩
    · obtain ⟨hh, hm⟩ := member_of_FindMember hf
      exact ⟨_, parse_clear_color_ok_iff.mpr (Or.inr ⟨hh, a, b, c, hm, ha, hb, hc, rfl⟩)⟩
  obtain ⟨cc, hccok⟩ := hccok
  refine ⟨?_, ?_, ?_⟩
  · intro w h hs hw0 hw1 hh0 hh1
    obtain ⟨hsh, hsm⟩ := member_of_FindMember hs
    have hsz : parse_size (v.member "size") n = Except.ok (w, h, false) :=
      parse_size_ok_iff.mpr (Or.inl ⟨w, h, hsm, ⟨by omega, hw1⟩, ⟨by omega, hh1⟩, rfl⟩)
    exact ⟨_, parse_buffer_ok_iff.mpr ⟨hn1, hn2, hn3, hn4, hobj, hsh, hgh, hgint, hgne,
      cc, _, hccok, hsz, rfl, rfl⟩, rfl, rfl, rfl, rfl, hgval⟩
  · intro t hs ht
    obtain ⟨hsh, hsm⟩ := member_of_FindMember hs
    have hsz : parse_size (v.member "size") n = Except.ok (0, 0, true) :=
      parse_size_ok_iff.mpr (Or.inr ⟨t, hsm, ht, rfl⟩)
    exact ⟨_, parse_buffer_ok_iff.mpr ⟨hn1, hn2, hn3, hn4, hobj, hsh, hgh, hgint, hgne,
      cc, _, hccok, hsz, rfl, rfl⟩, rfl, rfl, rfl, rfl, hgval⟩
  · intro harr hstr
    cases hres : parse_buffer v n names with
    | error e =>
      obtain ⟨what, rfl⟩ := (Error.thrown_iff e).mp (parse_buffer_throws v n names e hres)
      exact ⟨what, rfl⟩
    | ok r =>
      exfalso
      obtain ⟨b, names'⟩ := r
      obtain ⟨-, -, -, -, -, hsh, -, -, -, cc', sz, -, hsz, -, -⟩ := parse_buffer_ok_iff.mp hres
      have hf := FindMember_of_HasMember hsh
      rcases parse_size_ok_iff.mp hsz with ⟨w, h, heq, hw, hh, -⟩ | ⟨t, heq, ht, -⟩
      · rw [heq] at hf
        exact harr w h hf ⟨hw, hh⟩
      · rw [heq] at hf
        exact hstr t hf ht

/-- C12 (amended) at the name `"a"` with an empty registry: the sizes `[10, 20]`
and `"window_size"` are accepted, the size `"big"` is rejected. -/
theorem C12_witness :
    (∃ b, parse_buffer buffer_10x20 "a" [] = Except.ok (b, ["a"]) ∧ b.name = "a"
          ∧ b.width = 10 ∧ b.height = 20 ∧ b.is_window_size = false ∧ b.geom_iters = 2)
      ∧ (∃ b, parse_buffer buffer_window "a" [] = Except.ok (b, ["a"]) ∧ b.name = "a"
          ∧ b.is_window_size = true ∧ b.width = 0 ∧ b.height = 0 ∧ b.geom_iters = 2)
      ∧ ∃ what, parse_buffer buffer_big "a" [] = Except.error (runtime_error what) :=
  ⟨(C12_parse_buffer_size buffer_10x20 "a" [] 2 (by decide) (by decide) (Or.inl (by decide))
      (by decide) rfl rfl (by decide) (by decide) (Or.inl rfl)).1 10 20 rfl
      (by decide) (by decide) (by decide) (by decide),
    (C12_parse_buffer_size buffer_window "a" [] 2 (by decide) (by decide) (Or.inl (by decide))
      (by decide) rfl rfl (by decide) (by decide) (Or.inl rfl)).2.1 "window_size" rfl
      (by decide),
    (C12_parse_buffer_size buffer_big "a" [] 2 (by decide) (by decide) (Or.inl (by decide))
      (by decide) rfl rfl (by decide) (by decide) (Or.inl rfl)).2.2
      (fun w h hs => by
        have hs' : Json.str "big" = Json.arr [Json.int w, Json.int h] := Option.some.inj hs
        cases hs')
      (fun t hs => by
        have hs' : Json.str "big" = Json.str t := Option.some.inj hs
        injection hs' with hs'
        subst hs'
        decide)⟩

/-- The `size` check of `parse_buffer` looks at the type of the two elements
only: `"size":[0,-5]` is accepted and stored, although the message of the check
asks for two positive integers. -/
theorem parse_buffer_nonpositive_size :
    ∃ b, parse_buffer
        (Json.obj [("size", Json.arr [Json.int 0, Json.int (-5)]),
                   ("geom_iters", Json.int 1)]) "a" [] = Except.ok (b, ["a"])
      ∧ b.width = 0 ∧ b.height = -5 ∧ b.is_window_size = false :=
  ⟨_, rfl, rfl, rfl, rfl⟩

/-- C13: the `initial_window_size` block tests the type of the two elements
only, so `"initial_window_size":[0,-5]` is accepted and the returned
configuration has width 0 and height -5. -/
theorem C13_nonpositive_window_size_accepted :
    ∃ cfg, ShaderConfig.ShaderConfig doc_window_nonpositive = Except.ok cfg
      ∧ cfg.mInitWinSize_width = 0 ∧ cfg.mInitWinSize_height = -5 :=
  ⟨_, rfl, rfl, rfl⟩

/-- C14, as stated, fails at the lower bound: a uniform given as the empty array
is accepted and its values sequence is empty. -/
theorem C14_counterexample :
    ∃ cfg, ShaderConfig.ShaderConfig doc_empty_uniform = Except.ok cfg
      ∧ cfg.mUniforms = [{ name := "u", values := [] }] :=
  ⟨_, rfl, rfl⟩

/-- C14, amended: in a configuration returned by a successful build every
uniform has at most 4 values, and at least 1 unless the member of `uniforms` it
comes from (the uniform is named by that member name, read as a C string) is
the empty array. -/
theorem C14_uniform_values_length (d : Json) (cfg : ShaderConfig)
    (h : ShaderConfig.ShaderConfig d = Except.ok cfg) :
    ∀ u ∈ cfg.mUniforms, u.values.length ≤ 4
      ∧ ∃ m ∈ (d.member "uniforms").Members, c_str m.1 = u.name
          ∧ (1 ≤ u.values.length ∨ m.2 = Json.arr []) := by
  intro u hu
  rcases ShaderConfig_ok_uniforms h with ⟨-, hparse⟩ | ⟨-, hnil⟩
  · obtain ⟨hall, -⟩ := parse_uniforms_ok hparse
    obtain ⟨m, hm, reg, hpu⟩ := forall₂_right hall u hu
    obtain ⟨-, -, hname, hshape⟩ := parse_uniform_ok_iff.mp hpu
    rcases hshape with ⟨harr, hsz, -, hvals⟩ | ⟨-, -, hvals⟩
    · refine ⟨by rw [hvals, List.length_map]; exact hsz, m, hm, hname.symm, ?_⟩
      rw [hvals, List.length_map]
      cases hv : m.2 with
      | arr elems =>
        cases elems with
        | nil => exact Or.inr rfl
        | cons e rest => left; simp [Json.Elems]
      | null => rw [hv] at harr; cases harr
      | bool _ => rw [hv] at harr; cases harr
      | int _ => rw [hv] at harr; cases harr
      | dbl _ => rw [hv] at harr; cases harr
      | str _ => rw [hv] at harr; cases harr
      | obj _ => rw [hv] at harr; cases harr
    · exact ⟨by rw [hvals]; simp, m, hm, hname.symm, Or.inl (by rw [hvals]; simp)⟩
  · rw [hnil] at hu
    exact absurd hu (List.not_mem_nil u)

/-- What the build returns for `doc_uniforms`. -/
theorem doc_uniforms_ok :
    ShaderConfig.ShaderConfig doc_uniforms = Except.ok cfg_uniforms := by
  decide!

/-- C14 (amended) at `doc_uniforms`: uniforms of 4, 1 and 0 values. -/
theorem C14_witness :
    ShaderConfig.ShaderConfig doc_uniforms = Except.ok cfg_uniforms
      ∧ ∀ u ∈ cfg_uniforms.mUniforms, u.values.length ≤ 4
          ∧ ∃ m ∈ (doc_uniforms.member "uniforms").Members, c_str m.1 = u.name
              ∧ (1 ≤ u.values.length ∨ m.2 = Json.arr []) :=
  ⟨doc_uniforms_ok, C14_uniform_values_length doc_uniforms cfg_uniforms doc_uniforms_ok⟩

/-- C15, as stated, fails: the values stored are the conversions of the numbers
to `float`, which differ from the numbers themselves.  The number `1 + 2^-30` is
stored as `1`, the array `[0.1]` (held as the double `3602879701896397 / 2^55`)
as `[13421773 / 2^27]`, and the number `2^128`
(`340282366920938463463374607431768211456`) as positive infinity. -/
theorem C15_counterexample :
    "u" ∉ ([] : List String)
      ∧ parse_uniform (Json.dbl (1 + 1 / 2 ^ 30)) "u" []
          = Except.ok ({ name := "u", values := [Float32.fin 1] }, ["u"])
      ∧ (1 : Rat) ≠ 1 + 1 / 2 ^ 30
      ∧ parse_uniform (Json.arr [Json.dbl (3602879701896397 / 2 ^ 55)]) "u" []
          = Except.ok ({ name := "u", values := [Float32.fin (13421773 / 2 ^ 27)] }, ["u"])
      ∧ (13421773 / 2 ^ 27 : Rat) ≠ 3602879701896397 / 2 ^ 55
      ∧ parse_uniform (Json.dbl (2 ^ 128)) "u" []
          = Except.ok ({ name := "u", values := [Float32.inf false] }, ["u"]) := by
  decide!

/-- C15, amended: for a name that is not registered yet, `parse_uniform` accepts
an array of 1 to 4 numbers and returns their conversions to `float` in order
(the numbers themselves when they are integers of magnitude below `2^24`),
accepts a single number `x` and returns its conversion to `float` alone, and
throws on an array of more than 4 elements, on an array with a non-numeric
element, and on a value that is neither a number nor an array.  The conversion
`GetFloat` rounds to the nearest `float` and gives an infinity beyond the
largest finite one. -/
theorem C15_parse_uniform_shapes (n : String) (names : List String) (hfresh : n ∉ names) :
    (∀ elems : List Json, 1 ≤ elems.length → elems.length ≤ 4 →
        (∀ e ∈ elems, e.IsNumber = true) →
        parse_uniform (Json.arr elems) n names
          = Except.ok ({ name := n, values := elems.map Json.GetFloat }, n :: names))
      ∧ (∀ ints : List Int, 1 ≤ ints.length → ints.length ≤ 4 →
        (∀ i ∈ ints, |i| < 2 ^ 24) →
        parse_uniform (Json.arr (ints.map Json.int)) n names
          = Except.ok ({ name := n, values := ints.map (fun i : Int => Float32.fin (i : Rat)) },
              n :: names))
      ∧ (∀ x : Json, x.IsNumber = true →
        parse_uniform x n names
          = Except.ok ({ name := n, values := [x.GetFloat] }, n :: names))
      ∧ (∀ elems : List Json, 4 < elems.length →
        ∃ what, parse_uniform (Json.arr elems) n names = Except.error (runtime_error what))
      ∧ (∀ (elems : List Json) (e : Json), e ∈ elems → e.IsNumber = false →
        ∃ what, parse_uniform (Json.arr elems) n names = Except.error (runtime_error what))
      ∧ (∀ x : Json, x.IsNumber = false → x.IsArray = false →
        ∃ what, parse_uniform x n names = Except.error (runtime_error what)) := by
  have hfail : ∀ v : Json, (∀ u names', parse_uniform v n names ≠ Except.ok (u, names')) →
      ∃ what, parse_uniform v n names = Except.error (runtime_error what) := by
    intro v hv
    cases hres : parse_uniform v n names with
    | error e =>
      obtain ⟨what, rfl⟩ := (Error.thrown_iff e).mp (parse_uniform_throws v n names e hres)
      exact ⟨what, rfl⟩
    | ok r => exact absurd hres (hv r.1 r.2)
  refine ⟨?_, ?_, ?_, ?_, ?_, ?_⟩
  · intro elems _ h4 hnum
    exact parse_uniform_ok_iff.mpr ⟨hfresh, rfl, rfl, Or.inl ⟨rfl, h4, hnum, rfl⟩⟩
  · intro ints _ h4 hsmall
    refine parse_uniform_ok_iff.mpr ⟨hfresh, rfl, rfl, Or.inl ⟨rfl, ?_, ?_, ?_⟩⟩
    · simpa [Json.Size, Json.Elems] using h4
    · intro e he
      simp only [Json.Elems, List.mem_map] at he
      obtain ⟨i, -, rfl⟩ := he
      rfl
    · simp only [Json.Elems, List.map_map]
      apply List.map_congr_left
      intro i hi
      exact (GetFloat_int i (hsmall i hi)).symm
  · intro x hx
    have harr : x.IsArray = false := by
      cases x <;> first | rfl | cases hx
    exact parse_uniform_ok_iff.mpr ⟨hfresh, rfl, rfl, Or.inr ⟨harr, hx, rfl⟩⟩
  · intro elems h4
    apply hfail
    intro u names' hok
    rcases (parse_uniform_ok_iff.mp hok).2.2.2 with ⟨-, hsz, -⟩ | ⟨harr, -⟩
    · have : elems.length ≤ 4 := hsz
      omega
    · cases harr
  · intro elems e he hnum
    apply hfail
    intro u names' hok
    rcases (parse_uniform_ok_iff.mp hok).2.2.2 with ⟨-, -, hall, -⟩ | ⟨harr, -⟩
    · have := hall e he
      rw [hnum] at this
      cases this
    · cases harr
  · intro x hnum harr
    apply hfail
    intro u names' hok
    rcases (parse_uniform_ok_iff.mp hok).2.2.2 with ⟨harr', -⟩ | ⟨-, hnum', -⟩
    · rw [harr] at harr'; cases harr'
    · rw [hnum] at hnum'; cases hnum'

/-- C15 (amended) at the fresh name `"u"`: the arrays `[1, 0.5]` and `[1, 2, 3, 4]` and the
number `3` are accepted; an array of five numbers, the array `[1, "x"]` and the
string `"x"` are rejected. -/
theorem C15_witness :
    "u" ∉ ([] : List String)
      ∧ parse_uniform (Json.arr [Json.int 1, Json.dbl 0.5]) "u" []
          = Except.ok ({ name := "u",
                         values := List.map Json.GetFloat [Json.int 1, Json.dbl 0.5] }, ["u"])
      ∧ parse_uniform (Json.arr [Json.int 1, Json.int 2, Json.int 3, Json.int 4]) "u" []
          = Except.ok ({ name := "u",
                         values := [Float32.fin 1, Float32.fin 2, Float32.fin 3,
                                    Float32.fin 4] }, ["u"])
      ∧ parse_uniform (Json.int 3) "u" []
          = Except.ok ({ name := "u", values := [(Json.int 3).GetFloat] }, ["u"])
      ∧ (∃ what, parse_uniform
            (Json.arr [Json.int 1, Json.int 2, Json.int 3, Json.int 4, Json.int 5]) "u" []
          = Except.error (runtime_error what))
      ∧ (∃ what, parse_uniform (Json.arr [Json.int 1, Json.str "x"]) "u" []
          = Except.error (runtime_error what))
      ∧ ∃ what, parse_uniform (Json.str "x") "u" [] = Except.error (runtime_error what) :=
  ⟨by decide,
    (C15_parse_uniform_shapes "u" [] (by decide)).1 _ (by decide) (by decide)
      (by intro e he; simp only [List.mem_cons, List.mem_singleton, List.not_mem_nil,
            or_false] at he
          rcases he with rfl | rfl <;> rfl),
    (C15_parse_uniform_shapes "u" [] (by decide)).2.1 [1, 2, 3, 4] (by decide) (by decide)
      (by decide),
    (C15_parse_uniform_shapes "u" [] (by decide)).2.2.1 _ rfl,
    (C15_parse_uniform_shapes "u" [] (by decide)).2.2.2.1 _ (by decide),
    (C15_parse_uniform_shapes "u" [] (by decide)).2.2.2.2.1 _ (Json.str "x")
      (List.mem_cons_of_mem _ (List.mem_cons_self _ _)) rfl,
    (C15_parse_uniform_shapes "u" [] (by decide)).2.2.2.2.2 _ rfl rfl⟩

/-- C16, as stated, fails: two uniforms named `u` of which the first is a string
make the build throw the error of the first member, not the duplicate-name
error. -/
theorem C16_counterexample :
    (doc_duplicate_uniform_invalid.member "uniforms").Members
        = [("u", Json.str "x"), ("u", Json.int 1)]
      ∧ ShaderConfig.ShaderConfig doc_duplicate_uniform_invalid
          = Except.error (runtime_error
              "Uniform u must be either a number or an array of numbers.") :=
  ⟨rfl, rfl⟩

/-- C16, amended: when the `uniforms` object of `d` has two members with the
same name `n`, at any two positions, the build throws, and when the constructor
reaches the `uniforms` block and the members in front of the second of the two
parse, the exception is the duplicate-name error for `n` (the message shows the
name as the C string the code reads, which is `n` itself when `n` has no NUL
character).  The registry of uniform names starts empty: once the constructor
has reached the `uniforms` block of `d'`, whatever buffers it holds, the build
succeeds when `uniforms` is an object whose member names, read as C strings (up
to the first NUL character), are pairwise distinct and whose values are
acceptable. -/
theorem C16_duplicate_uniform_name_fails (d d' : Json) (pre mid post : List (String × Json))
    (n : String) (v w : Json) :
    ((d.member "uniforms").Members = pre ++ (n, v) :: (mid ++ (n, w) :: post) →
        (∃ what, ShaderConfig.ShaderConfig d = Except.error (runtime_error what))
        ∧ ((∃ s₁ s₂, ShaderConfig_head d = Except.ok s₁
              ∧ ShaderConfig_buffers d s₁ = Except.ok s₂) →
            (∃ us, parse_uniforms_loop (pre ++ (n, v) :: mid) [] [] = Except.ok us) →
            ShaderConfig.ShaderConfig d = Except.error (runtime_error
              ("Uniform name " ++ c_str n ++ " already used (uniforms must have unique names)"))))
      ∧ ((∃ s₁ s₂, ShaderConfig_head d' = Except.ok s₁
            ∧ ShaderConfig_buffers d' s₁ = Except.ok s₂) →
          (d'.member "uniforms").IsObject = true →
          ((d'.member "uniforms").Members.map (fun m => c_str m.1)).Nodup →
          (∀ m ∈ (d'.member "uniforms").Members, uniform_value_ok m.2) →
          ∃ cfg, ShaderConfig.ShaderConfig d' = Except.ok cfg) := by
  constructor
  · intro hm
    have hne : (d.member "uniforms").Members ≠ [] := by
      rw [hm]; simp
    have hhas : d.HasMember "uniforms" = true := HasMember_of_Members_ne_nil hne
    constructor
    · rcases ShaderConfig_ok_or_throws d with ⟨cfg, h⟩ | h
      · exfalso
        rcases ShaderConfig_ok_uniforms h with ⟨-, hparse⟩ | ⟨hno, -⟩
        · obtain ⟨-, hnodup⟩ := parse_uniforms_ok hparse
          rw [hm] at hnodup
          simp only [List.map_append, List.map_cons, List.nodup_append, List.nodup_cons,
            List.mem_append, List.mem_cons, true_or, or_true, not_true_eq_false, false_and,
            and_false] at hnodup
        · rw [hhas] at hno; cases hno
      · exact h
    · rintro ⟨s₁, s₂, hs1, hs2⟩ ⟨us, hus⟩
      have hloop : parse_uniforms_loop (d.member "uniforms").Members [] []
          = Except.error (runtime_error
              ("Uniform name " ++ c_str n ++ " already used (uniforms must have unique names)")) := by
        have hsplit : pre ++ (n, v) :: (mid ++ (n, w) :: post)
            = (pre ++ (n, v) :: mid) ++ (n, w) :: post := by simp
        rw [hm, hsplit, parse_uniforms_loop_append hus]
        exact parse_uniforms_loop_duplicate (by simp)
      have hpu : parse_uniforms d = Except.error (runtime_error
          ("Uniform name " ++ c_str n ++ " already used (uniforms must have unique names)")) := by
        unfold parse_uniforms
        have h1 : ¬ ((!(d.member "uniforms").IsObject) = true) := by
          simp [IsObject_of_Members_ne_nil hne]
        have h2 : ¬ (((d.member "uniforms").MemberCount == 0) = true) := by
          simpa [Json.MemberCount] using hne
        simp only [if_neg h1, if_neg h2]
        exact hloop
      have hblock : ShaderConfig_uniforms d s₂ = Except.error (runtime_error
          ("Uniform name " ++ c_str n ++ " already used (uniforms must have unique names)")) := by
        unfold ShaderConfig_uniforms
        rw [if_pos hhas, hpu]
        rfl
      unfold ShaderConfig.ShaderConfig
      rw [hs1]
      show (ShaderConfig_buffers d s₁ >>= fun self => ShaderConfig_uniforms d self) = _
      rw [hs2]
      exact hblock
  · rintro ⟨s₁, s₂, hs1, hs2⟩ hobj hnodup hval
    have hpu : ∃ us, parse_uniforms d' = Except.ok us := by
      unfold parse_uniforms
      have h1 : ¬ ((!(d'.member "uniforms").IsObject) = true) := by simp [hobj]
      simp only [if_neg h1]
      by_cases h2 : ((d'.member "uniforms").MemberCount == 0) = true
      · rw [if_pos h2]; exact ⟨[], rfl⟩
      · rw [if_neg h2]
        exact parse_uniforms_loop_total [] hnodup (fun n _ => List.not_mem_nil n) hval
    obtain ⟨us, hpu⟩ := hpu
    have hblock : ∃ cfg, ShaderConfig_uniforms d' s₂ = Except.ok cfg := by
      unfold ShaderConfig_uniforms
      by_cases hh : d'.HasMember "uniforms" = true
      · rw [if_pos hh, hpu]; exact ⟨_, rfl⟩
      · rw [if_neg hh]; exact ⟨_, rfl⟩
    obtain ⟨cfg, hblock⟩ := hblock
    exact ⟨cfg, ShaderConfig_ok.mpr ⟨s₁, s₂, hs1, hs2, hblock⟩⟩

theorem doc_same_name_values :
    ∀ m ∈ (doc_same_name.member "uniforms").Members, uniform_value_ok m.2 := by
  intro m hm
  have : m = ("a", Json.arr []) := List.mem_singleton.mp hm
  rw [this]
  exact Or.inl ⟨rfl, by decide, fun e he => absurd he (List.not_mem_nil e)⟩

/-- The uniform names are compared as C strings: the two distinct member names
`u`, NUL, `x` and `u`, NUL, `y` both read as `u`, and the build throws the
duplicate-name error. -/
theorem uniform_names_collide_as_c_strings :
    ((doc_uniform_nul.member "uniforms").Members.map Prod.fst).Nodup
      ∧ ShaderConfig.ShaderConfig doc_uniform_nul = Except.error (runtime_error
          "Uniform name u already used (uniforms must have unique names)") := by
  decide

/-- C16 (amended) at `doc_duplicate_uniform`, whose uniforms are `u`, `v`, `u`,
and at `doc_same_name`, which has a buffer `a` and a uniform `a`. -/
theorem C16_witness :
    ((doc_duplicate_uniform.member "uniforms").Members
        = [] ++ ("u", Json.int 1)
            :: ([("v", Json.arr [Json.int 2, Json.int 3])] ++ ("u", Json.int 4) :: [])
      ∧ (∃ what, ShaderConfig.ShaderConfig doc_duplicate_uniform
          = Except.error (runtime_error what))
      ∧ ShaderConfig.ShaderConfig doc_duplicate_uniform = Except.error (runtime_error
          ("Uniform name " ++ c_str "u" ++ " already used (uniforms must have unique names)")))
    ∧ ((doc_same_name.member "buffers").Members.map (fun m => c_str m.1) = ["a"]
      ∧ (doc_same_name.member "uniforms").Members.map (fun m => c_str m.1) = ["a"]
      ∧ ∃ cfg, ShaderConfig.ShaderConfig doc_same_name = Except.ok cfg) :=
  ⟨⟨rfl,
      ((C16_duplicate_uniform_name_fails doc_duplicate_uniform doc_same_name []
        [("v", Json.arr [Json.int 2, Json.int 3])] [] "u" (Json.int 1) (Json.int 4)).1 rfl).1,
      ((C16_duplicate_uniform_name_fails doc_duplicate_uniform doc_same_name []
        [("v", Json.arr [Json.int 2, Json.int 3])] [] "u" (Json.int 1) (Json.int 4)).1 rfl).2
        ⟨_, _, rfl, rfl⟩ ⟨_, rfl⟩⟩,
    ⟨rfl, rfl,
      (C16_duplicate_uniform_name_fails doc_duplicate_uniform doc_same_name []
        [("v", Json.arr [Json.int 2, Json.int 3])] [] "u" (Json.int 1) (Json.int 4)).2
        ⟨_, _, rfl, rfl⟩ rfl (by decide) doc_same_name_values⟩⟩

/-- C17, as stated, fails just above 1: the range test is made on the `float`
the value is converted to, so `fft_smooth = 1 + 2^-30`, which is strictly above
1, is accepted and stored as `1`. -/
theorem C17_counterexample :
    (1 : Rat) < 1 + 1 / 2 ^ 30
      ∧ (doc_audio_above.member "audio_options").FindMember "fft_smooth"
          = some (Json.dbl (1 + 1 / 2 ^ 30))
      ∧ parse_audio_options doc_audio_above
          = Except.ok { fft_smooth := Float32.fin 1, wave_smooth := Float32.fin 0.5,
                        fft_sync := true, diff_sync := false } :=
  ⟨by norm_num, rfl, by decide!⟩

/-- C17, amended: `parse_audio_options` succeeds exactly when `audio_options` is
an object that has the four keys, `fft_smooth` and `wave_smooth` are numbers
whose `float` conversions lie in `[0, 1]`, and `fft_sync` and `diff_sync` are
booleans; the result then holds the two `float` conversions and the two
booleans.  Every number written within `[0, 1]` (0 and 1 included) is accepted,
and a number whose conversion is below 0 or above 1 (an infinity included) is
rejected. -/
theorem C17_parse_audio_options (d : Json) :
    (∀ ao : AudioOptions, parse_audio_options d = Except.ok ao ↔
        (d.member "audio_options").IsObject = true
          ∧ ∃ (fs ws : Json) (fy dy : Bool),
              (d.member "audio_options").FindMember "fft_smooth" = some fs
              ∧ (d.member "audio_options").FindMember "wave_smooth" = some ws
              ∧ (d.member "audio_options").FindMember "fft_sync" = some (Json.bool fy)
              ∧ (d.member "audio_options").FindMember "diff_sync" = some (Json.bool dy)
              ∧ fs.IsNumber = true ∧ ws.IsNumber = true
              ∧ (Float32.fin 0 ≤ fs.GetFloat ∧ fs.GetFloat ≤ Float32.fin 1)
              ∧ (Float32.fin 0 ≤ ws.GetFloat ∧ ws.GetFloat ≤ Float32.fin 1)
              ∧ ao = { fft_smooth := fs.GetFloat, wave_smooth := ws.GetFloat,
                       fft_sync := fy, diff_sync := dy })
      ∧ (∀ (fs ws : Json) (fy dy : Bool),
          (d.member "audio_options").IsObject = true →
          (d.member "audio_options").FindMember "fft_smooth" = some fs →
          (d.member "audio_options").FindMember "wave_smooth" = some ws →
          (d.member "audio_options").FindMember "fft_sync" = some (Json.bool fy) →
          (d.member "audio_options").FindMember "diff_sync" = some (Json.bool dy) →
          in_unit_interval fs → in_unit_interval ws →
          parse_audio_options d = Except.ok
            { fft_smooth := fs.GetFloat, wave_smooth := ws.GetFloat,
              fft_sync := fy, diff_sync := dy })
      ∧ (∀ fs ws : Json,
          (d.member "audio_options").FindMember "fft_smooth" = some fs →
          (d.member "audio_options").FindMember "wave_smooth" = some ws →
          (fs.GetFloat < Float32.fin 0 ∨ Float32.fin 1 < fs.GetFloat
            ∨ ws.GetFloat < Float32.fin 0 ∨ Float32.fin 1 < ws.GetFloat) →
          ∃ what, parse_audio_options d = Except.error (runtime_error what)) := by
  refine ⟨fun ao => parse_audio_options_ok_iff, ?_, ?_⟩
  · intro fs ws fy dy hobj f1 f2 f3 f4 hfs hws
    exact parse_audio_options_ok_iff.mpr ⟨hobj, fs, ws, fy, dy, f1, f2, f3, f4,
      IsNumber_of_in_unit_interval hfs, IsNumber_of_in_unit_interval hws,
      GetFloat_unit_interval hfs, GetFloat_unit_interval hws, rfl⟩
  · intro fs ws f1 f2 hout
    cases hres : parse_audio_options d with
    | error e =>
      obtain ⟨what, rfl⟩ := (Error.thrown_iff e).mp (parse_audio_options_throws d e hres)
      exact ⟨what, rfl⟩
    | ok ao =>
      exfalso
      obtain ⟨-, fs', ws', fy, dy, f1', f2', -, -, -, -, ⟨r1, r2⟩, ⟨r3, r4⟩, -⟩ :=
        parse_audio_options_ok_iff.mp hres
      rw [f1] at f1'
      rw [f2] at f2'
      cases f1'
      cases f2'
      rcases hout with h | h | h | h
      · exact Float32.not_lt.mpr r1 h
      · exact Float32.not_lt.mpr r2 h
      · exact Float32.not_lt.mpr r3 h
      · exact Float32.not_lt.mpr r4 h

/-- C17 (amended) at `doc_audio_bounds`, where 0 and 1 are accepted, and at
`doc_audio_out_of_range`, where 1.5 is rejected. -/
theorem C17_witness :
    (in_unit_interval (Json.int 0) ∧ in_unit_interval (Json.int 1)
      ∧ parse_audio_options doc_audio_bounds = Except.ok
          { fft_smooth := (Json.int 0).GetFloat, wave_smooth := (Json.int 1).GetFloat,
            fft_sync := true, diff_sync := false }
      ∧ (Json.int 0).GetFloat = Float32.fin 0 ∧ (Json.int 1).GetFloat = Float32.fin 1)
    ∧ (Float32.fin 1 < (Json.dbl 1.5).GetFloat
      ∧ ∃ what, parse_audio_options doc_audio_out_of_range
          = Except.error (runtime_error what)) :=
  ⟨⟨Or.inr ⟨0, rfl, by decide, by decide⟩, Or.inr ⟨1, rfl, by decide, by decide⟩,
      (C17_parse_audio_options doc_audio_bounds).2.1 _ _ true false rfl rfl rfl rfl rfl
        (Or.inr ⟨0, rfl, by decide, by decide⟩) (Or.inr ⟨1, rfl, by decide, by decide⟩),
      by decide!, by decide!⟩,
    ⟨by decide!,
      (C17_parse_audio_options doc_audio_out_of_range).2.2 (Json.dbl 1.5) (Json.int 1)
        rfl rfl (Or.inr (Or.inl (by decide!)))⟩⟩

/-- C18: an `audio_options` object that lacks `fft_sync` only is rejected with
the message of the `fft_smooth` check, a key that is present: the `fft_sync`
check throws the text of the `fft_smooth` one. -/
theorem C18_missing_fft_sync_names_fft_smooth :
    (doc_audio_no_fft_sync.member "audio_options").HasMember "fft_smooth" = true
      ∧ (doc_audio_no_fft_sync.member "audio_options").HasMember "wave_smooth" = true
      ∧ (doc_audio_no_fft_sync.member "audio_options").HasMember "fft_sync" = false
      ∧ (doc_audio_no_fft_sync.member "audio_options").HasMember "diff_sync" = true
      ∧ parse_audio_options doc_audio_no_fft_sync
          = Except.error (runtime_error "Audio options must contain the fft_smooth option")
      ∧ ShaderConfig.ShaderConfig doc_audio_no_fft_sync
          = Except.error (runtime_error "Audio options must contain the fft_smooth option") :=
  ⟨rfl, rfl, rfl, rfl, rfl, rfl⟩

/-- C19: a member whose key the constructor does not read changes nothing.  The
build result is the same with and without a member `key` at the top level (for
`key` outside the eight top-level keys), inside the `image` object (for `key`
other than `geom_iters` and `clear_color`), inside `audio_options` (for `key`
outside its four keys) and inside a buffer definition (for `key` other than
`size`, `geom_iters` and `clear_color`), wherever the member is put. -/
theorem C19_unread_keys_change_nothing (key name : String) (v : Json)
    (pre post inner_pre inner_post bpre bpost : List (String × Json)) :
    (key ∉ ["initial_window_size", "audio_enabled", "audio_options", "blend", "image",
          "buffers", "render_order", "uniforms"] →
        ShaderConfig.ShaderConfig (Json.obj (pre ++ (key, v) :: post))
          = ShaderConfig.ShaderConfig (Json.obj (pre ++ post)))
      ∧ (key ∉ ["geom_iters", "clear_color"] →
        ShaderConfig.ShaderConfig
            (Json.obj (pre ++ ("image", Json.obj (inner_pre ++ (key, v) :: inner_post)) :: post))
          = ShaderConfig.ShaderConfig
            (Json.obj (pre ++ ("image", Json.obj (inner_pre ++ inner_post)) :: post)))
      ∧ (key ∉ ["fft_smooth", "wave_smooth", "fft_sync", "diff_sync"] →
        ShaderConfig.ShaderConfig
            (Json.obj (pre ++ ("audio_options",
              Json.obj (inner_pre ++ (key, v) :: inner_post)) :: post))
          = ShaderConfig.ShaderConfig
            (Json.obj (pre ++ ("audio_options", Json.obj (inner_pre ++ inner_post)) :: post)))
      ∧ (key ∉ ["size", "geom_iters", "clear_color"] →
        ShaderConfig.ShaderConfig
            (Json.obj (pre ++ ("buffers", Json.obj (bpre
              ++ (name, Json.obj (inner_pre ++ (key, v) :: inner_post)) :: bpost)) :: post))
          = ShaderConfig.ShaderConfig
            (Json.obj (pre ++ ("buffers", Json.obj (bpre
              ++ (name, Json.obj (inner_pre ++ inner_post)) :: bpost)) :: post))) := by
  refine ⟨?_, ?_, ?_, ?_⟩
  · intro hkey
    exact ShaderConfig_congr (same_reading_of_FindMember rfl
      (fun k hk => FindMember_insert (fun hkk => hkey (hkk ▸ hk))))
  · intro hkey
    exact ShaderConfig_congr (same_reading_replace pre post "image"
      (fun h => absurd h (by decide)) (fun _ => agree_insert hkey)
      (fun h => absurd h (by decide)) (by decide))
  · intro hkey
    exact ShaderConfig_congr (same_reading_replace pre post "audio_options"
      (fun _ => agree_insert hkey) (fun h => absurd h (by decide))
      (fun h => absurd h (by decide)) (by decide))
  · intro hkey
    exact ShaderConfig_congr (same_reading_replace pre post "buffers"
      (fun h => absurd h (by decide)) (fun h => absurd h (by decide))
      (fun _ => ⟨rfl, forall₂_agree_replace _ bpre bpost name (agree_insert hkey)⟩)
      (by decide))

/-- C19 with the key `"note"`: at the top level, inside `image`, inside
`audio_options` and inside the buffer `b`. -/
theorem C19_witness :
    ("note" ∉ ["initial_window_size", "audio_enabled", "audio_options", "blend", "image",
          "buffers", "render_order", "uniforms"]
      ∧ ShaderConfig.ShaderConfig
            (Json.obj [("blend", Json.bool true), ("note", Json.str "x"),
                       ("image", Json.obj [("geom_iters", Json.int 1)])])
          = ShaderConfig.ShaderConfig
            (Json.obj [("blend", Json.bool true),
                       ("image", Json.obj [("geom_iters", Json.int 1)])]))
    ∧ ("note" ∉ ["geom_iters", "clear_color"]
      ∧ ShaderConfig.ShaderConfig
            (Json.obj [("image", Json.obj [("note", Json.str "x"),
                                           ("geom_iters", Json.int 1)])])
          = ShaderConfig.ShaderConfig
            (Json.obj [("image", Json.obj [("geom_iters", Json.int 1)])]))
    ∧ ("note" ∉ ["fft_smooth", "wave_smooth", "fft_sync", "diff_sync"]
      ∧ ShaderConfig.ShaderConfig
            (Json.obj [("audio_options", Json.obj [("fft_smooth", Json.int 1),
                          ("note", Json.str "x"), ("wave_smooth", Json.int 0),
                          ("fft_sync", Json.bool true), ("diff_sync", Json.bool true)]),
                       ("image", Json.obj [("geom_iters", Json.int 1)])])
          = ShaderConfig.ShaderConfig
            (Json.obj [("audio_options", Json.obj [("fft_smooth", Json.int 1),
                          ("wave_smooth", Json.int 0),
                          ("fft_sync", Json.bool true), ("diff_sync", Json.bool true)]),
                       ("image", Json.obj [("geom_iters", Json.int 1)])]))
    ∧ ("note" ∉ ["size", "geom_iters", "clear_color"]
      ∧ ShaderConfig.ShaderConfig
            (Json.obj [("image", Json.obj [("geom_iters", Json.int 1)]),
                       ("buffers", Json.obj [("a", buffer_1x1),
                          ("b", Json.obj [("size", Json.str "window_size"),
                                          ("note", Json.str "x"),
                                          ("geom_iters", Json.int 2)])])])
          = ShaderConfig.ShaderConfig
            (Json.obj [("image", Json.obj [("geom_iters", Json.int 1)]),
                       ("buffers", Json.obj [("a", buffer_1x1),
                          ("b", Json.obj [("size", Json.str "window_size"),
                                          ("geom_iters", Json.int 2)])])])) :=
  ⟨⟨by decide,
      (C19_unread_keys_change_nothing "note" "" (Json.str "x")
        [("blend", Json.bool true)] [("image", Json.obj [("geom_iters", Json.int 1)])]
        [] [] [] []).1 (by decide)⟩,
    ⟨by decide,
      (C19_unread_keys_change_nothing "note" "" (Json.str "x") [] []
        [] [("geom_iters", Json.int 1)] [] []).2.1 (by decide)⟩,
    ⟨by decide,
      (C19_unread_keys_change_nothing "note" "" (Json.str "x")
        [] [("image", Json.obj [("geom_iters", Json.int 1)])]
        [("fft_smooth", Json.int 1)]
        [("wave_smooth", Json.int 0), ("fft_sync", Json.bool true),
         ("diff_sync", Json.bool true)] [] []).2.2.1 (by decide)⟩,
    ⟨by decide,
      (C19_unread_keys_change_nothing "note" "b" (Json.str "x")
        [("image", Json.obj [("geom_iters", Json.int 1)])] []
        [("size", Json.str "window_size")] [("geom_iters", Json.int 2)]
        [("a", buffer_1x1)] []).2.2.2 (by decide)⟩⟩

/-- C20: the indices `parse_render_order` returns for a buffer list are positions
of that list, so the loop of `delete_unused_buffers` run on them stays within
bounds and returns; and no build ends in an out-of-range access. -/
theorem C20_render_order_indices_in_range (d : Json) (buffers : List Buffer)
    (render_order : List Nat)
    (h : parse_render_order d buffers = Except.ok render_order) :
    (∀ i ∈ render_order, i < buffers.length)
      ∧ (∀ i ∈ render_order, ∃ b, buffers[i]? = some b)
      ∧ (∃ kept, delete_unused_buffers buffers render_order = Except.ok kept)
      ∧ ShaderConfig.ShaderConfig d ≠ Except.error Error.undefined_behaviour := by
  have hlt := parse_render_order_lt h
  refine ⟨hlt, ?_, delete_unused_buffers_loop_total hlt [] [], ?_⟩
  · intro i hi
    have hi₁ : i < buffers.length := hlt i hi
    exact ⟨buffers[i], List.getElem?_eq_getElem hi₁⟩
  · intro hub
    exact ShaderConfig_throws d _ hub

/-- C20 at `doc_three_buffers` and the buffers `parse_buffers` returns for it. -/
theorem C20_witness :
    ∃ buffers render_order, parse_buffers doc_three_buffers = Except.ok buffers
      ∧ parse_render_order doc_three_buffers buffers = Except.ok render_order
      ∧ render_order = [2, 0, 2] ∧ buffers.length = 3
      ∧ (∀ i ∈ render_order, i < buffers.length)
      ∧ (∀ i ∈ render_order, ∃ b, buffers[i]? = some b)
      ∧ (∃ kept, delete_unused_buffers buffers render_order = Except.ok kept)
      ∧ ShaderConfig.ShaderConfig doc_three_buffers ≠ Except.error Error.undefined_behaviour :=
  ⟨_, _, rfl, rfl, rfl, rfl, C20_render_order_indices_in_range doc_three_buffers _ _ rfl⟩

end MusicVisualizer
